import Mathlib

/-!
# The layout pass of the terminal interface

A shallow embedding of `pkg/gui/layout.go`: `informationStr`, `layout` and
`onInitialViewsCreation`.

* The Go receiver `gui` is split in two.  `Env` is the part a pass only reads
  (terminal size, mode flags, selections, the results its collaborators
  return); `Gui` is the part a pass writes (the surfaces of the rendering
  backend and their stacking order, the cached information string, the
  previous main size, the focused context).
* Collaborators that live outside `layout.go` are not executed.  A call to one
  is recorded, with its arguments, in `Gui.log`, and the error it returns is
  the one `Env` prescribes.
* The statements of `layout` run in source order; `layoutSteps` lists the
  blocks, `runSteps` is Go's "return on the first error".
-/

namespace Lazygit

/-! ## Values -/

/-- Go `error` values that reach `layout`.  `unknownView` is the backend's
sentinel whose text is "unknown view"; every other failure is `other`, and its
text is never "unknown view".  The test `err.Error() != "unknown view"` is
therefore the test `err ≠ unknownView`. -/
inductive GoError
  | unknownView
  | other (code : Nat)
  deriving DecidableEq, Repr

/-- Colour attributes of `fatih/color` used by `informationStr`. -/
inductive ColorAttr
  | Underline
  | Bold
  | FgRed
  | FgMagenta
  | FgCyan
  deriving DecidableEq, Repr

/-- Modelled from the spec: the strings produced by `utils.ColoredString` and
`color.New(...).Sprint` (the colour service is a collaborator outside
`layout.go`).  A string is plain text, a coloured string, or a concatenation;
`Str.text` is what the terminal shows once colours are set aside. -/
inductive Str
  | lit (s : String)
  | colored (body : Str) (attrs : List ColorAttr)
  | cat (a b : Str)
  deriving DecidableEq, Repr

/-- The visible characters of a string. -/
def Str.text : Str → String
  | .lit s => s
  | .colored body _ => body.text
  | .cat a b => a.text ++ b.text

/-- Colours assigned to surfaces: `gocui.ColorDefault`, `gocui.ColorGreen`,
`gocui.ColorCyan` and the three entries of the theme table that `layout`
reads. -/
inductive Attribute
  | ColorDefault
  | ColorGreen
  | ColorCyan
  | GocuiDefaultTextColor
  | OptionsColor
  | GocuiSelectedLineBgColor
  deriving DecidableEq, Repr

/-- One entry of the mapping returned by `getViewDimensions`. -/
structure Dimensions where
  X0 : Int
  Y0 : Int
  X1 : Int
  Y1 : Int
  deriving DecidableEq, Repr

/-- A surface of the rendering backend (`gocui.View`): bounds, the properties
`layout` assigns, the ownership tag `Context`, content, origin and cursor, and
the context whose search-select handler is bound to it. -/
structure View where
  x0 : Int
  y0 : Int
  x1 : Int
  y1 : Int
  Title : String
  Wrap : Bool
  FgColor : Attribute
  BgColor : Attribute
  SelBgColor : Attribute
  IgnoreCarriageReturns : Bool
  Highlight : Bool
  ContainsList : Bool
  Tabs : List String
  Editable : Bool
  Editor : String
  Frame : Bool
  Context : String
  content : Str
  ox : Int
  oy : Int
  cx : Int
  cy : Int
  onSelectItem : Option String
  deriving DecidableEq, Repr

/-- The bounds of a surface. -/
def View.bounds (v : View) : Int × Int × Int × Int := (v.x0, v.y0, v.x1, v.y1)

/-- Modelled from the spec: `gocui.View.Size`, the inner width and height of a
surface ("query a Surface's current bounds"). -/
def View.Size (v : View) : Int × Int := (v.x1 - v.x0 - 1, v.y1 - v.y0 - 1)

/-- Modelled from the spec: a surface as the backend creates it, with the
given bounds and default properties (framed, no title, default colours, empty
content, origin and cursor at zero, no owner). -/
def newView (x0 y0 x1 y1 : Int) : View :=
  { x0 := x0, y0 := y0, x1 := x1, y1 := y1, Title := "", Wrap := false,
    FgColor := .ColorDefault, BgColor := .ColorDefault, SelBgColor := .ColorDefault,
    IgnoreCarriageReturns := false, Highlight := false, ContainsList := false,
    Tabs := [], Editable := false, Editor := "DefaultEditor", Frame := true,
    Context := "", content := .lit "", ox := 0, oy := 0, cx := 0, cy := 0,
    onSelectItem := none }

/-- The last visible row of a surface, counted from its origin row. -/
def View.lastRow (v : View) : Int := if v.Size.2 - 1 < 0 then 0 else v.Size.2 - 1

/-- Modelled from the spec: `gocui.View.FocusPoint`, "recomputes the Surface's
focus point from (0, selectedLineIndex), scrolling the Surface's viewport so
the selected row is visible".  A negative row (no selection) changes nothing;
a row above the origin scrolls up to it, a row below the last visible row
scrolls down to it, and the cursor lands on the row. -/
def View.FocusPoint (v : View) (cx cy : Int) : View :=
  if cy < 0 then v
  else if cy < v.oy then { v with cx := cx, cy := 0, oy := cy }
  else if cy > v.oy + v.lastRow then { v with cx := cx, cy := v.lastRow, oy := cy - v.lastRow }
  else { v with cx := cx, cy := cy - v.oy }

/-- A call to a collaborator outside `layout.go`, with its arguments. -/
inductive Event
  | ReadLines (manager : String) (n : Int)
  | FocusPoint (view : String) (x y : Int)
  | SetOnSelectItem (view : String) (contextKey : String)
  | setViewContent (view : String) (s : Str)
  | renderString (view : String) (s : Str)
  | createContextTree
  | switchContext (contextKey : String)
  | changeMainViewsContext (context : String)
  | handleCreateRecentReposMenu
  | loadNewRepo
  | onResize
  | resizeCurrentPopupPanel
  deriving DecidableEq, Repr

/-- The selected line of each list panel (`gui.State.Panels.*.SelectedLine`). -/
structure Panels where
  Files : Int
  Branches : Int
  Remotes : Int
  RemoteBranches : Int
  Tags : Int
  Commits : Int
  ReflogCommits : Int
  Stash : Int
  CommitFiles : Int
  Menu : Int

/-- What a layout pass reads and never writes, and what its collaborators
return to it. -/
structure Env where
  /-- The result of `g.Size()`. -/
  width : Int
  height : Int
  /-- The result of `gui.g.CurrentView()`, the name of the current surface. -/
  CurrentView : Option String
  inDiffMode : Bool
  inFilterMode : Bool
  diffStr : String
  FilterPath : String
  CherryPickedCommits : List String
  Mouse : Bool
  /-- The result of `gui.Config.GetVersion()`. -/
  GetVersion : String
  /-- The translation lookup `gui.Tr.SLocalize`. -/
  SLocalize : String → String
  /-- The result of `gui.statusManager.getStatusString()`. -/
  getStatusString : String
  /-- The Dimension Calculator `gui.getViewDimensions`. -/
  getViewDimensions : Str → String → String → Option Dimensions
  /-- Whether `gui.viewBufferManagerMap` holds a manager under a name. -/
  viewBufferManagerMap : String → Bool
  Panels : Panels
  /-- A failure of the backend's create-or-update call for a surface name,
  for a reason other than "unknown view". -/
  setViewFailure : String → Option Nat
  handleCreateRecentReposMenuErr : Option GoError
  loadNewRepoErr : Option GoError
  onResizeErr : Option GoError
  resizeCurrentPopupPanelErr : Option GoError

/-- What a layout pass writes. -/
structure Gui where
  /-- The surfaces of the backend, by name. -/
  views : String → Option View
  /-- The stacking order of the surfaces, bottom first, top last. -/
  order : List String
  Highlight : Bool
  OldInformation : Str
  PrevMainWidth : Int
  PrevMainHeight : Int
  showRecentRepos : Bool
  /-- The focus pointer of the Context Registry: the key of the focused
  context, if any. -/
  focused : Option String
  log : List Event

/-- The outcome of a run of statements: the state reached, and the error that
was returned, if any. -/
structure Result where
  gui : Gui
  err : Option GoError

/-- A block of statements of `layout`. -/
abbrev Step := Gui → Result

/-- Sequencing: run `k` unless an error was returned. -/
def Result.andThen (r : Result) (k : Step) : Result :=
  match r.err with
  | none => k r.gui
  | some e => ⟨r.gui, some e⟩

/-- Runs the blocks in order; the first error is returned and the remaining
blocks are not run. -/
def runSteps : List Step → Step
  | [], gui => ⟨gui, none⟩
  | s :: rest, gui => (s gui).andThen (runSteps rest)

/-- The idiom `if err != nil { if err.Error() != "unknown view" { return err };
init }`: nothing to do when the call succeeded, `init` when the surface was
just created, the error otherwise. -/
def onUnknownView (r : Result) (init : Step) : Result :=
  match r.err with
  | none => ⟨r.gui, none⟩
  | some .unknownView => init r.gui
  | some (.other c) => ⟨r.gui, some (.other c)⟩

/-! ## The rendering backend -/

/-- Appends a collaborator call to the log. -/
def Gui.record (gui : Gui) (e : Event) : Gui := { gui with log := gui.log ++ [e] }

/-- Assigns to the fields of an existing surface. -/
def Gui.modifyView (gui : Gui) (name : String) (f : View → View) : Gui :=
  { gui with views := fun n => if n = name then (gui.views name).map f else gui.views n }

/-- Modelled from the spec: the backend's create-or-update primitive
(`gocui.Gui.SetView`).  An existing surface gets the new bounds and nothing
else changes; a missing surface is created on top of the stacking order and
the "unknown view" condition is raised; a backend failure changes nothing. -/
def Gui.SetView (env : Env) (gui : Gui) (name : String) (x0 y0 x1 y1 : Int) : Result :=
  match env.setViewFailure name with
  | some c => ⟨gui, some (.other c)⟩
  | none =>
    match gui.views name with
    | some v =>
      ⟨{ gui with views := fun n =>
          if n = name then some { v with x0 := x0, y0 := y0, x1 := x1, y1 := y1 }
          else gui.views n }, none⟩
    | none =>
      ⟨{ gui with
          views := fun n => if n = name then some (newView x0 y0 x1 y1) else gui.views n,
          order := gui.order ++ [name] }, some .unknownView⟩

/-- Modelled from the spec: `gocui.Gui.SetViewOnBottom`, sends a surface to the
back of the stacking order; "unknown view" when there is no such surface. -/
def Gui.SetViewOnBottom (gui : Gui) (name : String) : Result :=
  match gui.views name with
  | some _ => ⟨{ gui with order := name :: gui.order.filter (fun n => n ≠ name) }, none⟩
  | none => ⟨gui, some .unknownView⟩

/-- Modelled from the spec: `gocui.Gui.SetViewOnTop`, raises a surface to the
top of the stacking order; "unknown view" when there is no such surface. -/
def Gui.SetViewOnTop (gui : Gui) (name : String) : Result :=
  match gui.views name with
  | some _ => ⟨{ gui with order := gui.order.filter (fun n => n ≠ name) ++ [name] }, none⟩
  | none => ⟨gui, some .unknownView⟩

/-- Modelled from the spec: `gocui.Gui.DeleteView`, removes a surface;
"unknown view" when there is no such surface. -/
def Gui.DeleteView (gui : Gui) (name : String) : Result :=
  match gui.views name with
  | some _ =>
    ⟨{ gui with views := fun n => if n = name then none else gui.views n,
                order := gui.order.filter (fun n => n ≠ name) }, none⟩
  | none => ⟨gui, some .unknownView⟩

/-- Modelled from the spec: `gui.setViewContent`, replaces the content of a
surface. -/
def setViewContent (gui : Gui) (view : String) (s : Str) : Gui :=
  (gui.modifyView view fun v => { v with content := s }).record (.setViewContent view s)

/-- Modelled from the spec: `gui.renderString`, renders a string into the
named surface. -/
def renderString (gui : Gui) (viewName : String) (s : Str) : Gui :=
  (gui.modifyView viewName fun v => { v with content := s }).record (.renderString viewName s)

/-! ## The information string -/

/-- The source's `informationStr`.  `fmt.Sprintf("%s %s %s", a, b, c)` is the
concatenation of its arguments with single spaces between them. -/
def informationStr (env : Env) : Str :=
  if env.inDiffMode then
    .colored
      (.cat (.lit (env.SLocalize "showingGitDiff" ++ " " ++ ("git diff " ++ env.diffStr) ++ " "))
        (.colored (.lit (env.SLocalize "(reset)")) [.Underline]))
      [.FgMagenta]
  else if env.inFilterMode then
    .colored
      (.cat (.lit (env.SLocalize "filteringBy" ++ " '" ++ env.FilterPath ++ "' "))
        (.colored (.lit (env.SLocalize "(reset)")) [.Underline]))
      [.FgRed, .Bold]
  else if env.CherryPickedCommits.length > 0 then
    .colored (.lit (toString env.CherryPickedCommits.length ++ " commits copied")) [.FgCyan]
  else if env.Mouse then
    let donate := Str.colored (.lit (env.SLocalize "Donate")) [.FgMagenta, .Underline]
    .cat (.cat donate (.lit " ")) (.lit env.GetVersion)
  else
    .lit env.GetVersion

/-! ## Contexts -/

/-- A context as `layout` sees it: its key and the surface it displays in. -/
structure Context where
  key : String
  viewName : String
  deriving DecidableEq, Repr

/-- The file-list context `gui.Contexts.Files.Context`. -/
def Contexts.Files : Context := { key := "files", viewName := "files" }

/-- The branch-commit-list context `gui.Contexts.BranchCommits.Context`. -/
def Contexts.BranchCommits : Context := { key := "branch-commits", viewName := "commits" }

/-- The surface of each list context, as `listContextStates` pairs them. -/
def contextViewName (key : String) : Option String :=
  if key = "files" then some "files"
  else if key = "local-branches" ∨ key = "remotes" ∨ key = "remote-branches" ∨ key = "tags" then
    some "branches"
  else if key = "branch-commits" ∨ key = "reflog-commits" then some "commits"
  else if key = "stash" then some "stash"
  else if key = "commit-files" then some "commitFiles"
  else if key = "menu" then some "menu"
  else none

/-- The error `switchContext` returns when the target has no surface yet. -/
def ContextUnavailable : GoError := .other 0

/-- Modelled from the spec: the first half of `switchContext`, "marks the
previously Focused Context Unfocused (lowers its Surface in stacking order if
it shares a Panel with another Context)".  The surfaces shared by several
contexts are "branches" and "commits". -/
def unfocusPrevious (gui : Gui) : Gui :=
  match gui.focused.bind contextViewName with
  | some previous =>
    if previous = "branches" ∨ previous = "commits" then (gui.SetViewOnBottom previous).gui
    else gui
  | none => gui

/-- Modelled from the spec: the second half of `switchContext`, "marks target
Focused, raises its Surface, and updates the ownership tag for that Panel to
target". -/
def focusTarget (gui : Gui) (target : Context) : Gui :=
  (({ gui with focused := some target.key }.SetViewOnTop target.viewName).gui.modifyView
    target.viewName fun v => { v with Context := target.key })

/-- Modelled from the spec: `switchContext(target)` of the Context Registry.
"If target's Panel's Surface exists, marks the previously Focused Context
Unfocused (lowers its Surface in stacking order if it shares a Panel with
another Context), marks target Focused, raises its Surface, and updates the
ownership tag for that Panel to target.  Fails with a ContextUnavailable
condition if the target's Surface does not yet exist." -/
def switchContext (gui : Gui) (target : Context) : Result :=
  let gui := gui.record (.switchContext target.key)
  match gui.views target.viewName with
  | none => ⟨gui, some ContextUnavailable⟩
  | some _ => ⟨focusTarget (unfocusPrevious gui) target, none⟩

/-- The source's `onInitialViewsCreation`. -/
def onInitialViewsCreation (env : Env) (gui : Gui) : Result :=
  let gui := gui.record .createContextTree
  (switchContext gui Contexts.Files).andThen fun gui =>
  let gui := gui.record (.changeMainViewsContext "normal")
  (if gui.showRecentRepos then
      (Result.mk (gui.record .handleCreateRecentReposMenu) env.handleCreateRecentReposMenuErr).andThen
        fun gui => ⟨{ gui with showRecentRepos := false }, none⟩
    else ⟨gui, none⟩).andThen fun gui =>
  ⟨gui.record .loadNewRepo, env.loadNewRepoErr⟩

/-! ## The layout pass -/

def SEARCH_PREFIX : String := "search: "

def INFO_SECTION_PADDING : String := " "

def minimumHeight : Int := 9

def minimumWidth : Int := 10

def hiddenViewOffset : Int := 9999

/-- The source's `textColor := theme.GocuiDefaultTextColor`. -/
def textColor : Attribute := .GocuiDefaultTextColor

/-- The closure `setViewFromDimensions` of `layout`: the create-or-update call
for `viewName` with the region computed for `windowName`. -/
def setViewFromDimensions (env : Env) (viewDimensions : String → Option Dimensions) (gui : Gui)
    (viewName windowName : String) (frame : Bool) : Result :=
  match viewDimensions windowName with
  | none =>
    -- view not specified in dimensions object: so create the view and hide it
    let r := gui.SetView env viewName 0 0 0 0
    match r.err with
    | some err => ⟨r.gui, some err⟩
    | none => r.gui.SetViewOnBottom viewName
  | some dimensionsObj =>
    let frameOffset : Int := if frame then 0 else 1
    gui.SetView env viewName
      (dimensionsObj.X0 - frameOffset)
      (dimensionsObj.Y0 - frameOffset)
      (dimensionsObj.X1 + frameOffset)
      (dimensionsObj.Y1 + frameOffset)

/-- The branch of `layout` taken below the minimum size (the body of
`if height < minimumHeight || width < minimumWidth`). -/
def layoutLimit (env : Env) : Step := fun gui =>
  onUnknownView (gui.SetView env "limit" 0 0 (env.width - 1) (env.height - 1)) fun gui =>
    let gui := gui.modifyView "limit" fun v =>
      { v with Title := env.SLocalize "NotEnoughSpace", Wrap := true }
    ⟨(gui.SetViewOnTop "limit").gui, none⟩

/-- The statements `_, _ = g.SetViewOnBottom("limit")` and
`_ = g.DeleteView("limit")`. -/
def deleteLimit : Step := fun gui =>
  ⟨((gui.SetViewOnBottom "limit").gui.DeleteView "limit").gui, none⟩

/-- Reading more lines into main view buffers upon resize.  A window missing
from the mapping reads as Go's zero value. -/
def readMoreLines (env : Env) (viewDimensions : String → Option Dimensions) : Step := fun gui =>
  match gui.views "main" with
  | some prevMainView =>
    let prevMainHeight := prevMainView.Size.2
    let main := (viewDimensions "main").getD ⟨0, 0, 0, 0⟩
    let newMainHeight := main.Y1 - main.Y0 - 1
    let heightDiff := newMainHeight - prevMainHeight
    if heightDiff > 0 then
      let gui := if env.viewBufferManagerMap "main" then gui.record (.ReadLines "main" heightDiff)
        else gui
      let gui := if env.viewBufferManagerMap "secondary" then
          gui.record (.ReadLines "secondary" heightDiff)
        else gui
      ⟨gui, none⟩
    else ⟨gui, none⟩
  | none => ⟨gui, none⟩

def layoutMain (env : Env) (viewDimensions : String → Option Dimensions) : Step := fun gui =>
  onUnknownView (setViewFromDimensions env viewDimensions gui "main" "main" true) fun gui =>
    ⟨gui.modifyView "main" fun v =>
      { v with Title := env.SLocalize "DiffTitle", Wrap := true, FgColor := textColor,
               IgnoreCarriageReturns := true }, none⟩

def layoutSecondary (env : Env) (viewDimensions : String → Option Dimensions) : Step := fun gui =>
  onUnknownView (setViewFromDimensions env viewDimensions gui "secondary" "secondary" true)
    fun gui =>
    ⟨gui.modifyView "secondary" fun v =>
      { v with Title := env.SLocalize "DiffTitle", Wrap := true, FgColor := textColor,
               IgnoreCarriageReturns := true }, none⟩

def layoutStatus (env : Env) (viewDimensions : String → Option Dimensions) : Step := fun gui =>
  onUnknownView (setViewFromDimensions env viewDimensions gui "status" "status" true) fun gui =>
    ⟨gui.modifyView "status" fun v =>
      { v with Title := env.SLocalize "StatusTitle", FgColor := textColor }, none⟩

def layoutFiles (env : Env) (viewDimensions : String → Option Dimensions) : Step := fun gui =>
  onUnknownView (setViewFromDimensions env viewDimensions gui "files" "files" true) fun gui =>
    ⟨gui.modifyView "files" fun v =>
      { v with Highlight := true, Title := env.SLocalize "FilesTitle", ContainsList := true },
      none⟩

def layoutBranches (env : Env) (viewDimensions : String → Option Dimensions) : Step := fun gui =>
  onUnknownView (setViewFromDimensions env viewDimensions gui "branches" "branches" true)
    fun gui =>
    ⟨gui.modifyView "branches" fun v =>
      { v with Title := env.SLocalize "BranchesTitle",
               Tabs := ["Local Branches", "Remotes", "Tags"], FgColor := textColor,
               ContainsList := true }, none⟩

def layoutCommitFiles (env : Env) (viewDimensions : String → Option Dimensions) : Step :=
  fun gui =>
  onUnknownView (setViewFromDimensions env viewDimensions gui "commitFiles" "commits" true)
    fun gui =>
    ⟨gui.modifyView "commitFiles" fun v =>
      { v with Title := env.SLocalize "CommitFiles", FgColor := textColor,
               ContainsList := true }, none⟩

def layoutCommits (env : Env) (viewDimensions : String → Option Dimensions) : Step := fun gui =>
  onUnknownView (setViewFromDimensions env viewDimensions gui "commits" "commits" true) fun gui =>
    ⟨gui.modifyView "commits" fun v =>
      { v with Title := env.SLocalize "CommitsTitle", Tabs := ["Commits", "Reflog"],
               FgColor := textColor, ContainsList := true }, none⟩

def layoutStash (env : Env) (viewDimensions : String → Option Dimensions) : Step := fun gui =>
  onUnknownView (setViewFromDimensions env viewDimensions gui "stash" "stash" true) fun gui =>
    ⟨gui.modifyView "stash" fun v =>
      { v with Title := env.SLocalize "StashTitle", FgColor := textColor,
               ContainsList := true }, none⟩

/-- The block `if gui.getCommitMessageView() == nil { ... }`. -/
def layoutCommitMessage (env : Env) : Step := fun gui =>
  if gui.views "commitMessage" = none then
    -- doesn't matter where this view starts because it will be hidden
    onUnknownView
      (gui.SetView env "commitMessage" hiddenViewOffset hiddenViewOffset
        (hiddenViewOffset + 10) (hiddenViewOffset + 10)) fun gui =>
      let gui := (gui.SetViewOnBottom "commitMessage").gui
      ⟨gui.modifyView "commitMessage" fun v =>
        { v with Title := env.SLocalize "CommitMessage", FgColor := textColor,
                 Editable := true, Editor := "commitMessageEditor" }, none⟩
  else ⟨gui, none⟩

/-- The block `if check, _ := g.View("credentials"); check == nil { ... }`. -/
def layoutCredentials (env : Env) : Step := fun gui =>
  if gui.views "credentials" = none then
    -- doesn't matter where this view starts because it will be hidden
    onUnknownView
      (gui.SetView env "credentials" hiddenViewOffset hiddenViewOffset
        (hiddenViewOffset + 10) (hiddenViewOffset + 10)) fun gui =>
      let gui := (gui.SetViewOnBottom "credentials").gui
      ⟨gui.modifyView "credentials" fun v =>
        { v with Title := env.SLocalize "CredentialsUsername", FgColor := textColor,
                 Editable := true }, none⟩
  else ⟨gui, none⟩

def layoutOptions (env : Env) (viewDimensions : String → Option Dimensions) : Step := fun gui =>
  onUnknownView (setViewFromDimensions env viewDimensions gui "options" "options" false) fun gui =>
    let gui := gui.modifyView "options" fun v => { v with Frame := false, FgColor := .OptionsColor }
    -- doing this here because it'll only happen once
    onInitialViewsCreation env gui

/-- This view takes up one character.  Its only purpose is to show the slash
when searching. -/
def layoutSearchPrefix (env : Env) (viewDimensions : String → Option Dimensions) : Step :=
  fun gui =>
  onUnknownView (setViewFromDimensions env viewDimensions gui "searchPrefix" "searchPrefix" false)
    fun gui =>
    let gui := gui.modifyView "searchPrefix" fun v =>
      { v with BgColor := .ColorDefault, FgColor := .ColorGreen, Frame := false }
    ⟨setViewContent gui "searchPrefix" (.lit SEARCH_PREFIX), none⟩

def layoutSearch (env : Env) (viewDimensions : String → Option Dimensions) : Step := fun gui =>
  onUnknownView (setViewFromDimensions env viewDimensions gui "search" "search" false) fun gui =>
    ⟨gui.modifyView "search" fun v =>
      { v with BgColor := .ColorDefault, FgColor := .ColorGreen, Frame := false,
               Editable := true }, none⟩

def layoutAppStatus (env : Env) (viewDimensions : String → Option Dimensions) : Step := fun gui =>
  onUnknownView (setViewFromDimensions env viewDimensions gui "appStatus" "appStatus" false)
    fun gui =>
    let gui := gui.modifyView "appStatus" fun v =>
      { v with BgColor := .ColorDefault, FgColor := .ColorCyan, Frame := false }
    ⟨(gui.SetViewOnBottom "appStatus").gui, none⟩

/-- The information surface, and the rewrite of its content when the
information string changed since the last pass. -/
def layoutInformation (env : Env) (viewDimensions : String → Option Dimensions)
    (informationStr : Str) : Step := fun gui =>
  (onUnknownView (setViewFromDimensions env viewDimensions gui "information" "information" false)
    fun gui =>
    let gui := gui.modifyView "information" fun v =>
      { v with BgColor := .ColorDefault, FgColor := .ColorGreen, Frame := false }
    ⟨renderString gui "information" (.cat (.lit INFO_SECTION_PADDING) informationStr), none⟩).andThen
  fun gui =>
  if gui.OldInformation ≠ informationStr then
    ⟨{ setViewContent gui "information" informationStr with OldInformation := informationStr },
      none⟩
  else ⟨gui, none⟩

/-- The local `initialContext` of `layout`. -/
def initialContext (env : Env) : Context :=
  if env.inFilterMode then Contexts.BranchCommits else Contexts.Files

/-- The block `if gui.g.CurrentView() == nil { ... }`. -/
def initialFocus (env : Env) : Step := fun gui =>
  if env.CurrentView = none then switchContext gui (initialContext env)
  else ⟨gui, none⟩

/-- The source's `listContextState`; `view` is the name of the surface the
pointer refers to, and `contextKey` also stands for the context's
search-select handler.  The field `lineCount` is never read by `layout`. -/
structure listContextState where
  view : String
  contextKey : String
  selectedLine : Int
  deriving DecidableEq, Repr

/-- The source's `listContextStates`; the menu entry is appended when the menu
surface exists. -/
def listContextStates (env : Env) (gui : Gui) : List listContextState :=
  [ { view := "files", contextKey := "files", selectedLine := env.Panels.Files },
    { view := "branches", contextKey := "local-branches", selectedLine := env.Panels.Branches },
    { view := "branches", contextKey := "remotes", selectedLine := env.Panels.Remotes },
    { view := "branches", contextKey := "remote-branches",
      selectedLine := env.Panels.RemoteBranches },
    { view := "branches", contextKey := "tags", selectedLine := env.Panels.Tags },
    { view := "commits", contextKey := "branch-commits", selectedLine := env.Panels.Commits },
    { view := "commits", contextKey := "reflog-commits",
      selectedLine := env.Panels.ReflogCommits },
    { view := "stash", contextKey := "stash", selectedLine := env.Panels.Stash },
    { view := "commitFiles", contextKey := "commit-files",
      selectedLine := env.Panels.CommitFiles } ] ++
  -- menu view might not exist so we check to be safe
  (if (gui.views "menu").isSome then
    [{ view := "menu", contextKey := "menu", selectedLine := env.Panels.Menu }]
  else [])

/-- The three assignments of the loop body to the surface of a context:
`FocusPoint(0, selectedLine)`, `SelBgColor`, `SetOnSelectItem`. -/
def refocusView (s : listContextState) (v : View) : View :=
  { v.FocusPoint 0 s.selectedLine with
    SelBgColor := .GocuiSelectedLineBgColor, onSelectItem := some s.contextKey }

/-- The body of the loop over `listContextStates`. -/
def refocus (gui : Gui) (s : listContextState) : Gui :=
  match gui.views s.view with
  | none => gui
  | some view =>
    -- ignore contexts whose view is owned by another context right now
    if view.Context ≠ s.contextKey then gui
    else
      -- check if the selected line is now out of view and if so refocus it
      ((gui.modifyView s.view (refocusView s)).record (.FocusPoint s.view 0 s.selectedLine)).record
        (.SetOnSelectItem s.view s.contextKey)

/-- The loop `for _, listContextState := range listContextStates`. -/
def syncListContexts (env : Env) : Step := fun gui =>
  ⟨(listContextStates env gui).foldl refocus gui, none⟩

/-- The block after the loop: fire the resize hook when the size of the main
surface differs from the size remembered in the state. -/
def resizeHook (env : Env) : Step := fun gui =>
  match gui.views "main" with
  | none => ⟨gui, none⟩
  | some mainView =>
    let mainViewWidth := mainView.Size.1
    let mainViewHeight := mainView.Size.2
    if mainViewWidth ≠ gui.PrevMainWidth ∨ mainViewHeight ≠ gui.PrevMainHeight then
      let gui := { gui with PrevMainWidth := mainViewWidth, PrevMainHeight := mainViewHeight }
      ⟨gui.record .onResize, env.onResizeErr⟩
    else ⟨gui, none⟩

/-- The final statement `return gui.resizeCurrentPopupPanel()`. -/
def resizeCurrentPopupPanel (env : Env) : Step := fun gui =>
  ⟨gui.record .resizeCurrentPopupPanel, env.resizeCurrentPopupPanelErr⟩

/-- The mapping computed by `gui.getViewDimensions(informationStr, appStatus)`. -/
def viewDimensions (env : Env) : String → Option Dimensions :=
  env.getViewDimensions (informationStr env) env.getStatusString

/-- The statements of `layout` at or above the minimum size, in source order. -/
def layoutSteps (env : Env) : List Step :=
  [ deleteLimit,
    readMoreLines env (viewDimensions env),
    layoutMain env (viewDimensions env),
    layoutSecondary env (viewDimensions env),
    layoutStatus env (viewDimensions env),
    layoutFiles env (viewDimensions env),
    layoutBranches env (viewDimensions env),
    layoutCommitFiles env (viewDimensions env),
    layoutCommits env (viewDimensions env),
    layoutStash env (viewDimensions env),
    layoutCommitMessage env,
    layoutCredentials env,
    layoutOptions env (viewDimensions env),
    layoutSearchPrefix env (viewDimensions env),
    layoutSearch env (viewDimensions env),
    layoutAppStatus env (viewDimensions env),
    layoutInformation env (viewDimensions env) (informationStr env),
    initialFocus env,
    syncListContexts env,
    resizeHook env,
    resizeCurrentPopupPanel env ]

/-- The first `k` blocks of `layout` at or above the minimum size: the pass up
to, and excluding, block number `k` of `layoutSteps` (counted from zero). -/
def layoutPrefix (env : Env) (k : Nat) : Step := runSteps ((layoutSteps env).take k)

/-- The pass at or above the minimum size up to the loop over
`listContextStates`: blocks 0 to 17 of `layoutSteps`. -/
def beforeSync (env : Env) (gui : Gui) : Result :=
  layoutPrefix env 18 { gui with Highlight := true }

/-- The collaborator calls of one iteration of the loop: none when the surface
is owned by another context, else `FocusPoint` and `SetOnSelectItem`. -/
def refocusEvents (gui : Gui) (s : listContextState) : List Event :=
  if (gui.views s.view).map View.Context = some s.contextKey then
    [.FocusPoint s.view 0 s.selectedLine, .SetOnSelectItem s.view s.contextKey]
  else []

/-- The log entry is a `FocusPoint` call on the surface `n`. -/
def Event.focuses (n : String) : Event → Bool
  | .FocusPoint view _ _ => view = n
  | _ => false

/-- The source's `layout`: called for every screen re-render. -/
def layout (env : Env) (gui : Gui) : Result :=
  let gui := { gui with Highlight := true }
  if env.height < minimumHeight ∨ env.width < minimumWidth then layoutLimit env gui
  else runSteps (layoutSteps env) gui

/-! ## Footprints

The footprint of a run of statements: which surfaces it may assign to, which
surfaces it may create, delete or re-bound, which collaborators it may call
and which state fields it may write. -/

/-- The collaborator a log entry is a call to. -/
inductive EventKind
  | ReadLines
  | FocusPoint
  | SetOnSelectItem
  | setViewContent
  | renderString
  | createContextTree
  | switchContext
  | changeMainViewsContext
  | handleCreateRecentReposMenu
  | loadNewRepo
  | onResize
  | resizeCurrentPopupPanel
  deriving DecidableEq, Repr

/-- The collaborator a log entry is a call to. -/
def Event.kind : Event → EventKind
  | .ReadLines _ _ => .ReadLines
  | .FocusPoint _ _ _ => .FocusPoint
  | .SetOnSelectItem _ _ => .SetOnSelectItem
  | .setViewContent _ _ => .setViewContent
  | .renderString _ _ => .renderString
  | .createContextTree => .createContextTree
  | .switchContext _ => .switchContext
  | .changeMainViewsContext _ => .changeMainViewsContext
  | .handleCreateRecentReposMenu => .handleCreateRecentReposMenu
  | .loadNewRepo => .loadNewRepo
  | .onResize => .onResize
  | .resizeCurrentPopupPanel => .resizeCurrentPopupPanel

/-- The state fields of `Gui` other than surfaces, stacking order and log. -/
inductive Field
  | Highlight
  | OldInformation
  | PrevMain
  | showRecentRepos
  | focused
  deriving DecidableEq, Repr

/-- The field has the same value in both states. -/
def Field.same : Field → Gui → Gui → Prop
  | .Highlight, g, g' => g'.Highlight = g.Highlight
  | .OldInformation, g, g' => g'.OldInformation = g.OldInformation
  | .PrevMain, g, g' =>
    g'.PrevMainWidth = g.PrevMainWidth ∧ g'.PrevMainHeight = g.PrevMainHeight
  | .showRecentRepos, g, g' => g'.showRecentRepos = g.showRecentRepos
  | .focused, g, g' => g'.focused = g.focused

/-- The state `g'` differs from `g` at most as the footprint allows: surfaces
outside `T` are untouched, surfaces outside `B` exist as before with the bounds
they had, the log grew by calls of the kinds `ks`, and the fields outside `fs`
are unchanged. -/
structure Effect (T B : List String) (ks : List EventKind) (fs : List Field)
    (g g' : Gui) : Prop where
  views : ∀ n, n ∉ T → g'.views n = g.views n
  kept : ∀ n, n ∉ B → (g'.views n).map View.bounds = (g.views n).map View.bounds
  log : ∃ L, g'.log = g.log ++ L ∧ ∀ e ∈ L, e.kind ∈ ks
  fields : ∀ f, f ∉ fs → f.same g g'

/-- A condition on one surface. -/
inductive Post
  | bounds (b : Int × Int × Int × Int)
  | present
  | absent
  deriving DecidableEq, Repr

/-- The surface named `n` satisfies the condition. -/
def Post.holds (g : Gui) (n : String) : Post → Prop
  | .bounds b => (g.views n).map View.bounds = some b
  | .present => (g.views n).map View.bounds ≠ none
  | .absent => (g.views n).map View.bounds = none

/-- The bounds `setViewFromDimensions` hands to the backend for a window:
zero size when the window has no region, the region when the surface is
framed, the region grown by one on every side when it is not. -/
def targetBounds (dims : String → Option Dimensions) (windowName : String) (frame : Bool) :
    Int × Int × Int × Int :=
  match dims windowName with
  | none => (0, 0, 0, 0)
  | some d =>
    if frame then (d.X0, d.Y0, d.X1, d.Y1) else (d.X0 - 1, d.Y0 - 1, d.X1 + 1, d.Y1 + 1)

/-- A block of `layout` with its footprint, the conditions it establishes
when it returns no error, and the surfaces whose create-or-update call it
always makes. -/
structure Block where
  step : Step
  T : List String
  B : List String
  ks : List EventKind
  fs : List Field
  ensures : List (String × Post)
  calls : List String

/-- The block of an ordinary panel. -/
def panelBlock (dims : String → Option Dimensions) (step : Step) (viewName windowName : String)
    (frame : Bool) (ks : List EventKind) : Block :=
  { step := step, T := [viewName], B := [viewName], ks := ks, fs := [],
    ensures := [(viewName, .bounds (targetBounds dims windowName frame))], calls := [viewName] }

/-- The blocks of `layout` at or above the minimum size, in source order; their
steps are `layoutSteps`. -/
def blocks (env : Env) : List Block :=
  [ { step := deleteLimit, T := ["limit"], B := ["limit"], ks := [], fs := [],
      ensures := [("limit", .absent)], calls := [] },
    { step := readMoreLines env (viewDimensions env), T := [], B := [], ks := [.ReadLines],
      fs := [], ensures := [], calls := [] },
    panelBlock (viewDimensions env) (layoutMain env (viewDimensions env)) "main" "main" true [],
    panelBlock (viewDimensions env) (layoutSecondary env (viewDimensions env))
      "secondary" "secondary" true [],
    panelBlock (viewDimensions env) (layoutStatus env (viewDimensions env))
      "status" "status" true [],
    panelBlock (viewDimensions env) (layoutFiles env (viewDimensions env)) "files" "files" true [],
    panelBlock (viewDimensions env) (layoutBranches env (viewDimensions env))
      "branches" "branches" true [],
    panelBlock (viewDimensions env) (layoutCommitFiles env (viewDimensions env))
      "commitFiles" "commits" true [],
    panelBlock (viewDimensions env) (layoutCommits env (viewDimensions env))
      "commits" "commits" true [],
    panelBlock (viewDimensions env) (layoutStash env (viewDimensions env)) "stash" "stash" true [],
    { step := layoutCommitMessage env, T := ["commitMessage"], B := ["commitMessage"], ks := [],
      fs := [], ensures := [("commitMessage", .present)], calls := [] },
    { step := layoutCredentials env, T := ["credentials"], B := ["credentials"], ks := [],
      fs := [], ensures := [("credentials", .present)], calls := [] },
    { step := layoutOptions env (viewDimensions env), T := ["options", "files"], B := ["options"],
      ks := [.createContextTree, .switchContext, .changeMainViewsContext,
        .handleCreateRecentReposMenu, .loadNewRepo],
      fs := [.focused, .showRecentRepos],
      ensures := [("options", .bounds (targetBounds (viewDimensions env) "options" false))],
      calls := ["options"] },
    panelBlock (viewDimensions env) (layoutSearchPrefix env (viewDimensions env))
      "searchPrefix" "searchPrefix" false [.setViewContent],
    panelBlock (viewDimensions env) (layoutSearch env (viewDimensions env))
      "search" "search" false [],
    panelBlock (viewDimensions env) (layoutAppStatus env (viewDimensions env))
      "appStatus" "appStatus" false [],
    { step := layoutInformation env (viewDimensions env) (informationStr env),
      T := ["information"], B := ["information"], ks := [.renderString, .setViewContent],
      fs := [.OldInformation],
      ensures := [("information", .bounds (targetBounds (viewDimensions env) "information" false))],
      calls := ["information"] },
    { step := initialFocus env, T := ["files", "commits"], B := [], ks := [.switchContext],
      fs := [.focused], ensures := [], calls := [] },
    { step := syncListContexts env,
      T := ["files", "branches", "commits", "stash", "commitFiles", "menu"], B := [],
      ks := [.FocusPoint, .SetOnSelectItem], fs := [], ensures := [], calls := [] },
    { step := resizeHook env, T := [], B := [], ks := [.onResize], fs := [.PrevMain],
      ensures := [], calls := [] },
    { step := resizeCurrentPopupPanel env, T := [], B := [], ks := [.resizeCurrentPopupPanel],
      fs := [], ensures := [], calls := [] } ]

/-- The surfaces `layout` creates or updates, in the order of their blocks:
the surface number `i` is handled by block number `i + 2` of `layoutSteps`. -/
def panelOrder : List String :=
  ["main", "secondary", "status", "files", "branches", "commitFiles", "commits", "stash",
    "commitMessage", "credentials", "options", "searchPrefix", "search", "appStatus",
    "information"]

/-- The window and the frame flag `layout` passes to `setViewFromDimensions`
for each surface; the two hidden popups are not laid out from the mapping. -/
def panelWindow (viewName : String) : Option (String × Bool) :=
  if viewName = "main" then some ("main", true)
  else if viewName = "secondary" then some ("secondary", true)
  else if viewName = "status" then some ("status", true)
  else if viewName = "files" then some ("files", true)
  else if viewName = "branches" then some ("branches", true)
  else if viewName = "commitFiles" then some ("commits", true)
  else if viewName = "commits" then some ("commits", true)
  else if viewName = "stash" then some ("stash", true)
  else if viewName = "options" then some ("options", false)
  else if viewName = "searchPrefix" then some ("searchPrefix", false)
  else if viewName = "search" then some ("search", false)
  else if viewName = "appStatus" then some ("appStatus", false)
  else if viewName = "information" then some ("information", false)
  else none

/-- The names of the surfaces `layout` refers to. -/
def allSurfaces : List String :=
  ["limit", "main", "secondary", "status", "files", "branches", "commitFiles", "commits",
    "stash", "commitMessage", "credentials", "options", "searchPrefix", "search", "appStatus",
    "information", "menu"]

/-- Every collaborator. -/
def allKinds : List EventKind :=
  [.ReadLines, .FocusPoint, .SetOnSelectItem, .setViewContent, .renderString,
    .createContextTree, .switchContext, .changeMainViewsContext, .handleCreateRecentReposMenu,
    .loadNewRepo, .onResize, .resizeCurrentPopupPanel]

/-- Every state field. -/
def allFields : List Field :=
  [.Highlight, .OldInformation, .PrevMain, .showRecentRepos, .focused]

/-- What a block has established once it returned no error. -/
def Block.established (env : Env) (x : Block) (g : Gui) : Prop :=
  (∀ p ∈ x.ensures, p.2.holds g p.1) ∧ ∀ n ∈ x.calls, env.setViewFailure n = none

/-- The number of invocations of the initial setup recorded in a log: the
calls to `createContextTree`, the first statement of `onInitialViewsCreation`. -/
def setupCount (log : List Event) : Nat := log.countP (fun e => e.kind = .createContextTree)

/-- Across a run: an existing options surface stays and the initial setup is
not invoked; a missing one either stays missing with no invocation, or is
created with exactly one invocation. -/
def SetupStep (g g' : Gui) : Prop :=
  (g.views "options" ≠ none →
    g'.views "options" ≠ none ∧ setupCount g'.log = setupCount g.log) ∧
  (g.views "options" = none →
    (g'.views "options" = none ∧ setupCount g'.log = setupCount g.log) ∨
    (g'.views "options" ≠ none ∧ setupCount g'.log = setupCount g.log + 1))

/-- Across a run in which a surface is current: while the options surface
exists it stays and the focus pointer does not move. -/
def FocusKept (g g' : Gui) : Prop :=
  g.views "options" ≠ none → g'.views "options" ≠ none ∧ g'.focused = g.focused

/-- The errors `layout` can return: a failure of a create-or-update call other
than "unknown view", or the error of a collaborator. -/
def Propagated (env : Env) (e : GoError) : Prop :=
  (∃ n c, env.setViewFailure n = some c ∧ e = .other c) ∨
  some e = env.handleCreateRecentReposMenuErr ∨ some e = env.loadNewRepoErr ∨
  some e = env.onResizeErr ∨ some e = env.resizeCurrentPopupPanelErr

/-- The selected row of the context is already focused on its surface:
re-focusing the surface of a context that owns it changes nothing. -/
def Fixed (g : Gui) (s : listContextState) : Prop :=
  ∀ v, g.views s.view = some v → v.Context = s.contextKey → refocusView s v = v

/-- The collaborators a pass calls again when nothing changed: the context
switch of the initial-focus block (while no surface is current), the focus and
callback calls of the loop, and the popup resize. -/
def repeatedKinds : List EventKind :=
  [.switchContext, .FocusPoint, .SetOnSelectItem, .resizeCurrentPopupPanel]

/-- The state a successful pass at or above the minimum size leaves, relative
to the inputs of that pass: every block has established its surfaces, the
cached information string and the remembered main size are up to date, the
initial context (while no surface is current) is focused and owns its surface,
and every owned list surface has its selected row focused. -/
def Settled (env : Env) (g : Gui) : Prop :=
  (∀ x ∈ blocks env, x.established env g) ∧
  g.Highlight = true ∧
  g.OldInformation = informationStr env ∧
  (∀ v, g.views "main" = some v →
    v.Size.1 = g.PrevMainWidth ∧ v.Size.2 = g.PrevMainHeight) ∧
  (env.CurrentView = none →
    g.focused = some (initialContext env).key ∧
    (g.views (initialContext env).viewName).map View.Context =
      some (initialContext env).key) ∧
  (∀ s ∈ listContextStates env g, Fixed g s) ∧
  env.resizeCurrentPopupPanelErr = none

/-- What the loop over the list contexts assigns to a surface: origin, cursor,
selection colour and selection callback. -/
def View.focusState (v : View) : Int × Int × Int × Int × Attribute × Option String :=
  (v.ox, v.oy, v.cx, v.cy, v.SelBgColor, v.onSelectItem)

/-- Across a run: every surface other than the notice that existed before
exists after, with the origin, cursor, selection colour and selection callback
it had. -/
def FocusStateKept (g g' : Gui) : Prop :=
  ∀ n v, n ≠ "limit" → g.views n = some v →
    ∃ v', g'.views n = some v' ∧ v'.focusState = v.focusState

/-- A sequence of layout passes, one per environment, each started in the state
the previous one left, whatever it returned. -/
def passes (envs : List Env) (gui : Gui) : Gui :=
  envs.foldl (fun g env => (layout env g).gui) gui

/-! ## Sample inputs -/

/-- A mapping with regions for the windows shown on a 200 by 50 terminal: no
region for "secondary", "searchPrefix", "search" and "appStatus". -/
def sampleDimensions : String → Option Dimensions := fun w =>
  if w = "main" then some ⟨60, 0, 199, 47⟩
  else if w = "status" then some ⟨0, 0, 59, 2⟩
  else if w = "files" then some ⟨0, 3, 59, 17⟩
  else if w = "branches" then some ⟨0, 18, 59, 27⟩
  else if w = "commits" then some ⟨0, 28, 59, 41⟩
  else if w = "stash" then some ⟨0, 42, 59, 47⟩
  else if w = "options" then some ⟨0, 48, 180, 50⟩
  else if w = "information" then some ⟨181, 48, 199, 50⟩
  else none

/-- Scenario A: terminal 200 by 50, no diff or filter mode, nothing
cherry-picked, mouse disabled, no surface current, healthy backend. -/
def sampleEnv : Env :=
  { width := 200, height := 50, CurrentView := none, inDiffMode := false,
    inFilterMode := false, diffStr := "", FilterPath := "", CherryPickedCommits := [],
    Mouse := false, GetVersion := "0.22", SLocalize := fun s => s, getStatusString := "",
    getViewDimensions := fun _ _ => sampleDimensions, viewBufferManagerMap := fun _ => false,
    Panels := ⟨0, 0, 0, 0, 0, 0, 0, 0, 0, 0⟩, setViewFailure := fun _ => none,
    handleCreateRecentReposMenuErr := none, loadNewRepoErr := none, onResizeErr := none,
    resizeCurrentPopupPanelErr := none }

/-- Scenario B: as scenario A, with filter mode active on the path "src/". -/
def filterEnv : Env := { sampleEnv with inFilterMode := true, FilterPath := "src/" }

/-- A terminal of 5 by 5, below the minimum size. -/
def smallEnv : Env := { sampleEnv with width := 5, height := 5 }

/-- As scenario A, on a 5 by 5 terminal and in filter mode. -/
def smallFilterEnv : Env := { filterEnv with width := 5, height := 5 }

/-- As scenario A, with a repository that fails to load during the initial
setup. -/
def failingSetupEnv : Env := { sampleEnv with loadNewRepoErr := some (.other 1) }

/-- As scenario A, with a backend that fails to create or update "files". -/
def failingFilesEnv : Env :=
  { sampleEnv with setViewFailure := fun n => if n = "files" then some 7 else none }

/-- As scenario A, with the file list current. -/
def focusedEnv : Env := { sampleEnv with CurrentView := some "files" }

/-- The state before the first pass: no surface, nothing focused. -/
def emptyGui : Gui :=
  { views := fun _ => none, order := [], Highlight := false, OldInformation := .lit "",
    PrevMainWidth := 0, PrevMainHeight := 0, showRecentRepos := false, focused := none,
    log := [] }

/-- A state reached below the minimum size: after a first pass on a 200 by 50
terminal the terminal shrinks to 5 by 5, a pass creates the notice "limit",
and a switch to the file-list context then raises the file list above it. -/
def coveredGui : Gui :=
  (switchContext (layout smallEnv (layout sampleEnv emptyGui).gui).gui Contexts.Files).gui

/-- The local `newMainHeight` of `layout`. -/
def newMainHeight (env : Env) : Int :=
  ((viewDimensions env "main").getD ⟨0, 0, 0, 0⟩).Y1 -
    ((viewDimensions env "main").getD ⟨0, 0, 0, 0⟩).Y0 - 1

/-- Scenario D: the main region is 26 rows high, and both buffer managers are
registered. -/
def grownEnv : Env :=
  { sampleEnv with
    getViewDimensions := fun _ _ w =>
      if w = "main" then some ⟨60, 0, 199, 27⟩ else sampleDimensions w,
    viewBufferManagerMap := fun n => n = "main" ∨ n = "secondary" }

/-- As `grownEnv`, with no buffer manager registered for "secondary". -/
def grownMainOnlyEnv : Env := { grownEnv with viewBufferManagerMap := fun n => n = "main" }

/-- A state whose main surface is 20 rows high. -/
def mainGui : Gui :=
  { emptyGui with
    views := fun n => if n = "main" then some (newView 60 0 199 21) else none,
    order := ["main"] }

/-- The state after scenario A and a switch to the remotes context, which is
displayed in the surface "branches". -/
def remotesGui : Gui :=
  (switchContext (layout sampleEnv emptyGui).gui { key := "remotes", viewName := "branches" }).gui

/-- As scenario A with the file list current, the third file selected, the
third local branch selected and the thirteenth remote selected. -/
def selectedEnv : Env :=
  { focusedEnv with Panels := ⟨2, 2, 12, 0, 0, 0, 0, 0, 0, 0⟩ }

/-! ## Footprint calculus -/

theorem Field.same_refl (f : Field) (g : Gui) : f.same g g := by
  cases f <;> simp [Field.same]

theorem Field.same_trans (f : Field) {a b c : Gui} (h1 : f.same a b) (h2 : f.same b c) :
    f.same a c := by
  cases f <;> simp_all [Field.same]

theorem Effect.refl {T B : List String} {ks : List EventKind} {fs : List Field} (g : Gui) :
    Effect T B ks fs g g :=
  ⟨fun _ _ => rfl, fun _ _ => rfl, ⟨[], by simp, by simp⟩, fun f _ => Field.same_refl f g⟩

theorem Effect.trans {T1 T2 B1 B2 : List String} {k1 k2 : List EventKind} {f1 f2 : List Field}
    {a b c : Gui} (h1 : Effect T1 B1 k1 f1 a b) (h2 : Effect T2 B2 k2 f2 b c) :
    Effect (T1 ++ T2) (B1 ++ B2) (k1 ++ k2) (f1 ++ f2) a c := by
  refine ⟨fun n hn => ?_, fun n hn => ?_, ?_, fun f hf => ?_⟩
  · simp only [List.mem_append, not_or] at hn
    rw [h2.views n hn.2, h1.views n hn.1]
  · simp only [List.mem_append, not_or] at hn
    rw [h2.kept n hn.2, h1.kept n hn.1]
  · obtain ⟨L1, e1, p1⟩ := h1.log
    obtain ⟨L2, e2, p2⟩ := h2.log
    refine ⟨L1 ++ L2, by rw [e2, e1, List.append_assoc], fun e he => ?_⟩
    rcases List.mem_append.1 he with h | h
    · exact List.mem_append.2 (Or.inl (p1 e h))
    · exact List.mem_append.2 (Or.inr (p2 e h))
  · simp only [List.mem_append, not_or] at hf
    exact Field.same_trans f (h1.fields f hf.1) (h2.fields f hf.2)

theorem Effect.mono {T T' B B' : List String} {ks ks' : List EventKind} {fs fs' : List Field}
    {a b : Gui} (h : Effect T B ks fs a b) (hT : ∀ n ∈ T, n ∈ T') (hB : ∀ n ∈ B, n ∈ B')
    (hk : ∀ k ∈ ks, k ∈ ks') (hf : ∀ f ∈ fs, f ∈ fs') : Effect T' B' ks' fs' a b := by
  refine ⟨fun n hn => h.views n (fun hh => hn (hT n hh)),
    fun n hn => h.kept n (fun hh => hn (hB n hh)), ?_,
    fun f hn => h.fields f (fun hh => hn (hf f hh))⟩
  obtain ⟨L, e, p⟩ := h.log
  exact ⟨L, e, fun x hx => hk _ (p x hx)⟩

/-- Two runs in a row, within one footprint. -/
theorem Effect.seq {T B : List String} {ks : List EventKind} {fs : List Field}
    {a b c : Gui} (h1 : Effect T B ks fs a b) (h2 : Effect T B ks fs b c) :
    Effect T B ks fs a c :=
  Effect.mono (h1.trans h2) (by simp) (by simp) (by simp) (by simp)

theorem record_effect (g : Gui) (e : Event) : Effect [] [] [e.kind] [] g (g.record e) :=
  ⟨fun _ _ => rfl, fun _ _ => rfl, ⟨[e], rfl, by simp⟩, fun f _ => by cases f <;> simp [Field.same, Gui.record]⟩

theorem modifyView_effect (g : Gui) (name : String) (f : View → View)
    (hf : ∀ v, (f v).bounds = v.bounds := by intro v; rfl) :
    Effect [name] [] [] [] g (g.modifyView name f) := by
  refine ⟨fun n hn => ?_, fun n _ => ?_, ⟨[], by simp [Gui.modifyView], by simp⟩,
    fun f _ => by cases f <;> simp [Field.same, Gui.modifyView]⟩
  · simp only [List.mem_singleton] at hn
    simp [Gui.modifyView, hn]
  · by_cases h : n = name
    · subst h
      cases hv : g.views n <;> simp [Gui.modifyView, hv, hf]
    · simp [Gui.modifyView, h]

theorem SetView_effect (env : Env) (g : Gui) (name : String) (x0 y0 x1 y1 : Int) :
    Effect [name] [name] [] [] g (g.SetView env name x0 y0 x1 y1).gui := by
  unfold Gui.SetView
  split
  · exact Effect.refl g
  · split
    · refine ⟨fun n hn => ?_, fun n hn => ?_, ⟨[], by simp, by simp⟩,
        fun f _ => by cases f <;> simp [Field.same]⟩ <;>
      · simp only [List.mem_singleton] at hn
        simp [hn]
    · refine ⟨fun n hn => ?_, fun n hn => ?_, ⟨[], by simp, by simp⟩,
        fun f _ => by cases f <;> simp [Field.same]⟩ <;>
      · simp only [List.mem_singleton] at hn
        simp [hn]

theorem SetViewOnBottom_effect (g : Gui) (name : String) :
    Effect [] [] [] [] g (g.SetViewOnBottom name).gui := by
  unfold Gui.SetViewOnBottom
  split
  · exact ⟨fun _ _ => rfl, fun _ _ => rfl, ⟨[], by simp, by simp⟩,
      fun f _ => by cases f <;> simp [Field.same]⟩
  · exact Effect.refl g

theorem SetViewOnTop_effect (g : Gui) (name : String) :
    Effect [] [] [] [] g (g.SetViewOnTop name).gui := by
  unfold Gui.SetViewOnTop
  split
  · exact ⟨fun _ _ => rfl, fun _ _ => rfl, ⟨[], by simp, by simp⟩,
      fun f _ => by cases f <;> simp [Field.same]⟩
  · exact Effect.refl g

theorem DeleteView_effect (g : Gui) (name : String) :
    Effect [name] [name] [] [] g (g.DeleteView name).gui := by
  unfold Gui.DeleteView
  split
  · refine ⟨fun n hn => ?_, fun n hn => ?_, ⟨[], by simp, by simp⟩,
      fun f _ => by cases f <;> simp [Field.same]⟩ <;>
    · simp only [List.mem_singleton] at hn
      simp [hn]
  · exact Effect.refl g

theorem onUnknownView_effect {T1 T2 B1 B2 : List String} {k1 k2 : List EventKind}
    {f1 f2 : List Field} {g : Gui} {r : Result} {init : Step}
    (h1 : Effect T1 B1 k1 f1 g r.gui) (h2 : ∀ g1, Effect T2 B2 k2 f2 g1 (init g1).gui) :
    Effect (T1 ++ T2) (B1 ++ B2) (k1 ++ k2) (f1 ++ f2) g (onUnknownView r init).gui := by
  unfold onUnknownView
  split
  · exact h1.trans (Effect.refl _)
  · exact h1.trans (h2 _)
  · exact h1.trans (Effect.refl _)

theorem andThen_effect {T1 T2 B1 B2 : List String} {k1 k2 : List EventKind}
    {f1 f2 : List Field} {g : Gui} {r : Result} {k : Step}
    (h1 : Effect T1 B1 k1 f1 g r.gui) (h2 : ∀ g1, Effect T2 B2 k2 f2 g1 (k g1).gui) :
    Effect (T1 ++ T2) (B1 ++ B2) (k1 ++ k2) (f1 ++ f2) g (r.andThen k).gui := by
  unfold Result.andThen
  split
  · exact h1.trans (h2 _)
  · exact h1.trans (Effect.refl _)

theorem setViewFromDimensions_effect (env : Env) (dims : String → Option Dimensions) (g : Gui)
    (viewName windowName : String) (frame : Bool) :
    Effect [viewName] [viewName] [] [] g
      (setViewFromDimensions env dims g viewName windowName frame).gui := by
  unfold setViewFromDimensions
  split
  · simp only
    split
    · exact SetView_effect env g viewName 0 0 0 0
    · refine Effect.mono ((SetView_effect env g viewName 0 0 0 0).trans
        (SetViewOnBottom_effect _ _)) ?_ ?_ ?_ ?_ <;> simp
  · exact SetView_effect env g viewName _ _ _ _

theorem unfocusPrevious_effect (g : Gui) : Effect [] [] [] [] g (unfocusPrevious g) := by
  unfold unfocusPrevious
  split
  · split
    · exact SetViewOnBottom_effect _ _
    · exact Effect.refl _
  · exact Effect.refl _

theorem focusTarget_effect (g : Gui) (target : Context) :
    Effect [target.viewName] [] [] [.focused] g (focusTarget g target) := by
  have e3 : Effect [] [] [] [.focused] g { g with focused := some target.key } :=
    ⟨fun _ _ => rfl, fun _ _ => rfl, ⟨[], by simp, by simp⟩,
      fun f hf => by cases f <;> simp_all [Field.same]⟩
  have e4 := SetViewOnTop_effect { g with focused := some target.key } target.viewName
  have e5 := modifyView_effect ({ g with focused := some target.key }.SetViewOnTop target.viewName).gui
    target.viewName (fun v => { v with Context := target.key })
  refine Effect.mono ((e3.trans e4).trans e5) ?_ ?_ ?_ ?_ <;> simp [focusTarget]

theorem switchContext_effect (g : Gui) (target : Context) :
    Effect [target.viewName] [] [.switchContext] [.focused] g (switchContext g target).gui := by
  unfold switchContext
  simp only
  split
  · refine Effect.mono (record_effect g _) ?_ ?_ ?_ ?_ <;> simp [Event.kind]
  · refine Effect.mono (((record_effect g (.switchContext target.key)).trans
      (unfocusPrevious_effect _)).trans (focusTarget_effect _ target)) ?_ ?_ ?_ ?_ <;>
      simp [Event.kind]


/-! ## Footprints of the blocks -/

theorem Result.andThen_eta (r : Result) : (r.andThen fun g => ⟨g, none⟩) = r := by
  unfold Result.andThen
  cases r with
  | mk g e => cases e <;> rfl

theorem panel_effect (env : Env) (dims : String → Option Dimensions) (g : Gui)
    (viewName windowName : String) (frame : Bool) (f : View → View)
    (hf : ∀ v, (f v).bounds = v.bounds := by intro v; rfl) :
    Effect [viewName] [viewName] [] [] g
      (onUnknownView (setViewFromDimensions env dims g viewName windowName frame)
        fun g => ⟨g.modifyView viewName f, none⟩).gui := by
  refine Effect.mono (onUnknownView_effect
    (setViewFromDimensions_effect env dims g viewName windowName frame)
    (fun g1 => modifyView_effect g1 viewName f hf)) ?_ ?_ ?_ ?_ <;> simp

theorem deleteLimit_effect (g : Gui) : Effect ["limit"] ["limit"] [] [] g (deleteLimit g).gui := by
  refine Effect.mono ((SetViewOnBottom_effect g "limit").trans (DeleteView_effect _ "limit"))
    ?_ ?_ ?_ ?_ <;> simp [deleteLimit]

theorem readMoreLines_effect (env : Env) (dims : String → Option Dimensions) (g : Gui) :
    Effect [] [] [.ReadLines] [] g (readMoreLines env dims g).gui := by
  unfold readMoreLines
  split
  · simp only
    split
    · split <;> split
      · refine Effect.mono ((record_effect g _).trans (record_effect _ _)) ?_ ?_ ?_ ?_ <;>
          simp [Event.kind]
      · refine Effect.mono (record_effect g _) ?_ ?_ ?_ ?_ <;> simp [Event.kind]
      · refine Effect.mono (record_effect g _) ?_ ?_ ?_ ?_ <;> simp [Event.kind]
      · exact Effect.refl g
    · exact Effect.refl g
  · exact Effect.refl g

theorem layoutCommitMessage_effect (env : Env) (g : Gui) :
    Effect ["commitMessage"] ["commitMessage"] [] [] g (layoutCommitMessage env g).gui := by
  unfold layoutCommitMessage
  split
  · refine Effect.mono (onUnknownView_effect (SetView_effect env g "commitMessage" _ _ _ _)
      (fun g1 => (SetViewOnBottom_effect g1 "commitMessage").trans
        (modifyView_effect _ "commitMessage" _))) ?_ ?_ ?_ ?_ <;> simp
  · exact Effect.refl g

theorem layoutCredentials_effect (env : Env) (g : Gui) :
    Effect ["credentials"] ["credentials"] [] [] g (layoutCredentials env g).gui := by
  unfold layoutCredentials
  split
  · refine Effect.mono (onUnknownView_effect (SetView_effect env g "credentials" _ _ _ _)
      (fun g1 => (SetViewOnBottom_effect g1 "credentials").trans
        (modifyView_effect _ "credentials" _))) ?_ ?_ ?_ ?_ <;> simp
  · exact Effect.refl g

/-- The statements of `onInitialViewsCreation` after `createContextTree`. -/
theorem onInitialViewsCreation_rest (env : Env) (g : Gui) :
    Effect ["files"] []
      [.switchContext, .changeMainViewsContext, .handleCreateRecentReposMenu, .loadNewRepo]
      [.focused, .showRecentRepos] (g.record .createContextTree)
      (onInitialViewsCreation env g).gui := by
  unfold onInitialViewsCreation
  have e1 := switchContext_effect (g.record .createContextTree) Contexts.Files
  refine Effect.mono (@andThen_effect _ [] _ [] _
    [.changeMainViewsContext, .handleCreateRecentReposMenu, .loadNewRepo] _ [.showRecentRepos]
    _ _ _ e1 (fun g1 => ?_)) ?_ ?_ ?_ ?_
  rotate_left
  · simp [Contexts.Files]
  · simp
  · simp [Event.kind]
  · simp
  · simp only
    have e2 := record_effect g1 (.changeMainViewsContext "normal")
    have e3 : Effect [] [] [.handleCreateRecentReposMenu] [.showRecentRepos]
        (g1.record (.changeMainViewsContext "normal"))
        (if (g1.record (.changeMainViewsContext "normal")).showRecentRepos = true then
          (Result.mk ((g1.record (.changeMainViewsContext "normal")).record
            .handleCreateRecentReposMenu) env.handleCreateRecentReposMenuErr).andThen
            fun gui => ⟨{ gui with showRecentRepos := false }, none⟩
          else ⟨g1.record (.changeMainViewsContext "normal"), none⟩).gui := by
      split
      · refine Effect.mono (andThen_effect (record_effect _ .handleCreateRecentReposMenu)
          (fun g2 => (⟨fun _ _ => rfl, fun _ _ => rfl, ⟨[], by simp, by simp⟩,
            fun f hf => by cases f <;> simp_all [Field.same]⟩ :
            Effect [] [] [] [.showRecentRepos] g2 { g2 with showRecentRepos := false })))
          ?_ ?_ ?_ ?_ <;> simp [Event.kind]
      · exact Effect.refl _
    refine Effect.mono (e2.trans (andThen_effect e3 (fun g3 => record_effect g3 .loadNewRepo)))
      ?_ ?_ ?_ ?_ <;> simp [Event.kind]

theorem onInitialViewsCreation_effect (env : Env) (g : Gui) :
    Effect ["files"] []
      [.createContextTree, .switchContext, .changeMainViewsContext,
        .handleCreateRecentReposMenu, .loadNewRepo]
      [.focused, .showRecentRepos] g (onInitialViewsCreation env g).gui := by
  refine Effect.mono ((record_effect g .createContextTree).trans
    (onInitialViewsCreation_rest env g)) ?_ ?_ ?_ ?_ <;> simp [Event.kind]

theorem layoutOptions_effect (env : Env) (dims : String → Option Dimensions) (g : Gui) :
    Effect ["options", "files"] ["options"]
      [.createContextTree, .switchContext, .changeMainViewsContext,
        .handleCreateRecentReposMenu, .loadNewRepo]
      [.focused, .showRecentRepos] g (layoutOptions env dims g).gui := by
  refine Effect.mono (onUnknownView_effect
    (setViewFromDimensions_effect env dims g "options" "options" false)
    (fun g1 => (modifyView_effect g1 "options" _).trans
      (onInitialViewsCreation_effect env _))) ?_ ?_ ?_ ?_ <;> simp

theorem setViewContent_effect (g : Gui) (view : String) (s : Str) :
    Effect [view] [] [.setViewContent] [] g (setViewContent g view s) := by
  refine Effect.mono ((modifyView_effect g view _).trans (record_effect _ _))
    ?_ ?_ ?_ ?_ <;> simp [Event.kind]

theorem renderString_effect (g : Gui) (view : String) (s : Str) :
    Effect [view] [] [.renderString] [] g (renderString g view s) := by
  refine Effect.mono ((modifyView_effect g view _).trans (record_effect _ _))
    ?_ ?_ ?_ ?_ <;> simp [Event.kind]

theorem layoutSearchPrefix_effect (env : Env) (dims : String → Option Dimensions) (g : Gui) :
    Effect ["searchPrefix"] ["searchPrefix"] [.setViewContent] [] g
      (layoutSearchPrefix env dims g).gui := by
  refine Effect.mono (onUnknownView_effect
    (setViewFromDimensions_effect env dims g "searchPrefix" "searchPrefix" false)
    (fun g1 => (modifyView_effect g1 "searchPrefix" _).trans
      (setViewContent_effect _ "searchPrefix" _))) ?_ ?_ ?_ ?_ <;> simp

theorem layoutAppStatus_effect (env : Env) (dims : String → Option Dimensions) (g : Gui) :
    Effect ["appStatus"] ["appStatus"] [] [] g (layoutAppStatus env dims g).gui := by
  refine Effect.mono (onUnknownView_effect
    (setViewFromDimensions_effect env dims g "appStatus" "appStatus" false)
    (fun g1 => (modifyView_effect g1 "appStatus" _).trans
      (SetViewOnBottom_effect _ "appStatus"))) ?_ ?_ ?_ ?_ <;> simp

theorem layoutInformation_effect (env : Env) (dims : String → Option Dimensions) (info : Str)
    (g : Gui) :
    Effect ["information"] ["information"] [.renderString, .setViewContent] [.OldInformation] g
      (layoutInformation env dims info g).gui := by
  unfold layoutInformation
  refine Effect.mono (@andThen_effect _ ["information"] _ [] _ [.setViewContent] _
    [.OldInformation] _ _ _ (onUnknownView_effect
    (setViewFromDimensions_effect env dims g "information" "information" false)
    (fun g1 => (modifyView_effect g1 "information" _).trans
      (renderString_effect _ "information" _))) (fun g1 => ?_)) ?_ ?_ ?_ ?_
  rotate_left
  · simp
  · simp
  · simp
  · simp
  · split
    · have e := setViewContent_effect g1 "information" info
      refine Effect.mono (e.trans (⟨fun _ _ => rfl, fun _ _ => rfl, ⟨[], by simp, by simp⟩,
        fun f hf => by cases f <;> simp_all [Field.same]⟩ :
        Effect [] [] [] [.OldInformation] (setViewContent g1 "information" info)
          { setViewContent g1 "information" info with OldInformation := info })) ?_ ?_ ?_ ?_ <;>
        simp
    · exact Effect.refl _

theorem initialFocus_effect (env : Env) (g : Gui) :
    Effect ["files", "commits"] [] [.switchContext] [.focused] g (initialFocus env g).gui := by
  unfold initialFocus
  split
  · refine Effect.mono (switchContext_effect g (initialContext env)) ?_ ?_ ?_ ?_ <;>
      simp [initialContext, Contexts.Files, Contexts.BranchCommits]
    split <;> simp
  · exact Effect.refl g

theorem FocusPoint_bounds (v : View) (cx cy : Int) : (v.FocusPoint cx cy).bounds = v.bounds := by
  unfold View.FocusPoint
  split_ifs <;> rfl

theorem refocus_effect (g : Gui) (s : listContextState) :
    Effect [s.view] [] [.FocusPoint, .SetOnSelectItem] [] g (refocus g s) := by
  unfold refocus
  split
  · exact Effect.refl g
  · split
    · exact Effect.refl g
    · refine Effect.mono (((modifyView_effect g s.view (refocusView s) (fun v => FocusPoint_bounds v 0 s.selectedLine)).trans
        (record_effect _ _)).trans (record_effect _ _)) ?_ ?_ ?_ ?_
      · simp
      · simp
      · simp [Event.kind]
      · simp

theorem foldl_refocus_effect (l : List listContextState) (T : List String)
    (hT : ∀ s ∈ l, s.view ∈ T) (g : Gui) :
    Effect T [] [.FocusPoint, .SetOnSelectItem] [] g (l.foldl refocus g) := by
  induction l generalizing g with
  | nil => exact Effect.refl g
  | cons s rest ih =>
    simp only [List.foldl_cons]
    refine Effect.seq (Effect.mono (refocus_effect g s) ?_ ?_ ?_ ?_)
      (ih (fun t ht => hT t (List.mem_cons_of_mem _ ht)) _)
    · intro n hn
      simp only [List.mem_singleton] at hn
      exact hn ▸ hT s (List.mem_cons_self _ _)
    · simp
    · simp
    · simp

theorem syncListContexts_effect (env : Env) (g : Gui) :
    Effect ["files", "branches", "commits", "stash", "commitFiles", "menu"] []
      [.FocusPoint, .SetOnSelectItem] [] g (syncListContexts env g).gui := by
  refine foldl_refocus_effect _ _ (fun s hs => ?_) g
  have h : ∀ v ∈ (listContextStates env g).map listContextState.view,
      v ∈ ["files", "branches", "commits", "stash", "commitFiles", "menu"] := by
    unfold listContextStates
    split <;> simp
  exact h _ (List.mem_map_of_mem _ hs)

theorem resizeHook_effect (env : Env) (g : Gui) :
    Effect [] [] [.onResize] [.PrevMain] g (resizeHook env g).gui := by
  unfold resizeHook
  split
  · exact Effect.refl g
  · simp only
    split
    · exact ⟨fun _ _ => rfl, fun _ _ => rfl, ⟨[.onResize], rfl, by simp [Event.kind]⟩,
        fun f hf => by cases f <;> simp_all [Field.same, Gui.record]⟩
    · exact Effect.refl g

theorem resizeCurrentPopupPanel_effect (env : Env) (g : Gui) :
    Effect [] [] [.resizeCurrentPopupPanel] [] g (resizeCurrentPopupPanel env g).gui :=
  record_effect g .resizeCurrentPopupPanel

theorem blocks_steps (env : Env) : (blocks env).map Block.step = layoutSteps env := rfl

theorem blocks_effect (env : Env) :
    ∀ x ∈ blocks env, ∀ g, Effect x.T x.B x.ks x.fs g (x.step g).gui := by
  simp only [blocks, panelBlock, List.forall_mem_cons, List.mem_nil_iff, false_implies,
    implies_true, and_true]
  refine ⟨deleteLimit_effect, readMoreLines_effect env _, ?_, ?_, ?_, ?_, ?_, ?_, ?_, ?_,
    layoutCommitMessage_effect env, layoutCredentials_effect env, layoutOptions_effect env _,
    layoutSearchPrefix_effect env _, ?_, layoutAppStatus_effect env _,
    layoutInformation_effect env _ _, initialFocus_effect env, syncListContexts_effect env,
    resizeHook_effect env, resizeCurrentPopupPanel_effect env⟩ <;>
  · intro g
    exact panel_effect env _ g _ _ _ _


/-! ## Runs of blocks -/

theorem runSteps_append (a b : List Step) (g : Gui) :
    runSteps (a ++ b) g = (runSteps a g).andThen (runSteps b) := by
  induction a generalizing g with
  | nil => rfl
  | cons s rest ih =>
    rw [List.cons_append]
    show ((s g).andThen (runSteps (rest ++ b))) =
      ((s g).andThen (runSteps rest)).andThen (runSteps b)
    unfold Result.andThen
    cases h : (s g).err <;> simp [ih, Result.andThen]

theorem runSteps_single (s : Step) (g : Gui) : runSteps [s] g = s g := by
  simp only [runSteps]
  exact Result.andThen_eta (s g)

theorem runSteps_snoc (a : List Step) (s : Step) (g : Gui) :
    runSteps (a ++ [s]) g = (runSteps a g).andThen s := by
  rw [runSteps_append]
  congr 1
  funext g1
  exact runSteps_single s g1

theorem andThen_err_none {r : Result} {k : Step} (h : (r.andThen k).err = none) :
    r.err = none ∧ r.andThen k = k r.gui := by
  unfold Result.andThen at h ⊢
  cases hr : r.err with
  | none => simp
  | some e => simp [hr] at h

theorem andThen_of_err_none {r : Result} {k : Step} (h : r.err = none) :
    r.andThen k = k r.gui := by
  unfold Result.andThen
  simp [h]

theorem andThen_of_err_some {r : Result} {k : Step} {e : GoError} (h : r.err = some e) :
    r.andThen k = ⟨r.gui, some e⟩ := by
  unfold Result.andThen
  simp [h]

/-- A run of blocks stays within any footprint that holds the footprint of each. -/
theorem runBlocks_effect (bs : List Block) (T B : List String) (ks : List EventKind)
    (fs : List Field) (h : ∀ x ∈ bs, ∀ g, Effect T B ks fs g (x.step g).gui) :
    ∀ g, Effect T B ks fs g (runSteps (bs.map Block.step) g).gui := by
  induction bs with
  | nil => intro g; exact Effect.refl g
  | cons x rest ih =>
    intro g
    have hx := h x (List.mem_cons_self _ _) g
    have ih2 := ih (fun y hy => h y (List.mem_cons_of_mem _ hy))
    simp only [List.map_cons, runSteps, Result.andThen]
    split
    · exact hx.seq (ih2 _)
    · exact hx

/-- The footprint of a run of some of the blocks of `layout`. -/
theorem sub_effect (env : Env) (bs : List Block) (T B : List String) (ks : List EventKind)
    (fs : List Field) (hsub : ∀ x ∈ bs, x ∈ blocks env)
    (hfoot : ∀ x ∈ bs, (∀ n ∈ x.T, n ∈ T) ∧ (∀ n ∈ x.B, n ∈ B) ∧ (∀ k ∈ x.ks, k ∈ ks) ∧
      ∀ f ∈ x.fs, f ∈ fs) :
    ∀ g, Effect T B ks fs g (runSteps (bs.map Block.step) g).gui :=
  runBlocks_effect bs T B ks fs fun x hx g =>
    (blocks_effect env x (hsub x hx) g).mono (hfoot x hx).1 (hfoot x hx).2.1 (hfoot x hx).2.2.1
      (hfoot x hx).2.2.2

/-! ## What the blocks establish -/

theorem SetView_failure (env : Env) (g : Gui) (name : String) (x0 y0 x1 y1 : Int) (c : Nat)
    (h : env.setViewFailure name = some c) :
    g.SetView env name x0 y0 x1 y1 = ⟨g, some (.other c)⟩ := by
  simp [Gui.SetView, h]

theorem SetView_bounds (env : Env) (g : Gui) (name : String) (x0 y0 x1 y1 : Int)
    (h : env.setViewFailure name = none) :
    ((g.SetView env name x0 y0 x1 y1).gui.views name).map View.bounds = some (x0, y0, x1, y1) := by
  unfold Gui.SetView
  simp only [h]
  split <;> simp [View.bounds, newView]

theorem SetView_err (env : Env) (g : Gui) (name : String) (x0 y0 x1 y1 : Int)
    (h : env.setViewFailure name = none) :
    (g.SetView env name x0 y0 x1 y1).err = if g.views name = none then some .unknownView else none := by
  unfold Gui.SetView
  simp only [h]
  split <;> simp_all

theorem setViewFromDimensions_failure (env : Env) (dims : String → Option Dimensions) (g : Gui)
    (viewName windowName : String) (frame : Bool) (c : Nat)
    (h : env.setViewFailure viewName = some c) :
    setViewFromDimensions env dims g viewName windowName frame = ⟨g, some (.other c)⟩ := by
  unfold setViewFromDimensions
  split
  · simp [SetView_failure env g viewName 0 0 0 0 c h]
  · exact SetView_failure env g viewName _ _ _ _ c h

theorem setViewFromDimensions_target (env : Env) (dims : String → Option Dimensions) (g : Gui)
    (viewName windowName : String) (frame : Bool) (h : env.setViewFailure viewName = none) :
    ((setViewFromDimensions env dims g viewName windowName frame).gui.views viewName).map
      View.bounds = some (targetBounds dims windowName frame) := by
  unfold setViewFromDimensions targetBounds
  split
  · simp only
    split
    · exact SetView_bounds env g viewName 0 0 0 0 h
    · rw [(SetViewOnBottom_effect _ viewName).kept viewName (by simp)]
      exact SetView_bounds env g viewName 0 0 0 0 h
  · cases frame <;> simp [SetView_bounds env g viewName _ _ _ _ h]

theorem onUnknownView_err_none {r : Result} {init : Step} (h : (onUnknownView r init).err = none) :
    r.err = none ∨ r.err = some .unknownView := by
  unfold onUnknownView at h
  split at h <;> simp_all

theorem ensure_established (env : Env) (dims : String → Option Dimensions) (g : Gui)
    (viewName windowName : String) (frame : Bool) (init : Step) {T B : List String}
    {ks : List EventKind} {fs : List Field} (hinit : ∀ g1, Effect T B ks fs g1 (init g1).gui)
    (hB : viewName ∉ B)
    (herr : (onUnknownView (setViewFromDimensions env dims g viewName windowName frame)
      init).err = none) :
    env.setViewFailure viewName = none ∧
    ((onUnknownView (setViewFromDimensions env dims g viewName windowName frame) init).gui.views
      viewName).map View.bounds = some (targetBounds dims windowName frame) := by
  cases hf : env.setViewFailure viewName with
  | some c =>
    rw [setViewFromDimensions_failure env dims g viewName windowName frame c hf] at herr
    simp [onUnknownView] at herr
  | none =>
    refine ⟨rfl, ?_⟩
    have hb := setViewFromDimensions_target env dims g viewName windowName frame hf
    unfold onUnknownView
    split
    · exact hb
    · rw [(hinit _).kept viewName hB]
      exact hb
    · exact hb

theorem panel_established (env : Env) (dims : String → Option Dimensions) (g : Gui)
    (viewName windowName : String) (frame : Bool) (ks : List EventKind) (step : Step)
    (init : Step) {T B : List String} {k2 : List EventKind} {fs : List Field}
    (hstep : step = fun g => onUnknownView
      (setViewFromDimensions env dims g viewName windowName frame) init)
    (hinit : ∀ g1, Effect T B k2 fs g1 (init g1).gui) (hB : viewName ∉ B)
    (herr : (step g).err = none) :
    (panelBlock dims step viewName windowName frame ks).established env (step g).gui := by
  subst hstep
  have h := ensure_established env dims g viewName windowName frame init hinit hB herr
  simp only [Block.established, panelBlock, List.mem_singleton, forall_eq, Post.holds]
  exact ⟨h.2, h.1⟩


theorem deleteLimit_established (g : Gui) : ((deleteLimit g).gui.views "limit") = none := by
  unfold deleteLimit Gui.DeleteView
  simp only
  split
  · simp
  · assumption

theorem hidden_established (env : Env) (g : Gui) (name : String) (f : View → View)
    (h : (if g.views name = none then
        onUnknownView (g.SetView env name hiddenViewOffset hiddenViewOffset
          (hiddenViewOffset + 10) (hiddenViewOffset + 10)) fun gui =>
          ⟨(gui.SetViewOnBottom name).gui.modifyView name f, none⟩
      else ⟨g, none⟩).err = none) :
    ((if g.views name = none then
        onUnknownView (g.SetView env name hiddenViewOffset hiddenViewOffset
          (hiddenViewOffset + 10) (hiddenViewOffset + 10)) fun gui =>
          ⟨(gui.SetViewOnBottom name).gui.modifyView name f, none⟩
      else ⟨g, none⟩).gui.views name).map View.bounds ≠ none := by
  split
  · rename_i hv
    rw [if_pos hv] at h
    cases hf : env.setViewFailure name with
    | some c =>
      rw [SetView_failure env g name _ _ _ _ c hf] at h
      simp [onUnknownView] at h
    | none =>
      simp [onUnknownView, Gui.SetView, hf, hv, Gui.SetViewOnBottom, Gui.modifyView]
  · rename_i hv
    cases hg : g.views name with
    | none => exact absurd hg hv
    | some v => simp

theorem blocks_established (env : Env) :
    ∀ x ∈ blocks env, ∀ g, (x.step g).err = none → x.established env (x.step g).gui := by
  simp only [blocks, List.forall_mem_cons, List.mem_nil_iff, false_implies, implies_true,
    and_true]
  refine ⟨?_, ?_, ?_, ?_, ?_, ?_, ?_, ?_, ?_, ?_, ?_, ?_, ?_, ?_, ?_, ?_, ?_, ?_, ?_, ?_, ?_⟩
  · intro g _
    simp [Block.established, Post.holds, deleteLimit_established]
  · intro g _
    simp [Block.established]
  · exact fun g h => panel_established env _ g _ _ _ _ _ _ rfl
      (fun g1 => modifyView_effect g1 "main" _) (by simp) h
  · exact fun g h => panel_established env _ g _ _ _ _ _ _ rfl
      (fun g1 => modifyView_effect g1 "secondary" _) (by simp) h
  · exact fun g h => panel_established env _ g _ _ _ _ _ _ rfl
      (fun g1 => modifyView_effect g1 "status" _) (by simp) h
  · exact fun g h => panel_established env _ g _ _ _ _ _ _ rfl
      (fun g1 => modifyView_effect g1 "files" _) (by simp) h
  · exact fun g h => panel_established env _ g _ _ _ _ _ _ rfl
      (fun g1 => modifyView_effect g1 "branches" _) (by simp) h
  · exact fun g h => panel_established env _ g _ _ _ _ _ _ rfl
      (fun g1 => modifyView_effect g1 "commitFiles" _) (by simp) h
  · exact fun g h => panel_established env _ g _ _ _ _ _ _ rfl
      (fun g1 => modifyView_effect g1 "commits" _) (by simp) h
  · exact fun g h => panel_established env _ g _ _ _ _ _ _ rfl
      (fun g1 => modifyView_effect g1 "stash" _) (by simp) h
  · intro g h
    simp only [Block.established, List.mem_singleton, forall_eq, Post.holds, List.mem_nil_iff,
      false_implies, implies_true, and_true]
    exact hidden_established env g "commitMessage" _ h
  · intro g h
    simp only [Block.established, List.mem_singleton, forall_eq, Post.holds, List.mem_nil_iff,
      false_implies, implies_true, and_true]
    exact hidden_established env g "credentials" _ h
  · intro g h
    have h2 := ensure_established env (viewDimensions env) g "options" "options" false _
      (fun g1 => (modifyView_effect g1 "options" _).trans (onInitialViewsCreation_effect env _))
      (by simp) h
    simp only [Block.established, List.mem_singleton, forall_eq, Post.holds]
    exact ⟨h2.2, h2.1⟩
  · exact fun g h => panel_established env _ g _ _ _ _ _ _ rfl
      (fun g1 => (modifyView_effect g1 "searchPrefix" _).trans
        (setViewContent_effect _ "searchPrefix" _)) (by simp) h
  · exact fun g h => panel_established env _ g _ _ _ _ _ _ rfl
      (fun g1 => modifyView_effect g1 "search" _) (by simp) h
  · exact fun g h => panel_established env _ g _ _ _ _ _ _ rfl
      (fun g1 => (modifyView_effect g1 "appStatus" _).trans
        (SetViewOnBottom_effect _ "appStatus")) (by simp) h
  · intro g h
    unfold layoutInformation at h ⊢
    obtain ⟨h1, h2⟩ := andThen_err_none h
    rw [h2]
    have h3 := ensure_established env (viewDimensions env) g "information" "information" false _
      (fun g1 => (modifyView_effect g1 "information" _).trans
        (renderString_effect _ "information" _)) (by simp) h1
    simp only [Block.established, List.mem_singleton, forall_eq, Post.holds]
    refine ⟨?_, h3.1⟩
    rw [← h3.2]
    split
    · exact (modifyView_effect _ "information" _).kept "information" (by simp)
    · rfl
  · intro g _
    simp [Block.established]
  · intro g _
    simp [Block.established]
  · intro g _
    simp [Block.established]
  · intro g _
    simp [Block.established]

theorem established_kept (env : Env) (x : Block) {T B : List String} {ks : List EventKind}
    {fs : List Field} {g g' : Gui} (h : x.established env g) (he : Effect T B ks fs g g')
    (hB : ∀ p ∈ x.ensures, p.1 ∉ B) : x.established env g' := by
  refine ⟨fun p hp => ?_, h.2⟩
  have h1 := h.1 p hp
  have h2 := he.kept p.1 (hB p hp)
  cases hq : p.2 <;> simp only [hq, Post.holds] at h1 ⊢ <;> rw [h2] <;> exact h1

/-- No block re-bounds, creates or deletes a surface that an earlier block has
established. -/
theorem blocks_pairwise (env : Env) :
    List.Pairwise (fun x y : Block => ∀ p ∈ x.ensures, p.1 ∉ y.B) (blocks env) := by
  simp [blocks, panelBlock]

theorem run_established (env : Env) (pre : List Block) (hsub : ∀ x ∈ pre, x ∈ blocks env)
    (hp : List.Pairwise (fun x y : Block => ∀ p ∈ x.ensures, p.1 ∉ y.B) pre) (g : Gui)
    (herr : (runSteps (pre.map Block.step) g).err = none) :
    ∀ x ∈ pre, x.established env (runSteps (pre.map Block.step) g).gui := by
  induction pre using List.reverseRecOn with
  | nil => simp
  | append_singleton l y ih =>
    rw [List.map_append, List.map_singleton, runSteps_snoc] at herr ⊢
    obtain ⟨h1, h2⟩ := andThen_err_none herr
    rw [h2] at herr ⊢
    have hp2 := List.pairwise_append.1 hp
    have ih2 := ih (fun x hx => hsub x (List.mem_append_left _ hx)) hp2.1 h1
    have hy := hsub y (List.mem_append_right _ (List.mem_singleton_self y))
    intro x hx
    rcases List.mem_append.1 hx with hx | hx
    · exact established_kept env x (ih2 x hx) (blocks_effect env y hy _)
        (hp2.2.2 x hx y (List.mem_singleton_self y))
    · rw [List.mem_singleton] at hx
      subst hx
      exact blocks_established env x hy _ herr


/-! ## Splitting a pass -/

theorem layoutPrefix_eq (env : Env) (k : Nat) (g : Gui) :
    layoutPrefix env k g = runSteps (((blocks env).take k).map Block.step) g := by
  rw [layoutPrefix, ← blocks_steps, List.map_take]

theorem run_split (env : Env) (k : Nat) (g : Gui) :
    runSteps ((blocks env).map Block.step) g =
      (layoutPrefix env k g).andThen (runSteps (((blocks env).drop k).map Block.step)) := by
  rw [layoutPrefix_eq, ← runSteps_append, ← List.map_append, List.take_append_drop]

theorem take_effect (env : Env) (k : Nat) (T B : List String) (ks : List EventKind)
    (fs : List Field)
    (hfoot : ∀ x ∈ (blocks env).take k, (∀ n ∈ x.T, n ∈ T) ∧ (∀ n ∈ x.B, n ∈ B) ∧
      (∀ k ∈ x.ks, k ∈ ks) ∧ ∀ f ∈ x.fs, f ∈ fs) (g : Gui) :
    Effect T B ks fs g (layoutPrefix env k g).gui := by
  rw [layoutPrefix_eq]
  exact sub_effect env _ T B ks fs (fun _ hx => List.mem_of_mem_take hx) hfoot g

theorem drop_effect (env : Env) (k : Nat) (T B : List String) (ks : List EventKind)
    (fs : List Field)
    (hfoot : ∀ x ∈ (blocks env).drop k, (∀ n ∈ x.T, n ∈ T) ∧ (∀ n ∈ x.B, n ∈ B) ∧
      (∀ k ∈ x.ks, k ∈ ks) ∧ ∀ f ∈ x.fs, f ∈ fs) (g : Gui) :
    Effect T B ks fs g (runSteps (((blocks env).drop k).map Block.step) g).gui :=
  sub_effect env _ T B ks fs (fun _ hx => List.mem_of_mem_drop hx) hfoot g

theorem prefix_established (env : Env) (k : Nat) (g : Gui)
    (herr : (layoutPrefix env k g).err = none) :
    ∀ x ∈ (blocks env).take k, x.established env (layoutPrefix env k g).gui := by
  rw [layoutPrefix_eq] at herr ⊢
  exact run_established env _ (fun _ hx => List.mem_of_mem_take hx)
    ((blocks_pairwise env).sublist (List.take_sublist _ _)) g herr

theorem layout_small (env : Env) (gui : Gui) (h : env.width < 10 ∨ env.height < 9) :
    layout env gui = layoutLimit env { gui with Highlight := true } := by
  unfold layout
  simp only [minimumHeight, minimumWidth]
  rw [if_pos (Or.symm h)]

theorem layout_normal (env : Env) (gui : Gui) (h : 10 ≤ env.width ∧ 9 ≤ env.height) :
    layout env gui = runSteps ((blocks env).map Block.step) { gui with Highlight := true } := by
  unfold layout
  simp only [minimumHeight, minimumWidth]
  rw [if_neg (by omega), blocks_steps]

theorem highlight_effect (g : Gui) : Effect [] [] [] [.Highlight] g { g with Highlight := true } :=
  ⟨fun _ _ => rfl, fun _ _ => rfl, ⟨[], by simp, by simp⟩,
    fun f hf => by cases f <;> simp_all [Field.same]⟩

theorem limit_effect (env : Env) (g : Gui) :
    Effect ["limit"] ["limit"] [] [] g (layoutLimit env g).gui := by
  refine Effect.mono (onUnknownView_effect (SetView_effect env g "limit" _ _ _ _)
    (fun g1 => (modifyView_effect g1 "limit" _).trans (SetViewOnTop_effect _ "limit")))
    ?_ ?_ ?_ ?_ <;> simp

theorem limit_absent_after (env : Env) (g : Gui) :
    (runSteps ((blocks env).map Block.step) g).gui.views "limit" = none := by
  rw [run_split env 1 g]
  have h0 : layoutPrefix env 1 g = deleteLimit g := by
    rw [layoutPrefix_eq]
    exact runSteps_single _ g
  rw [h0, andThen_of_err_none (by rfl)]
  have he := drop_effect env 1 allSurfaces (allSurfaces.erase "limit") allKinds allFields
    (by simp [blocks, panelBlock, allSurfaces, allKinds, allFields]) (deleteLimit g).gui
  have hk := he.kept "limit" (by decide)
  rw [deleteLimit_established g] at hk
  simpa using hk

theorem Effect.log_eq {T B : List String} {fs : List Field} {g g' : Gui}
    (h : Effect T B [] fs g g') : g'.log = g.log := by
  obtain ⟨L, hL, hk⟩ := h.log
  cases L with
  | nil => simpa using hL
  | cons e t => simpa using hk e (List.mem_cons_self _ _)

theorem filter_kind_nil (L : List Event) (ks : List EventKind) (k : EventKind)
    (h : ∀ e ∈ L, e.kind ∈ ks) (hk : k ∉ ks) : L.filter (fun e => e.kind = k) = [] := by
  rw [List.filter_eq_nil_iff]
  intro e he
  have := h e he
  simp only [decide_eq_true_eq]
  intro hh
  exact hk (hh ▸ this)

theorem readMoreLines_log (env : Env) (g : Gui) (v : View) (hmain : g.views "main" = some v) :
    (readMoreLines env (viewDimensions env) g).gui.log = g.log ++
      (if newMainHeight env - v.Size.2 > 0 then
        (if env.viewBufferManagerMap "main" then
          [Event.ReadLines "main" (newMainHeight env - v.Size.2)] else []) ++
        (if env.viewBufferManagerMap "secondary" then
          [Event.ReadLines "secondary" (newMainHeight env - v.Size.2)] else [])
      else []) := by
  unfold readMoreLines newMainHeight
  simp only [hmain]
  split
  · cases env.viewBufferManagerMap "main" <;> cases env.viewBufferManagerMap "secondary" <;>
      simp [Gui.record]
  · simp

theorem layoutPrefix_two (env : Env) (g : Gui) :
    layoutPrefix env 2 g = readMoreLines env (viewDimensions env) (deleteLimit g).gui := by
  rw [layoutPrefix_eq]
  show runSteps [deleteLimit, readMoreLines env (viewDimensions env)] g = _
  simp [runSteps, Result.andThen, deleteLimit]
  exact Result.andThen_eta _

theorem readMoreLines_err (env : Env) (dims : String → Option Dimensions) (g : Gui) :
    (readMoreLines env dims g).err = none := by
  unfold readMoreLines
  split
  · simp only
    split <;> rfl
  · rfl

/-! ## The loop over the list contexts -/

theorem refocusView_context (s : listContextState) (v : View) :
    (refocusView s v).Context = v.Context := by
  unfold refocusView View.FocusPoint
  split_ifs <;> rfl

theorem refocus_owned (g : Gui) (s : listContextState)
    (h : (g.views s.view).map View.Context = some s.contextKey) :
    refocus g s = ((g.modifyView s.view (refocusView s)).record
      (.FocusPoint s.view 0 s.selectedLine)).record (.SetOnSelectItem s.view s.contextKey) := by
  unfold refocus
  cases hv : g.views s.view with
  | none => simp [hv] at h
  | some v =>
    simp only [hv, Option.map_some', Option.some.injEq] at h
    simp [h]

theorem refocus_not_owned (g : Gui) (s : listContextState)
    (h : (g.views s.view).map View.Context ≠ some s.contextKey) : refocus g s = g := by
  unfold refocus
  cases hv : g.views s.view with
  | none => rfl
  | some v =>
    simp only [hv, Option.map_some', ne_eq, Option.some.injEq] at h
    simp [h]

theorem refocus_log (g : Gui) (s : listContextState) :
    (refocus g s).log = g.log ++ refocusEvents g s := by
  unfold refocusEvents
  split
  · rename_i h
    rw [refocus_owned g s h]
    simp [Gui.record, Gui.modifyView]
  · rename_i h
    rw [refocus_not_owned g s h]
    simp

theorem refocus_views (g : Gui) (s : listContextState) (n : String) :
    (refocus g s).views n =
      if n = s.view ∧ (g.views s.view).map View.Context = some s.contextKey then
        (g.views n).map (refocusView s)
      else g.views n := by
  by_cases h : (g.views s.view).map View.Context = some s.contextKey
  · rw [refocus_owned g s h]
    by_cases hn : n = s.view
    · simp [Gui.record, Gui.modifyView, hn, h]
    · simp [Gui.record, Gui.modifyView, hn]
  · rw [refocus_not_owned g s h]
    simp [h]

theorem refocus_context (g : Gui) (s : listContextState) (n : String) :
    ((refocus g s).views n).map View.Context = (g.views n).map View.Context := by
  rw [refocus_views]
  split
  · cases g.views n <;> simp [refocusView_context]
  · rfl

theorem refocusEvents_refocus (g : Gui) (t s : listContextState) :
    refocusEvents (refocus g t) s = refocusEvents g s := by
  unfold refocusEvents
  rw [refocus_context]

theorem foldl_refocus_context (l : List listContextState) (g : Gui) (n : String) :
    ((l.foldl refocus g).views n).map View.Context = (g.views n).map View.Context := by
  induction l generalizing g with
  | nil => rfl
  | cons t rest ih => rw [List.foldl_cons, ih, refocus_context]

theorem foldl_refocus_log (l : List listContextState) (g : Gui) :
    (l.foldl refocus g).log = g.log ++ l.flatMap (refocusEvents g) := by
  induction l generalizing g with
  | nil => simp
  | cons t rest ih =>
    rw [List.foldl_cons, ih, refocus_log, List.flatMap_cons, List.append_assoc]
    congr 2
    exact List.flatMap_congr (fun s _ => refocusEvents_refocus g t s) |>.symm ▸ rfl

theorem foldl_refocus_untouched (l : List listContextState) (g : Gui) (n : String)
    (h : ∀ s ∈ l, s.view = n → (g.views n).map View.Context ≠ some s.contextKey) :
    (l.foldl refocus g).views n = g.views n := by
  induction l generalizing g with
  | nil => rfl
  | cons t rest ih =>
    rw [List.foldl_cons, ih]
    · rw [refocus_views]
      split
      · rename_i hh
        exact absurd (hh.1 ▸ hh.2) (h t (List.mem_cons_self _ _) hh.1.symm)
      · rfl
    · intro s hs hsn
      rw [refocus_context]
      exact h s (List.mem_cons_of_mem _ hs) hsn

theorem foldl_refocus_owned (l : List listContextState) (g : Gui)
    (hp : l.Pairwise (fun a b => a.contextKey ≠ b.contextKey)) (s : listContextState)
    (hs : s ∈ l) (ho : (g.views s.view).map View.Context = some s.contextKey) :
    (l.foldl refocus g).views s.view = (g.views s.view).map (refocusView s) := by
  induction l generalizing g with
  | nil => simp at hs
  | cons t rest ih =>
    rw [List.foldl_cons]
    rw [List.pairwise_cons] at hp
    rcases List.mem_cons.1 hs with hst | hst
    · subst hst
      rw [foldl_refocus_untouched]
      · rw [refocus_views]
        simp [ho]
      · intro u hu _
        rw [refocus_context, ho]
        intro hh
        exact hp.1 u hu (Option.some.inj hh)
    · have hts : t.contextKey ≠ s.contextKey := hp.1 s hst
      have hv : (refocus g t).views s.view = g.views s.view := by
        rw [refocus_views]
        split
        · rename_i hh
          rw [← hh.1, ho] at hh
          exact absurd (Option.some.inj hh.2).symm hts
        · rfl
      rw [ih (refocus g t) hp.2 hst (by rw [refocus_context]; exact ho), hv]

theorem listContextStates_keys (env : Env) (g : Gui) :
    (listContextStates env g).Pairwise (fun a b => a.contextKey ≠ b.contextKey) := by
  unfold listContextStates
  split <;> simp

theorem flatMap_refocusEvents_count (l : List listContextState) (g : Gui) (n : String)
    (hp : l.Pairwise (fun a b => a.contextKey ≠ b.contextKey)) :
    (l.flatMap (refocusEvents g)).countP (Event.focuses n) ≤ 1 ∧
    ((l.flatMap (refocusEvents g)).countP (Event.focuses n) = 1 →
      ∃ s ∈ l, s.view = n ∧ (g.views n).map View.Context = some s.contextKey) := by
  induction l with
  | nil => simp
  | cons t rest ih =>
    rw [List.pairwise_cons] at hp
    have ih2 := ih hp.2
    rw [List.flatMap_cons, List.countP_append]
    by_cases ht : (g.views t.view).map View.Context = some t.contextKey ∧ t.view = n
    · have hrest : (rest.flatMap (refocusEvents g)).countP (Event.focuses n) = 0 := by
        by_contra hne
        have h1 : (rest.flatMap (refocusEvents g)).countP (Event.focuses n) = 1 := by omega
        obtain ⟨s, hs, hsn, hso⟩ := ih2.2 h1
        rw [← ht.2, ht.1] at hso
        exact hp.1 s hs (Option.some.inj hso)
      rw [hrest]
      have : (refocusEvents g t).countP (Event.focuses n) = 1 := by
        unfold refocusEvents
        rw [if_pos ht.1]
        simp [Event.focuses, ht.2]
      rw [this]
      exact ⟨le_refl _, fun _ => ⟨t, List.mem_cons_self _ _, ht.2, ht.2 ▸ ht.1⟩⟩
    · have : (refocusEvents g t).countP (Event.focuses n) = 0 := by
        unfold refocusEvents
        split
        · rename_i ho
          have hn : t.view ≠ n := fun hh => ht ⟨ho, hh⟩
          simp [Event.focuses, hn]
        · simp
      rw [this, Nat.zero_add]
      exact ⟨ih2.1, fun h1 => by
        obtain ⟨s, hs, hh⟩ := ih2.2 h1
        exact ⟨s, List.mem_cons_of_mem _ hs, hh⟩⟩

theorem layoutPrefix_succ (env : Env) (k : Nat) (g : Gui) (x : Block)
    (hx : (blocks env)[k]? = some x) :
    layoutPrefix env (k + 1) g = (layoutPrefix env k g).andThen x.step := by
  rw [layoutPrefix_eq, layoutPrefix_eq, List.take_succ, hx, List.map_append]
  exact runSteps_snoc _ _ g

theorem layoutPrefix_step (env : Env) (k : Nat) (g : Gui) (s : Step)
    (hs : ((blocks env)[k]?).map Block.step = some s) :
    layoutPrefix env (k + 1) g = (layoutPrefix env k g).andThen s := by
  cases hx : (blocks env)[k]? with
  | none => simp [hx] at hs
  | some x =>
    simp only [hx, Option.map_some', Option.some.injEq] at hs
    rw [layoutPrefix_succ env k g x hx, hs]

theorem filter_kinds_nil (L : List Event) (ks : List EventKind) (p : EventKind → Bool)
    (h : ∀ e ∈ L, e.kind ∈ ks) (hp : ∀ k ∈ ks, p k = false) :
    L.filter (fun e => p e.kind) = [] := by
  rw [List.filter_eq_nil_iff]
  intro e he
  simp [hp _ (h e he)]

theorem filter_refocusEvents (l : List listContextState) (g : Gui) :
    (l.flatMap (refocusEvents g)).filter
      (fun e => e.kind = .FocusPoint ∨ e.kind = .SetOnSelectItem) =
      l.flatMap (refocusEvents g) := by
  rw [List.filter_eq_self]
  intro e he
  obtain ⟨s, _, hs⟩ := List.mem_flatMap.1 he
  unfold refocusEvents at hs
  split at hs
  · simp only [List.mem_cons, List.mem_singleton, List.mem_nil_iff, or_false] at hs
    rcases hs with h | h <;> simp [h, Event.kind]
  · simp at hs

/-- A relation between states that holds across every step holds across a run. -/
theorem runSteps_rel (R : Gui → Gui → Prop) (hr : ∀ g, R g g)
    (ht : ∀ a b c, R a b → R b c → R a c) (steps : List Step)
    (h : ∀ s ∈ steps, ∀ g, R g (s g).gui) : ∀ g, R g (runSteps steps g).gui := by
  induction steps with
  | nil => intro g; exact hr g
  | cons s rest ih =>
    intro g
    have hs := h s (List.mem_cons_self _ _) g
    have ih2 := ih (fun t ht => h t (List.mem_cons_of_mem _ ht))
    simp only [runSteps, Result.andThen]
    split
    · exact ht _ _ _ hs (ih2 _)
    · exact hs

theorem runBlocks_rel (R : Gui → Gui → Prop) (hr : ∀ g, R g g)
    (ht : ∀ a b c, R a b → R b c → R a c) (bs : List Block)
    (h : ∀ x ∈ bs, ∀ g, R g (x.step g).gui) : ∀ g, R g (runSteps (bs.map Block.step) g).gui :=
  runSteps_rel R hr ht _ (fun s hs g => by
    obtain ⟨x, hx, rfl⟩ := List.mem_map.1 hs
    exact h x hx g)

/-! ## The initial setup -/

theorem setupCount_of_effect {T B : List String} {ks : List EventKind} {fs : List Field}
    {g g' : Gui} (h : Effect T B ks fs g g') (hk : EventKind.createContextTree ∉ ks) :
    setupCount g'.log = setupCount g.log := by
  obtain ⟨L, hL, hLk⟩ := h.log
  unfold setupCount
  rw [hL, List.countP_append]
  have : L.countP (fun e => e.kind = .createContextTree) = 0 := by
    rw [List.countP_eq_zero]
    intro e he
    simp only [decide_eq_true_eq]
    intro hh
    exact hk (hh ▸ hLk e he)
  rw [this, Nat.add_zero]

theorem onInitialViewsCreation_count (env : Env) (g : Gui) :
    setupCount (onInitialViewsCreation env g).gui.log = setupCount g.log + 1 := by
  rw [setupCount_of_effect (onInitialViewsCreation_rest env g) (by simp)]
  simp [setupCount, Gui.record, Event.kind, List.countP_append]

theorem setViewFromDimensions_err (env : Env) (dims : String → Option Dimensions) (g : Gui)
    (viewName windowName : String) (frame : Bool) (hf : env.setViewFailure viewName = none) :
    (setViewFromDimensions env dims g viewName windowName frame).err =
      if g.views viewName = none then some .unknownView else none := by
  unfold setViewFromDimensions
  split
  · simp only
    have h1 := SetView_err env g viewName 0 0 0 0 hf
    have h2 := SetView_bounds env g viewName 0 0 0 0 hf
    split
    · rename_i e he
      rw [h1] at he
      split at he <;> simp_all
    · rename_i he
      rw [h1] at he
      split at he
      · simp at he
      · rename_i hv
        rw [if_neg hv]
        unfold Gui.SetViewOnBottom
        cases hh : (g.SetView env viewName 0 0 0 0).gui.views viewName with
        | none => simp [hh] at h2
        | some v => rfl
  · exact SetView_err env g viewName _ _ _ _ hf

theorem present_iff (g : Gui) (n : String) :
    g.views n ≠ none ↔ (g.views n).map View.bounds ≠ none := by
  cases g.views n <;> simp

theorem setupStep_refl (g : Gui) : SetupStep g g :=
  ⟨fun h => ⟨h, rfl⟩, fun h => Or.inl ⟨h, rfl⟩⟩

theorem setupStep_trans (a b c : Gui) (h1 : SetupStep a b) (h2 : SetupStep b c) :
    SetupStep a c := by
  constructor
  · intro ha
    obtain ⟨hb, hc1⟩ := h1.1 ha
    obtain ⟨hc, hc2⟩ := h2.1 hb
    exact ⟨hc, hc2.trans hc1⟩
  · intro ha
    rcases h1.2 ha with ⟨hb, hc1⟩ | ⟨hb, hc1⟩
    · rcases h2.2 hb with ⟨hc, hc2⟩ | ⟨hc, hc2⟩
      · exact Or.inl ⟨hc, hc2.trans hc1⟩
      · exact Or.inr ⟨hc, by rw [hc2, hc1]⟩
    · obtain ⟨hc, hc2⟩ := h2.1 hb
      exact Or.inr ⟨hc, by rw [hc2, hc1]⟩

theorem setupStep_of_effect {T B : List String} {ks : List EventKind} {fs : List Field}
    {g g' : Gui} (h : Effect T B ks fs g g') (hB : "options" ∉ B)
    (hk : EventKind.createContextTree ∉ ks) : SetupStep g g' := by
  have hv := h.kept "options" hB
  have hc := setupCount_of_effect h hk
  constructor
  · intro hg
    rw [present_iff, hv, ← present_iff]
    exact ⟨hg, hc⟩
  · intro hg
    left
    refine ⟨?_, hc⟩
    by_contra hh
    have hh2 : g'.views "options" ≠ none := hh
    rw [present_iff, hv, ← present_iff] at hh2
    exact hh2 hg

/-- The options block: it invokes the initial setup exactly when it creates the
options surface, and never removes the surface. -/
theorem layoutOptions_setup (env : Env) (dims : String → Option Dimensions) (g : Gui) :
    SetupStep g (layoutOptions env dims g).gui := by
  unfold layoutOptions SetupStep
  cases hf : env.setViewFailure "options" with
  | some c =>
    rw [setViewFromDimensions_failure env dims g "options" "options" false c hf]
    simp [onUnknownView]
  | none =>
    have herr := setViewFromDimensions_err env dims g "options" "options" false hf
    have hb := setViewFromDimensions_target env dims g "options" "options" false hf
    have he := setViewFromDimensions_effect env dims g "options" "options" false
    have hp : (setViewFromDimensions env dims g "options" "options" false).gui.views "options"
        ≠ none := by
      rw [present_iff, hb]
      simp
    constructor
    · intro hv
      rw [if_neg hv] at herr
      unfold onUnknownView
      simp only [herr]
      exact ⟨hp, setupCount_of_effect he (by simp)⟩
    · intro hv
      rw [if_pos hv] at herr
      right
      unfold onUnknownView
      simp only [herr]
      constructor
      · rw [present_iff,
          (onInitialViewsCreation_effect env _).kept "options" (by simp),
          (modifyView_effect _ "options" _).kept "options" (by simp), ← present_iff]
        exact hp
      · rw [onInitialViewsCreation_count,
          setupCount_of_effect (modifyView_effect _ "options" _) (by simp),
          setupCount_of_effect he (by simp)]

theorem pass_setup (env : Env) (gui : Gui) : SetupStep gui (layout env gui).gui := by
  by_cases hsize : 10 ≤ env.width ∧ 9 ≤ env.height
  · rw [layout_normal env gui hsize]
    refine setupStep_trans _ _ _ (setupStep_of_effect (highlight_effect gui) (by simp) (by simp))
      (runBlocks_rel SetupStep setupStep_refl setupStep_trans _ (fun x hx g => ?_) _)
    have hx2 : x.step = layoutOptions env (viewDimensions env) ∨
        ("options" ∉ x.B ∧ EventKind.createContextTree ∉ x.ks) := by
      revert x
      simp [blocks, panelBlock]
    rcases hx2 with h | h
    · rw [h]
      exact layoutOptions_setup env _ g
    · exact setupStep_of_effect (blocks_effect env x hx g) h.1 h.2
  · rw [layout_small env gui (by omega)]
    exact setupStep_trans _ _ _ (setupStep_of_effect (highlight_effect gui) (by simp) (by simp))
      (setupStep_of_effect (limit_effect env _) (by simp) (by simp))

theorem passes_setup (envs : List Env) (g : Gui) : SetupStep g (passes envs g) := by
  unfold passes
  induction envs generalizing g with
  | nil => exact setupStep_refl g
  | cons env rest ih =>
    rw [List.foldl_cons]
    exact setupStep_trans _ _ _ (pass_setup env g) (ih _)

/-! ## The focus pointer -/

theorem layoutPrefix_full (env : Env) (g : Gui) :
    layoutPrefix env 21 g = runSteps ((blocks env).map Block.step) g := by
  rw [layoutPrefix_eq, List.take_of_length_le (by simp [blocks])]

/-- After a pass at or above the minimum size that returned no error, every
block has established what it establishes. -/
theorem layout_established (env : Env) (gui : Gui) (hsize : 10 ≤ env.width ∧ 9 ≤ env.height)
    (herr : (layout env gui).err = none) :
    ∀ x ∈ blocks env, x.established env (layout env gui).gui := by
  rw [layout_normal env gui hsize, ← layoutPrefix_full] at herr ⊢
  have h := prefix_established env 21 _ herr
  rw [List.take_of_length_le (by simp [blocks])] at h
  exact h

theorem prefix_err_none (env : Env) (k : Nat) (g : Gui)
    (h : (runSteps ((blocks env).map Block.step) g).err = none) :
    (layoutPrefix env k g).err = none ∧
    runSteps ((blocks env).map Block.step) g =
      runSteps (((blocks env).drop k).map Block.step) (layoutPrefix env k g).gui := by
  rw [run_split env k] at h ⊢
  exact andThen_err_none h

theorem switchContext_ok (g : Gui) (t : Context) (h : (switchContext g t).err = none) :
    (switchContext g t).gui.focused = some t.key ∧
    ((switchContext g t).gui.views t.viewName).map View.Context = some t.key := by
  unfold switchContext at h ⊢
  simp only at h ⊢
  split
  · rename_i hv
    simp [hv, ContextUnavailable] at h
  · rename_i v hv
    have e := unfocusPrevious_effect (g.record (.switchContext t.key))
    have hv2 := e.views t.viewName (by simp)
    simp only [focusTarget, Gui.modifyView, Gui.SetViewOnTop]
    split <;> simp [hv2, hv]

theorem initialContext_key (env : Env) :
    (initialContext env).key = if env.inFilterMode then "branch-commits" else "files" := by
  unfold initialContext
  split <;> rfl

theorem focusKept_refl (g : Gui) : FocusKept g g := fun h => ⟨h, rfl⟩

theorem focusKept_trans (a b c : Gui) (h1 : FocusKept a b) (h2 : FocusKept b c) :
    FocusKept a c := fun ha =>
  ⟨(h2 (h1 ha).1).1, (h2 (h1 ha).1).2.trans (h1 ha).2⟩

theorem focusKept_of_effect {T B : List String} {ks : List EventKind} {fs : List Field}
    {g g' : Gui} (h : Effect T B ks fs g g') (hB : "options" ∉ B) (hf : Field.focused ∉ fs) :
    FocusKept g g' := by
  intro hg
  have hv := h.kept "options" hB
  rw [present_iff, hv, ← present_iff]
  exact ⟨hg, h.fields .focused hf⟩

theorem layoutOptions_focus (env : Env) (dims : String → Option Dimensions) (g : Gui) :
    FocusKept g (layoutOptions env dims g).gui := by
  intro hg
  refine ⟨((layoutOptions_setup env dims g).1 hg).1, ?_⟩
  unfold layoutOptions
  cases hf : env.setViewFailure "options" with
  | some c =>
    rw [setViewFromDimensions_failure env dims g "options" "options" false c hf]
    simp [onUnknownView]
  | none =>
    have herr := setViewFromDimensions_err env dims g "options" "options" false hf
    rw [if_neg hg] at herr
    unfold onUnknownView
    simp only [herr]
    exact (setViewFromDimensions_effect env dims g "options" "options" false).fields .focused
      (by simp)

/-! ## Errors -/

theorem SetView_err_cases (env : Env) (g : Gui) (name : String) (x0 y0 x1 y1 : Int) :
    (∃ c, env.setViewFailure name = some c ∧
      g.SetView env name x0 y0 x1 y1 = ⟨g, some (.other c)⟩) ∨
    (env.setViewFailure name = none ∧
      ((g.SetView env name x0 y0 x1 y1).err = none ∨
        (g.SetView env name x0 y0 x1 y1).err = some .unknownView)) := by
  cases hf : env.setViewFailure name with
  | some c => exact Or.inl ⟨c, rfl, SetView_failure env g name _ _ _ _ c hf⟩
  | none =>
    right
    rw [SetView_err env g name _ _ _ _ hf]
    refine ⟨rfl, ?_⟩
    split <;> simp

theorem setViewFromDimensions_err_cases (env : Env) (dims : String → Option Dimensions) (g : Gui)
    (viewName windowName : String) (frame : Bool) :
    (∃ c, env.setViewFailure viewName = some c ∧
      setViewFromDimensions env dims g viewName windowName frame = ⟨g, some (.other c)⟩) ∨
    (env.setViewFailure viewName = none ∧
      ((setViewFromDimensions env dims g viewName windowName frame).err = none ∨
        (setViewFromDimensions env dims g viewName windowName frame).err =
          some .unknownView)) := by
  cases hf : env.setViewFailure viewName with
  | some c =>
    exact Or.inl ⟨c, rfl, setViewFromDimensions_failure env dims g viewName windowName frame c hf⟩
  | none =>
    right
    rw [setViewFromDimensions_err env dims g viewName windowName frame hf]
    refine ⟨rfl, ?_⟩
    split <;> simp

/-- The error of an `onUnknownView` idiom is a failure of the call, or the
error of the initialisation. -/
theorem onUnknownView_err_some {r : Result} {init : Step} {e : GoError}
    (h : (onUnknownView r init).err = some e) :
    (∃ c, r.err = some (.other c) ∧ e = .other c) ∨
    (r.err = some .unknownView ∧ (init r.gui).err = some e) := by
  unfold onUnknownView at h
  split at h
  · simp at h
  · rename_i hr
    exact Or.inr ⟨hr, h⟩
  · rename_i c hr
    simp only [Option.some.injEq] at h
    exact Or.inl ⟨c, hr, h.symm⟩

theorem ensure_err (env : Env) (dims : String → Option Dimensions) (g : Gui)
    (viewName windowName : String) (frame : Bool) (init : Step) (e : GoError)
    (h : (onUnknownView (setViewFromDimensions env dims g viewName windowName frame)
      init).err = some e) :
    Propagated env e ∨
    (init (setViewFromDimensions env dims g viewName windowName frame).gui).err = some e := by
  rcases onUnknownView_err_some h with ⟨c, hc, he⟩ | ⟨_, hi⟩
  · left
    rcases setViewFromDimensions_err_cases env dims g viewName windowName frame with
      ⟨c2, hf, heq⟩ | ⟨_, h1 | h1⟩
    · rw [heq] at hc
      simp only [Option.some.injEq, GoError.other.injEq] at hc
      exact Or.inl ⟨viewName, c2, hf, hc ▸ he⟩
    · rw [h1] at hc
      simp at hc
    · rw [h1] at hc
      simp at hc
  · exact Or.inr hi

theorem hidden_err (env : Env) (g : Gui) (name : String) (f : View → View) (e : GoError)
    (h : (if g.views name = none then
        onUnknownView (g.SetView env name hiddenViewOffset hiddenViewOffset
          (hiddenViewOffset + 10) (hiddenViewOffset + 10)) fun gui =>
          ⟨(gui.SetViewOnBottom name).gui.modifyView name f, none⟩
      else ⟨g, none⟩).err = some e) : Propagated env e := by
  split at h
  · rcases onUnknownView_err_some h with ⟨c, hc, he⟩ | ⟨_, hi⟩
    · rcases SetView_err_cases env g name hiddenViewOffset hiddenViewOffset
        (hiddenViewOffset + 10) (hiddenViewOffset + 10) with ⟨c2, hf, heq⟩ | ⟨_, h1 | h1⟩
      · rw [heq] at hc
        simp only [Option.some.injEq, GoError.other.injEq] at hc
        exact Or.inl ⟨name, c2, hf, hc ▸ he⟩
      · rw [h1] at hc
        simp at hc
      · rw [h1] at hc
        simp at hc
    · simp at hi
  · simp at h

theorem switchContext_err (g : Gui) (t : Context) (e : GoError)
    (h : (switchContext g t).err = some e) : g.views t.viewName = none := by
  unfold switchContext at h
  simp only at h
  split at h
  · rename_i hv
    exact hv
  · simp at h

theorem onInitialViewsCreation_err (env : Env) (g : Gui) (e : GoError)
    (h : (onInitialViewsCreation env g).err = some e) :
    g.views "files" = none ∨ Propagated env e := by
  unfold onInitialViewsCreation at h
  simp only at h
  cases hs : (switchContext (g.record .createContextTree) Contexts.Files).err with
  | some e1 =>
    left
    exact switchContext_err _ _ e1 hs
  | none =>
    right
    rw [andThen_of_err_none hs] at h
    by_cases hr : (((switchContext (g.record .createContextTree) Contexts.Files).gui).record
        (.changeMainViewsContext "normal")).showRecentRepos = true
    · rw [if_pos hr] at h
      cases hm : env.handleCreateRecentReposMenuErr with
      | some e2 =>
        simp [Result.andThen, hm] at h
        exact Or.inr (Or.inl (by rw [hm, h]))
      | none =>
        simp [Result.andThen, hm] at h
        exact Or.inr (Or.inr (Or.inl h.symm))
    · rw [if_neg hr] at h
      simp [Result.andThen] at h
      exact Or.inr (Or.inr (Or.inl h.symm))


theorem layoutOptions_err (env : Env) (dims : String → Option Dimensions) (g : Gui)
    (e : GoError) (h : (layoutOptions env dims g).err = some e) :
    Propagated env e ∨ g.views "files" = none := by
  unfold layoutOptions at h
  rcases ensure_err env dims g "options" "options" false _ e h with hp | hi
  · exact Or.inl hp
  · simp only at hi
    rcases onInitialViewsCreation_err env _ e hi with hv | hp
    · right
      rw [(modifyView_effect _ "options" _).views "files" (by simp),
        (setViewFromDimensions_effect env dims g "options" "options" false).views "files"
          (by simp)] at hv
      exact hv
    · exact Or.inl hp

theorem initialFocus_err (env : Env) (g : Gui) (e : GoError)
    (h : (initialFocus env g).err = some e) :
    g.views "files" = none ∨ g.views "commits" = none := by
  unfold initialFocus at h
  split at h
  · have hv := switchContext_err _ _ e h
    unfold initialContext at hv
    split at hv
    · exact Or.inr hv
    · exact Or.inl hv
  · simp at h

theorem panel_err (env : Env) (dims : String → Option Dimensions) (g : Gui)
    (viewName windowName : String) (frame : Bool) (f : Gui → Gui) (e : GoError)
    (h : (onUnknownView (setViewFromDimensions env dims g viewName windowName frame)
      fun g => ⟨f g, none⟩).err = some e) : Propagated env e := by
  rcases ensure_err env _ g _ _ _ _ e h with hp | hi
  · exact hp
  · simp at hi

/-- A block returns only propagated errors, except that the two blocks which
switch context fail when the file list or the commit list has no surface. -/
theorem blocks_err (env : Env) :
    ∀ x ∈ blocks env, ∀ g e, (x.step g).err = some e →
      Propagated env e ∨
      (EventKind.switchContext ∈ x.ks ∧ (g.views "files" = none ∨ g.views "commits" = none)) := by
  simp only [blocks, panelBlock, List.forall_mem_cons, List.mem_nil_iff, false_implies,
    implies_true, and_true]
  refine ⟨?_, ?_, ?_, ?_, ?_, ?_, ?_, ?_, ?_, ?_, ?_, ?_, ?_, ?_, ?_, ?_, ?_, ?_, ?_, ?_, ?_⟩
  · exact fun g e h => by simp [deleteLimit] at h
  · exact fun g e h => by simp [readMoreLines_err] at h
  · exact fun g e h => Or.inl (panel_err env _ g _ _ _ _ e h)
  · exact fun g e h => Or.inl (panel_err env _ g _ _ _ _ e h)
  · exact fun g e h => Or.inl (panel_err env _ g _ _ _ _ e h)
  · exact fun g e h => Or.inl (panel_err env _ g _ _ _ _ e h)
  · exact fun g e h => Or.inl (panel_err env _ g _ _ _ _ e h)
  · exact fun g e h => Or.inl (panel_err env _ g _ _ _ _ e h)
  · exact fun g e h => Or.inl (panel_err env _ g _ _ _ _ e h)
  · exact fun g e h => Or.inl (panel_err env _ g _ _ _ _ e h)
  · exact fun g e h => Or.inl (hidden_err env g "commitMessage" _ e h)
  · exact fun g e h => Or.inl (hidden_err env g "credentials" _ e h)
  · intro g e h
    rcases layoutOptions_err env _ g e h with hp | hv
    · exact Or.inl hp
    · exact Or.inr ⟨by simp, Or.inl hv⟩
  · exact fun g e h => Or.inl (panel_err env _ g _ _ _ _ e h)
  · exact fun g e h => Or.inl (panel_err env _ g _ _ _ _ e h)
  · exact fun g e h => Or.inl (panel_err env _ g _ _ _ _ e h)
  · intro g e h
    left
    unfold layoutInformation at h
    cases h1 : (onUnknownView (setViewFromDimensions env (viewDimensions env) g "information"
        "information" false) fun gui =>
        ⟨renderString (gui.modifyView "information" fun v =>
          { v with BgColor := .ColorDefault, FgColor := .ColorGreen, Frame := false })
          "information" (.cat (.lit INFO_SECTION_PADDING) (informationStr env)), none⟩).err with
    | some e1 =>
      rw [andThen_of_err_some h1] at h
      simp only [Option.some.injEq] at h
      exact h ▸ panel_err env _ g _ _ _ _ e1 h1
    | none =>
      rw [andThen_of_err_none h1] at h
      split at h <;> simp at h
  · intro g e h
    exact Or.inr ⟨by simp, initialFocus_err env g e h⟩
  · exact fun g e h => by simp [syncListContexts] at h
  · intro g e h
    left
    unfold resizeHook at h
    split at h
    · simp at h
    · simp only at h
      split at h
      · exact Or.inr (Or.inr (Or.inr (Or.inl h.symm)))
      · simp at h
  · exact fun g e h => Or.inl (Or.inr (Or.inr (Or.inr (Or.inr h.symm))))

/-- The block at which a run stops with an error. -/
theorem runBlocks_err_some (bs : List Block) (g : Gui) (e : GoError)
    (h : (runSteps (bs.map Block.step) g).err = some e) :
    ∃ k x, bs[k]? = some x ∧ (runSteps ((bs.take k).map Block.step) g).err = none ∧
      (x.step (runSteps ((bs.take k).map Block.step) g).gui).err = some e := by
  induction bs generalizing g with
  | nil => simp [runSteps] at h
  | cons x rest ih =>
    rw [List.map_cons] at h
    cases hx : (x.step g).err with
    | some e1 =>
      refine ⟨0, x, by simp, rfl, ?_⟩
      have : runSteps (x.step :: rest.map Block.step) g = ⟨(x.step g).gui, some e1⟩ :=
        andThen_of_err_some hx
      rw [this] at h
      show (x.step g).err = some e
      rw [hx]
      exact h
    | none =>
      have : runSteps (x.step :: rest.map Block.step) g =
          runSteps (rest.map Block.step) (x.step g).gui := andThen_of_err_none hx
      rw [this] at h
      obtain ⟨k, y, hy, h1, h2⟩ := ih _ h
      refine ⟨k + 1, y, by simpa using hy, ?_, ?_⟩
      · show (runSteps (x.step :: (rest.take k).map Block.step) g).err = none
        have : runSteps (x.step :: (rest.take k).map Block.step) g =
            runSteps ((rest.take k).map Block.step) (x.step g).gui := andThen_of_err_none hx
        rw [this]
        exact h1
      · show (y.step (runSteps (x.step :: (rest.take k).map Block.step) g).gui).err = some e
        have : runSteps (x.step :: (rest.take k).map Block.step) g =
            runSteps ((rest.take k).map Block.step) (x.step g).gui := andThen_of_err_none hx
        rw [this]
        exact h2

theorem present_of_bounds (g : Gui) (n : String) (b : Int × Int × Int × Int)
    (h : Post.holds g n (.bounds b)) : g.views n ≠ none := by
  simp only [Post.holds] at h
  rw [present_iff, h]
  simp

/-- The two blocks which switch context come after the blocks of the file list
and of the commit list. -/
theorem switching_blocks_late (env : Env) (k : Nat) (x : Block)
    (hx : (blocks env)[k]? = some x) (hk : EventKind.switchContext ∈ x.ks) : 9 ≤ k := by
  by_contra hlt
  have hk9 : k < 9 := by omega
  have hmem : x ∈ (blocks env).take 9 := by
    rw [List.mem_take_iff_getElem]
    obtain ⟨hlen, hget⟩ := List.getElem?_eq_some.1 hx
    exact ⟨k, by simp [blocks]; omega, hget⟩
  have : ∀ y ∈ (blocks env).take 9, EventKind.switchContext ∉ y.ks := by
    simp [blocks, panelBlock]
  exact this x hmem hk

/-- Every error a pass returns is a propagated one. -/
theorem layout_err_propagated (env : Env) (gui : Gui) (e : GoError)
    (h : (layout env gui).err = some e) : Propagated env e := by
  by_cases hsize : 10 ≤ env.width ∧ 9 ≤ env.height
  · rw [layout_normal env gui hsize] at h
    obtain ⟨k, x, hx, h1, h2⟩ := runBlocks_err_some _ _ e h
    rw [← layoutPrefix_eq] at h1 h2
    have hmem : x ∈ blocks env := List.getElem?_mem hx
    rcases blocks_err env x hmem _ e h2 with hp | ⟨hk, hv⟩
    · exact hp
    · exfalso
      have h9 := switching_blocks_late env k x hx hk
      have hest := prefix_established env k _ h1
      have hsub : ∀ y ∈ (blocks env).take 9, y ∈ (blocks env).take k := fun y hy =>
        (List.take_sublist_take_left _ h9).subset hy
      have hf := (hest _ (hsub (panelBlock (viewDimensions env)
        (layoutFiles env (viewDimensions env)) "files" "files" true [])
        (by simp [blocks]))).1 _ (List.mem_singleton_self _)
      have hc := (hest _ (hsub (panelBlock (viewDimensions env)
        (layoutCommits env (viewDimensions env)) "commits" "commits" true [])
        (by simp [blocks]))).1 _ (List.mem_singleton_self _)
      rcases hv with hv | hv
      · exact present_of_bounds _ _ _ hf hv
      · exact present_of_bounds _ _ _ hc hv
  · rw [layout_small env gui (by omega)] at h
    unfold layoutLimit at h
    rcases onUnknownView_err_some h with ⟨c, hc, he⟩ | ⟨_, hi⟩
    · rcases SetView_err_cases env { gui with Highlight := true } "limit" 0 0 (env.width - 1)
        (env.height - 1) with ⟨c2, hf, heq⟩ | ⟨_, h1 | h1⟩
      · rw [heq] at hc
        simp only [Option.some.injEq, GoError.other.injEq] at hc
        exact Or.inl ⟨"limit", c2, hf, hc ▸ he⟩
      · rw [h1] at hc
        simp at hc
      · rw [h1] at hc
        simp at hc
    · simp at hi

theorem blocks_within (env : Env) :
    ∀ x ∈ blocks env, (∀ n ∈ x.B, n ∈ allSurfaces) ∧ (∀ k ∈ x.ks, k ∈ allKinds) ∧
      ∀ f ∈ x.fs, f ∈ allFields := by
  simp [blocks, panelBlock, allSurfaces, allKinds, allFields]

/-- The block of a surface returns the failure of its create-or-update call at
once, leaving the state as it found it. -/
theorem panel_fails (env : Env) (i : Nat) (p : String) (hp : panelOrder[i]? = some p) (c : Nat)
    (hf : env.setViewFailure p = some c) :
    ∃ s, ((blocks env)[i + 2]?).map Block.step = some s ∧
      ∀ g, ((p = "commitMessage" ∨ p = "credentials") → g.views p = none) →
        s g = ⟨g, some (.other c)⟩ := by
  obtain ⟨hi, hget⟩ := List.getElem?_eq_some.1 hp
  simp only [panelOrder, List.length_cons, List.length_nil] at hi
  have hi15 : i < 15 := by omega
  interval_cases i <;> simp only [panelOrder, List.getElem_cons_zero, List.getElem_cons_succ] at hget <;>
    subst hget <;> refine ⟨_, rfl, fun g hcall => ?_⟩
  · show layoutMain env (viewDimensions env) g = _
    simp [layoutMain, setViewFromDimensions_failure _ _ _ _ _ _ c hf, onUnknownView]
  · show layoutSecondary env (viewDimensions env) g = _
    simp [layoutSecondary, setViewFromDimensions_failure _ _ _ _ _ _ c hf, onUnknownView]
  · show layoutStatus env (viewDimensions env) g = _
    simp [layoutStatus, setViewFromDimensions_failure _ _ _ _ _ _ c hf, onUnknownView]
  · show layoutFiles env (viewDimensions env) g = _
    simp [layoutFiles, setViewFromDimensions_failure _ _ _ _ _ _ c hf, onUnknownView]
  · show layoutBranches env (viewDimensions env) g = _
    simp [layoutBranches, setViewFromDimensions_failure _ _ _ _ _ _ c hf, onUnknownView]
  · show layoutCommitFiles env (viewDimensions env) g = _
    simp [layoutCommitFiles, setViewFromDimensions_failure _ _ _ _ _ _ c hf, onUnknownView]
  · show layoutCommits env (viewDimensions env) g = _
    simp [layoutCommits, setViewFromDimensions_failure _ _ _ _ _ _ c hf, onUnknownView]
  · show layoutStash env (viewDimensions env) g = _
    simp [layoutStash, setViewFromDimensions_failure _ _ _ _ _ _ c hf, onUnknownView]
  · show layoutCommitMessage env g = _
    simp [layoutCommitMessage, hcall, SetView_failure _ _ _ _ _ _ _ c hf, onUnknownView]
  · show layoutCredentials env g = _
    simp [layoutCredentials, hcall, SetView_failure _ _ _ _ _ _ _ c hf, onUnknownView]
  · show layoutOptions env (viewDimensions env) g = _
    simp [layoutOptions, setViewFromDimensions_failure _ _ _ _ _ _ c hf, onUnknownView]
  · show layoutSearchPrefix env (viewDimensions env) g = _
    simp [layoutSearchPrefix, setViewFromDimensions_failure _ _ _ _ _ _ c hf, onUnknownView]
  · show layoutSearch env (viewDimensions env) g = _
    simp [layoutSearch, setViewFromDimensions_failure _ _ _ _ _ _ c hf, onUnknownView]
  · show layoutAppStatus env (viewDimensions env) g = _
    simp [layoutAppStatus, setViewFromDimensions_failure _ _ _ _ _ _ c hf, onUnknownView]
  · show layoutInformation env (viewDimensions env) (informationStr env) g = _
    simp [layoutInformation, setViewFromDimensions_failure _ _ _ _ _ _ c hf, onUnknownView,
      Result.andThen]

/-- The blocks before the block of surface number `i` assign only to the
notice and to the surfaces before it. -/
theorem prefix_touches (env : Env) (i : Nat) (hi : i ≤ 15) :
    ∀ x ∈ (blocks env).take (i + 2), ∀ n ∈ x.T, n ∈ "limit" :: panelOrder.take i := by
  interval_cases i <;> simp [blocks, panelBlock, panelOrder]

theorem panel_block_ensures (env : Env) (j : Nat) (q w : String) (f : Bool)
    (hq : panelOrder[j]? = some q) (hw : panelWindow q = some (w, f)) :
    ∃ x, (blocks env)[j + 2]? = some x ∧
      (q, Post.bounds (targetBounds (viewDimensions env) w f)) ∈ x.ensures := by
  obtain ⟨hj, hget⟩ := List.getElem?_eq_some.1 hq
  simp only [panelOrder, List.length_cons, List.length_nil] at hj
  have hj15 : j < 15 := by omega
  interval_cases j <;> simp only [panelOrder, List.getElem_cons_zero, List.getElem_cons_succ] at hget <;>
    subst hget <;> simp [panelWindow] at hw <;> obtain ⟨rfl, rfl⟩ := hw <;>
    exact ⟨_, rfl, List.mem_singleton_self _⟩


theorem panelOrder_nodup : ("limit" :: panelOrder).Nodup := by decide

theorem later_not_earlier (i : Nat) (q : String) (hq : q ∈ panelOrder.drop i) :
    q ∉ "limit" :: panelOrder.take i := by
  have hnd := panelOrder_nodup
  rw [List.nodup_cons] at hnd
  intro h
  rcases List.mem_cons.1 h with h | h
  · exact hnd.1 (h ▸ List.mem_of_mem_drop hq)
  · exact (List.disjoint_take_drop hnd.2 (le_refl i)) h hq

/-! ## A second pass on the same inputs -/

theorem lastRow_nonneg (v : View) : 0 ≤ v.lastRow := by
  unfold View.lastRow
  split <;> omega

theorem FocusPoint_idem (v : View) (cy : Int) :
    (v.FocusPoint 0 cy).FocusPoint 0 cy = v.FocusPoint 0 cy := by
  have hl := lastRow_nonneg v
  by_cases h1 : cy < 0
  · simp [View.FocusPoint, h1]
  · by_cases h2 : cy < v.oy
    · have e : v.FocusPoint 0 cy = { v with cx := 0, cy := 0, oy := cy } := by
        simp [View.FocusPoint, h1, h2]
      rw [e]
      have hl2 : ¬ cy > cy + ({ v with cx := 0, cy := 0, oy := cy } : View).lastRow := by
        have : ({ v with cx := 0, cy := 0, oy := cy } : View).lastRow = v.lastRow := rfl
        omega
      simp [View.FocusPoint, h1, hl2]
    · by_cases h3 : cy > v.oy + v.lastRow
      · have e : v.FocusPoint 0 cy =
            { v with cx := 0, cy := v.lastRow, oy := cy - v.lastRow } := by
          simp [View.FocusPoint, h1, h2, h3]
        rw [e]
        have hr : ({ v with cx := 0, cy := v.lastRow, oy := cy - v.lastRow } : View).lastRow =
            v.lastRow := rfl
        have c2 : ¬ cy < cy - v.lastRow := by omega
        have c3 : ¬ cy > cy - v.lastRow + v.lastRow := by omega
        simp [View.FocusPoint, h1, hr, c2, c3]
      · have e : v.FocusPoint 0 cy = { v with cx := 0, cy := cy - v.oy } := by
          simp [View.FocusPoint, h1, h2, h3]
        rw [e]
        have hr : ({ v with cx := 0, cy := cy - v.oy } : View).lastRow = v.lastRow := rfl
        simp [View.FocusPoint, h1, h2, hr, h3]

theorem FocusPoint_styled (v : View) (a : Attribute) (b : Option String) (cx cy : Int) :
    ({ v with SelBgColor := a, onSelectItem := b } : View).FocusPoint cx cy =
      { v.FocusPoint cx cy with SelBgColor := a, onSelectItem := b } := by
  have hr : ({ v with SelBgColor := a, onSelectItem := b } : View).lastRow = v.lastRow := rfl
  unfold View.FocusPoint
  rw [hr]
  split_ifs <;> rfl

/-- Re-focusing a surface twice on the same row is re-focusing it once. -/
theorem refocusView_idem (s : listContextState) (v : View) :
    refocusView s (refocusView s v) = refocusView s v := by
  unfold refocusView
  rw [FocusPoint_styled, FocusPoint_idem]


theorem Effect.none_of_eq {g g' : Gui} (hv : ∀ n, g'.views n = g.views n) (hl : g'.log = g.log)
    (h1 : g'.Highlight = g.Highlight) (h2 : g'.OldInformation = g.OldInformation)
    (h3 : g'.PrevMainWidth = g.PrevMainWidth) (h4 : g'.PrevMainHeight = g.PrevMainHeight)
    (h5 : g'.showRecentRepos = g.showRecentRepos) (h6 : g'.focused = g.focused) :
    Effect [] [] [] [] g g' :=
  ⟨fun n _ => hv n, fun n _ => by rw [hv n], ⟨[], by simp [hl], by simp⟩,
    fun f _ => by cases f <;> simp [Field.same, *]⟩

/-- The create-or-update call on a surface that has the bounds already changes
no surface. -/
theorem SetView_quiet (env : Env) (g : Gui) (name : String) (x0 y0 x1 y1 : Int)
    (hf : env.setViewFailure name = none)
    (hb : (g.views name).map View.bounds = some (x0, y0, x1, y1)) :
    (g.SetView env name x0 y0 x1 y1).err = none ∧
    Effect [] [] [] [] g (g.SetView env name x0 y0 x1 y1).gui := by
  unfold Gui.SetView
  simp only [hf]
  cases hv : g.views name with
  | none => simp [hv] at hb
  | some v =>
    simp only [hv, Option.map_some', Option.some.injEq, View.bounds, Prod.mk.injEq] at hb
    obtain ⟨rfl, rfl, rfl, rfl⟩ := hb
    refine ⟨rfl, Effect.none_of_eq (fun n => ?_) rfl rfl rfl rfl rfl rfl rfl⟩
    show (if n = name then some v else g.views n) = g.views n
    split
    · rename_i h
      rw [h, hv]
    · rfl

theorem SetViewOnBottom_err (g : Gui) (name : String) (h : g.views name ≠ none) :
    (g.SetViewOnBottom name).err = none := by
  unfold Gui.SetViewOnBottom
  split
  · rfl
  · rename_i hv
    exact absurd hv h

/-- The closure `setViewFromDimensions` on a surface that has its target
bounds already returns no error and changes no surface. -/
theorem setViewFromDimensions_quiet (env : Env) (dims : String → Option Dimensions) (g : Gui)
    (viewName windowName : String) (frame : Bool)
    (hf : env.setViewFailure viewName = none)
    (hb : (g.views viewName).map View.bounds = some (targetBounds dims windowName frame)) :
    (setViewFromDimensions env dims g viewName windowName frame).err = none ∧
    Effect [] [] [] [] g (setViewFromDimensions env dims g viewName windowName frame).gui := by
  unfold setViewFromDimensions
  unfold targetBounds at hb
  cases hd : dims windowName with
  | none =>
    simp only [hd] at hb ⊢
    obtain ⟨h1, h2⟩ := SetView_quiet env g viewName 0 0 0 0 hf hb
    simp only [h1]
    have hp : (g.SetView env viewName 0 0 0 0).gui.views viewName ≠ none := by
      rw [h2.views viewName (by simp)]
      intro h0
      simp [h0] at hb
    exact ⟨SetViewOnBottom_err _ _ hp, h2.seq (SetViewOnBottom_effect _ _)⟩
  | some d =>
    simp only [hd] at hb ⊢
    cases frame with
    | true => exact SetView_quiet env g viewName _ _ _ _ hf (by simpa using hb)
    | false => exact SetView_quiet env g viewName _ _ _ _ hf (by simpa using hb)

theorem onUnknownView_of_err_none {r : Result} {init : Step} (h : r.err = none) :
    onUnknownView r init = ⟨r.gui, none⟩ := by
  unfold onUnknownView
  simp [h]

/-- A panel block whose surface is established returns no error and changes
no surface: the one-time defaults are not applied again. -/
theorem ensure_quiet (env : Env) (dims : String → Option Dimensions) (g : Gui)
    (viewName windowName : String) (frame : Bool) (init : Step) (x : Block)
    (hens : (viewName, Post.bounds (targetBounds dims windowName frame)) ∈ x.ensures)
    (hcalls : viewName ∈ x.calls) (h : x.established env g) :
    (onUnknownView (setViewFromDimensions env dims g viewName windowName frame) init).err = none ∧
    Effect [] [] repeatedKinds [] g
      (onUnknownView (setViewFromDimensions env dims g viewName windowName frame) init).gui := by
  obtain ⟨h1, h2⟩ := setViewFromDimensions_quiet env dims g viewName windowName frame
    (h.2 _ hcalls) (h.1 _ hens)
  rw [onUnknownView_of_err_none h1]
  exact ⟨rfl, Effect.mono h2 (by simp) (by simp) (by simp) (by simp)⟩


theorem listContextStates_congr (env : Env) {g g' : Gui} (h : g'.views "menu" = g.views "menu") :
    listContextStates env g' = listContextStates env g := by
  unfold listContextStates
  rw [h]

/-- The settled state depends on the surfaces and the state fields only. -/
theorem settled_of_effect {env : Env} {ks : List EventKind} {g g' : Gui}
    (he : Effect [] [] ks [] g g') (h : Settled env g) : Settled env g' := by
  obtain ⟨h1, h2, h3, h4, h5, h6, h7⟩ := h
  have hv : ∀ n, g'.views n = g.views n := fun n => he.views n (by simp)
  have f1 : g'.Highlight = g.Highlight := he.fields .Highlight (by simp)
  have f2 : g'.OldInformation = g.OldInformation := he.fields .OldInformation (by simp)
  have f3 : g'.PrevMainWidth = g.PrevMainWidth ∧ g'.PrevMainHeight = g.PrevMainHeight :=
    he.fields .PrevMain (by simp)
  have f4 : g'.focused = g.focused := he.fields .focused (by simp)
  refine ⟨fun x hx => established_kept env x (h1 x hx) he (by simp), by rw [f1, h2],
    by rw [f2, h3], fun v hm => ?_, fun hc => ?_, fun s hs v hm ho => ?_, h7⟩
  · rw [hv] at hm
    rw [f3.1, f3.2]
    exact h4 v hm
  · rw [f4, hv]
    exact h5 hc
  · rw [listContextStates_congr env (hv "menu")] at hs
    rw [hv] at hm
    exact h6 s hs v hm ho

/-- A run of blocks each of which keeps an invariant, returns no error under
it and stays within a relation, does so as a whole. -/
theorem runSteps_stable (P : Gui → Prop) (R : Gui → Gui → Prop) (hr : ∀ g, R g g)
    (ht : ∀ a b c, R a b → R b c → R a c) (steps : List Step)
    (h : ∀ s ∈ steps, ∀ g, P g → (s g).err = none ∧ P (s g).gui ∧ R g (s g).gui) :
    ∀ g, P g → (runSteps steps g).err = none ∧ P (runSteps steps g).gui ∧
      R g (runSteps steps g).gui := by
  induction steps with
  | nil =>
    intro g hg
    exact ⟨rfl, hg, hr g⟩
  | cons s rest ih =>
    intro g hg
    obtain ⟨e1, p1, r1⟩ := h s (List.mem_cons_self _ _) g hg
    obtain ⟨e2, p2, r2⟩ := ih (fun t ht2 => h t (List.mem_cons_of_mem _ ht2)) (s g).gui p1
    show ((s g).andThen (runSteps rest)).err = none ∧ P ((s g).andThen (runSteps rest)).gui ∧
      R g ((s g).andThen (runSteps rest)).gui
    rw [andThen_of_err_none e1]
    exact ⟨e2, p2, ht _ _ _ r1 r2⟩

theorem deleteLimit_quiet (g : Gui) (h : (g.views "limit").map View.bounds = none) :
    deleteLimit g = ⟨g, none⟩ := by
  have hv : g.views "limit" = none := by
    cases hh : g.views "limit" with
    | none => rfl
    | some v => simp [hh] at h
  unfold deleteLimit Gui.SetViewOnBottom
  simp only [hv]
  unfold Gui.DeleteView
  simp only [hv]

theorem readMoreLines_quiet (env : Env) (g : Gui)
    (hb : (g.views "main").map View.bounds =
      some (targetBounds (viewDimensions env) "main" true)) :
    readMoreLines env (viewDimensions env) g = ⟨g, none⟩ := by
  unfold readMoreLines
  cases hv : g.views "main" with
  | none => rfl
  | some v =>
    simp only
    unfold targetBounds at hb
    cases hd : viewDimensions env "main" with
    | none =>
      simp only [hv, hd, Option.map_some', Option.some.injEq, View.bounds, Prod.mk.injEq] at hb
      obtain ⟨a, b, c, d⟩ := hb
      have : ¬ ((0 : Int) - 0 - 1 - v.Size.2 > 0) := by
        simp only [View.Size]
        omega
      simp only [Option.getD_none, if_neg this]
    | some dm =>
      simp only [hv, hd, Option.map_some', Option.some.injEq, View.bounds, Prod.mk.injEq,
        if_true] at hb
      obtain ⟨a, b, c, d⟩ := hb
      have : ¬ (dm.Y1 - dm.Y0 - 1 - v.Size.2 > 0) := by
        simp only [View.Size]
        omega
      simp only [Option.getD_some, if_neg this]


theorem layoutCommitMessage_quiet (env : Env) (g : Gui)
    (h : (g.views "commitMessage").map View.bounds ≠ none) :
    layoutCommitMessage env g = ⟨g, none⟩ := by
  unfold layoutCommitMessage
  rw [if_neg ((present_iff g _).2 h)]

theorem layoutCredentials_quiet (env : Env) (g : Gui)
    (h : (g.views "credentials").map View.bounds ≠ none) :
    layoutCredentials env g = ⟨g, none⟩ := by
  unfold layoutCredentials
  rw [if_neg ((present_iff g _).2 h)]

/-- The information block on an established surface whose cached string is up
to date: the content is not rewritten. -/
theorem layoutInformation_quiet (env : Env) (g : Gui)
    (hf : env.setViewFailure "information" = none)
    (hb : (g.views "information").map View.bounds =
      some (targetBounds (viewDimensions env) "information" false))
    (ho : g.OldInformation = informationStr env) :
    (layoutInformation env (viewDimensions env) (informationStr env) g).err = none ∧
    Effect [] [] repeatedKinds [] g
      (layoutInformation env (viewDimensions env) (informationStr env) g).gui := by
  obtain ⟨h1, h2⟩ := setViewFromDimensions_quiet env (viewDimensions env) g "information"
    "information" false hf hb
  unfold layoutInformation
  rw [onUnknownView_of_err_none h1, andThen_of_err_none rfl]
  have ho2 : (setViewFromDimensions env (viewDimensions env) g "information" "information"
      false).gui.OldInformation = informationStr env := by
    rw [← ho]
    exact h2.fields .OldInformation (by simp)
  simp only [ne_eq, ho2, not_true_eq_false, if_false]
  exact ⟨trivial, Effect.mono h2 (by simp) (by simp) (by simp) (by simp)⟩

theorem modifyView_same (g : Gui) (name : String) (f : View → View)
    (h : ∀ v, g.views name = some v → f v = v) :
    Effect [] [] [] [] g (g.modifyView name f) := by
  refine Effect.none_of_eq (fun n => ?_) rfl rfl rfl rfl rfl rfl rfl
  show (if n = name then (g.views name).map f else g.views n) = g.views n
  split
  · rename_i hn
    rw [hn]
    cases hv : g.views name with
    | none => rfl
    | some v => simp [h v hv]
  · rfl

/-- Switching to the context that is focused and owns its surface already
changes no surface and no field: the call is recorded and the surface is
raised again. -/
theorem switchContext_quiet (g : Gui) (t : Context) (hfoc : g.focused = some t.key)
    (hown : (g.views t.viewName).map View.Context = some t.key) :
    (switchContext g t).err = none ∧
    Effect [] [] repeatedKinds [] g (switchContext g t).gui := by
  obtain ⟨v, hv, hc⟩ : ∃ v, g.views t.viewName = some v ∧ v.Context = t.key := by
    cases hh : g.views t.viewName with
    | none => simp [hh] at hown
    | some v => exact ⟨v, rfl, by simpa [hh] using hown⟩
  unfold switchContext
  simp only
  have hrec : (g.record (.switchContext t.key)).views t.viewName = some v := hv
  rw [hrec]
  simp only
  refine ⟨trivial, ?_⟩
  have e1 := record_effect g (.switchContext t.key)
  have e2 := unfocusPrevious_effect (g.record (.switchContext t.key))
  have e12 := e1.trans e2
  have hfoc2 : (unfocusPrevious (g.record (.switchContext t.key))).focused = some t.key := by
    rw [← hfoc]
    exact e12.fields .focused (by simp)
  have hv2 : (unfocusPrevious (g.record (.switchContext t.key))).views t.viewName = some v := by
    rw [← hv]
    exact e12.views _ (by simp)
  generalize unfocusPrevious (g.record (.switchContext t.key)) = g1 at e12 hfoc2 hv2
  have e3 : Effect [] [] [] [] g1 (focusTarget g1 t) := by
    unfold focusTarget
    have a1 : Effect [] [] [] [] g1 { g1 with focused := some t.key } :=
      Effect.none_of_eq (fun _ => rfl) rfl rfl rfl rfl rfl rfl hfoc2.symm
    have a2 := a1.seq (SetViewOnTop_effect { g1 with focused := some t.key } t.viewName)
    refine a2.seq (modifyView_same _ _ _ (fun w hw => ?_))
    rw [a2.views _ (by simp), hv2] at hw
    cases hw
    cases v
    simp only at hc
    subst hc
    rfl
  refine Effect.mono (e12.trans e3) ?_ ?_ ?_ ?_ <;> simp [Event.kind, repeatedKinds]


theorem initialFocus_quiet (env : Env) (g : Gui) (h : Settled env g) :
    (initialFocus env g).err = none ∧ Effect [] [] repeatedKinds [] g (initialFocus env g).gui := by
  unfold initialFocus
  split
  · rename_i hc
    exact switchContext_quiet g _ (h.2.2.2.2.1 hc).1 (h.2.2.2.2.1 hc).2
  · exact ⟨rfl, Effect.refl g⟩

theorem refocus_quiet (g : Gui) (s : listContextState) (h : Fixed g s) :
    Effect [] [] repeatedKinds [] g (refocus g s) := by
  unfold refocus
  cases hv : g.views s.view with
  | none => exact Effect.refl g
  | some v =>
    simp only
    split
    · exact Effect.refl g
    · rename_i ho
      have ho2 : v.Context = s.contextKey := by
        by_contra hh
        exact ho hh
      have e1 := modifyView_same g s.view (refocusView s) (fun w hw => by
        rw [hv] at hw
        cases hw
        exact h v hv ho2)
      refine Effect.mono ((e1.trans (record_effect _ (.FocusPoint s.view 0 s.selectedLine))).trans
        (record_effect _ (.SetOnSelectItem s.view s.contextKey))) ?_ ?_ ?_ ?_ <;>
        simp [Event.kind, repeatedKinds]

theorem Fixed.of_views {g g' : Gui} {s : listContextState} (hv : ∀ n, g'.views n = g.views n)
    (h : Fixed g s) : Fixed g' s := by
  intro v hm ho
  rw [hv] at hm
  exact h v hm ho

theorem foldl_refocus_quiet (l : List listContextState) (g : Gui) (h : ∀ s ∈ l, Fixed g s) :
    Effect [] [] repeatedKinds [] g (l.foldl refocus g) := by
  induction l generalizing g with
  | nil => exact Effect.refl g
  | cons t rest ih =>
    rw [List.foldl_cons]
    have e1 := refocus_quiet g t (h t (List.mem_cons_self _ _))
    exact e1.seq (ih _ (fun s hs =>
      Fixed.of_views (fun n => e1.views n (by simp)) (h s (List.mem_cons_of_mem _ hs))))

/-- The loop over the list contexts in a settled state: the calls are made
again and no surface changes. -/
theorem syncListContexts_quiet (env : Env) (g : Gui) (h : Settled env g) :
    (syncListContexts env g).err = none ∧
    Effect [] [] repeatedKinds [] g (syncListContexts env g).gui :=
  ⟨rfl, foldl_refocus_quiet _ g h.2.2.2.2.2.1⟩

theorem resizeHook_quiet (env : Env) (g : Gui) (h : Settled env g) :
    resizeHook env g = ⟨g, none⟩ := by
  unfold resizeHook
  cases hv : g.views "main" with
  | none => rfl
  | some v =>
    simp only
    have hs := h.2.2.2.1 v hv
    rw [if_neg (by simp [hs.1, hs.2])]

theorem resizeCurrentPopupPanel_quiet (env : Env) (g : Gui) (h : Settled env g) :
    (resizeCurrentPopupPanel env g).err = none ∧
    Effect [] [] repeatedKinds [] g (resizeCurrentPopupPanel env g).gui :=
  ⟨h.2.2.2.2.2.2, by
    refine Effect.mono (record_effect g .resizeCurrentPopupPanel) ?_ ?_ ?_ ?_ <;>
      simp [Event.kind, repeatedKinds]⟩

theorem quiet_refl (g : Gui) : Effect [] [] repeatedKinds [] g g :=
  Effect.refl g

theorem quiet_of_eq {r : Result} {g : Gui} (h : r = ⟨g, none⟩) :
    r.err = none ∧ Effect [] [] repeatedKinds [] g r.gui := by
  rw [h]
  exact ⟨rfl, quiet_refl g⟩

/-- In a settled state every block of the pass returns no error, changes no
surface and no state field, and calls only the collaborators that are called
on every pass. -/
theorem blocks_quiet (env : Env) :
    ∀ x ∈ blocks env, ∀ g, x.established env g → Settled env g →
      (x.step g).err = none ∧ Effect [] [] repeatedKinds [] g (x.step g).gui := by
  simp only [blocks, panelBlock, List.forall_mem_cons, List.mem_nil_iff, false_implies,
    implies_true, and_true]
  refine ⟨fun g h _ => quiet_of_eq (deleteLimit_quiet g (h.1 _ (List.mem_singleton_self _))),
    fun g _ hS => quiet_of_eq (readMoreLines_quiet env g ?_),
    ?_, ?_, ?_, ?_, ?_, ?_, ?_, ?_,
    fun g h _ => quiet_of_eq (layoutCommitMessage_quiet env g (h.1 _ (List.mem_singleton_self _))),
    fun g h _ => quiet_of_eq (layoutCredentials_quiet env g (h.1 _ (List.mem_singleton_self _))),
    ?_, ?_, ?_, ?_,
    fun g h hS => layoutInformation_quiet env g (h.2 _ (List.mem_singleton_self _))
      (h.1 _ (List.mem_singleton_self _)) hS.2.2.1,
    fun g _ hS => initialFocus_quiet env g hS,
    fun g _ hS => syncListContexts_quiet env g hS,
    fun g _ hS => quiet_of_eq (resizeHook_quiet env g hS),
    fun g _ hS => resizeCurrentPopupPanel_quiet env g hS⟩
  · exact (hS.1 (panelBlock (viewDimensions env) (layoutMain env (viewDimensions env)) "main"
      "main" true []) (by simp [blocks])).1 _ (List.mem_singleton_self _)
  all_goals
    intro g h _
    exact ensure_quiet env _ g _ _ _ _ _ (List.mem_singleton_self _) (List.mem_singleton_self _) h


/-- A pass at or above the minimum size started in a settled state returns no
error, changes no surface and no state field, and calls only the collaborators
that are called on every pass. -/
theorem layout_quiet (env : Env) (g : Gui) (hsize : 10 ≤ env.width ∧ 9 ≤ env.height)
    (h : Settled env g) :
    (layout env g).err = none ∧ Effect [] [] repeatedKinds [] g (layout env g).gui := by
  rw [layout_normal env g hsize]
  have e0 : Effect [] [] [] [] g { g with Highlight := true } :=
    Effect.none_of_eq (fun _ => rfl) rfl h.2.1.symm rfl rfl rfl rfl rfl
  have key := runSteps_stable (Settled env) (Effect [] [] repeatedKinds []) quiet_refl
    (fun _ _ _ => Effect.seq) ((blocks env).map Block.step) (fun s hs g1 hg => by
      obtain ⟨x, hx, rfl⟩ := List.mem_map.1 hs
      obtain ⟨a, b⟩ := blocks_quiet env x hx g1 (hg.1 x hx) hg
      exact ⟨a, settled_of_effect b hg, b⟩) _ (settled_of_effect e0 h)
  exact ⟨key.1, (Effect.mono e0 (by simp) (by simp) (by simp) (by simp)).seq key.2.2⟩

theorem layoutInformation_old (env : Env) (dims : String → Option Dimensions) (info : Str)
    (g : Gui) (h : (layoutInformation env dims info g).err = none) :
    (layoutInformation env dims info g).gui.OldInformation = info := by
  unfold layoutInformation at h ⊢
  obtain ⟨_, h2⟩ := andThen_err_none h
  rw [h2]
  simp only
  split
  · rfl
  · rename_i hh
    simpa using hh

theorem resizeHook_prev (env : Env) (g : Gui) (v : View)
    (h : (resizeHook env g).gui.views "main" = some v) :
    v.Size.1 = (resizeHook env g).gui.PrevMainWidth ∧
    v.Size.2 = (resizeHook env g).gui.PrevMainHeight := by
  unfold resizeHook at h ⊢
  cases hv : g.views "main" with
  | none =>
    simp only [hv] at h
    cases h
  | some m =>
    simp only [hv] at h ⊢
    split at h
    · rename_i hc
      rw [if_pos hc]
      have : g.views "main" = some v := h
      rw [hv] at this
      cases this
      exact ⟨rfl, rfl⟩
    · rename_i hc
      rw [if_neg hc]
      rw [hv] at h
      cases h
      simp only [ne_eq, not_or, not_not] at hc
      exact hc

theorem listContextStates_of_context (env : Env) {g g' : Gui}
    (h : (g'.views "menu").map View.Context = (g.views "menu").map View.Context) :
    listContextStates env g' = listContextStates env g := by
  have hs : (g'.views "menu").isSome = (g.views "menu").isSome := by
    cases h1 : g'.views "menu" <;> cases h2 : g.views "menu" <;> simp [h1, h2] at h ⊢
  unfold listContextStates
  rw [hs]


/-- A pass at or above the minimum size that returned no error leaves a
settled state. -/
theorem layout_settles (env : Env) (gui : Gui) (hsize : 10 ≤ env.width ∧ 9 ≤ env.height)
    (herr : (layout env gui).err = none) : Settled env (layout env gui).gui := by
  have hest := layout_established env gui hsize herr
  rw [layout_normal env gui hsize] at herr hest ⊢
  obtain ⟨h17, r17⟩ := prefix_err_none env 17 _ herr
  obtain ⟨h18, r18⟩ := prefix_err_none env 18 _ herr
  obtain ⟨h19, r19⟩ := prefix_err_none env 19 _ herr
  obtain ⟨h20, r20⟩ := prefix_err_none env 20 _ herr
  -- the footprints of the runs of blocks that follow each point
  have eall := take_effect env 21 allSurfaces allSurfaces allKinds
    [.OldInformation, .PrevMain, .showRecentRepos, .focused]
    (by simp [blocks, panelBlock, allSurfaces, allKinds]) { gui with Highlight := true }
  rw [layoutPrefix_full] at eall
  have e17 := drop_effect env 17 allSurfaces allSurfaces allKinds [.focused, .PrevMain]
    (by simp [blocks, allSurfaces, allKinds])
    (layoutPrefix env 17 { gui with Highlight := true }).gui
  rw [← r17] at e17
  have e18 := drop_effect env 18 allSurfaces allSurfaces allKinds [.PrevMain]
    (by simp [blocks, allSurfaces, allKinds])
    (layoutPrefix env 18 { gui with Highlight := true }).gui
  rw [← r18] at e18
  have e19 := drop_effect env 19 [] [] [.onResize, .resizeCurrentPopupPanel] [.PrevMain]
    (by simp [blocks]) (layoutPrefix env 19 { gui with Highlight := true }).gui
  rw [← r19] at e19
  have e20 := drop_effect env 20 [] [] [.resizeCurrentPopupPanel] []
    (by simp [blocks]) (layoutPrefix env 20 { gui with Highlight := true }).gui
  rw [← r20] at e20
  -- the state after the loop is the loop run on the state before it
  have s19 : (layoutPrefix env 19 { gui with Highlight := true }).gui =
      (listContextStates env (layoutPrefix env 18 { gui with Highlight := true }).gui).foldl
        refocus (layoutPrefix env 18 { gui with Highlight := true }).gui := by
    rw [layoutPrefix_step env 18 _ (syncListContexts env) rfl, andThen_of_err_none h18]
    rfl
  have hctx : ∀ n, ((runSteps ((blocks env).map Block.step)
        { gui with Highlight := true }).gui.views n).map View.Context =
      ((layoutPrefix env 18 { gui with Highlight := true }).gui.views n).map View.Context := by
    intro n
    rw [e19.views n (by simp), s19, foldl_refocus_context]
  refine ⟨hest, ?_, ?_, fun v hv => ?_, fun hc => ?_, fun s hs v hv ho => ?_, ?_⟩
  · exact eall.fields .Highlight (by simp)
  · have h := e17.fields .OldInformation (by simp)
    simp only [Field.same] at h
    rw [h]
    rw [layoutPrefix_step env 16 _
      (layoutInformation env (viewDimensions env) (informationStr env)) rfl] at h17 ⊢
    obtain ⟨_, h2⟩ := andThen_err_none h17
    rw [h2] at h17 ⊢
    exact layoutInformation_old env _ _ _ h17
  · have h := e20.fields .PrevMain (by simp)
    simp only [Field.same] at h
    rw [h.1, h.2]
    rw [e20.views "main" (by simp)] at hv
    rw [layoutPrefix_step env 19 _ (resizeHook env) rfl] at h20 hv ⊢
    obtain ⟨_, h2⟩ := andThen_err_none h20
    rw [h2] at hv ⊢
    exact resizeHook_prev env _ v hv
  · have h := e18.fields .focused (by simp)
    simp only [Field.same] at h
    rw [h, hctx]
    rw [layoutPrefix_step env 17 _ (initialFocus env) rfl] at h18 ⊢
    obtain ⟨_, h2⟩ := andThen_err_none h18
    rw [h2] at h18 ⊢
    have hstep : ∀ g, initialFocus env g = switchContext g (initialContext env) := by
      intro g
      simp [initialFocus, hc]
    rw [hstep] at h18 ⊢
    exact switchContext_ok _ _ h18
  · rw [listContextStates_of_context env (hctx "menu")] at hs
    have ho2 : ((layoutPrefix env 18 { gui with Highlight := true }).gui.views s.view).map
        View.Context = some s.contextKey := by
      rw [← hctx, hv]
      simp [ho]
    have hfix := foldl_refocus_owned _ _ (listContextStates_keys env _) s hs ho2
    rw [← s19, ← e19.views s.view (by simp), hv] at hfix
    cases hw : (layoutPrefix env 18 { gui with Highlight := true }).gui.views s.view with
    | none => simp [hw] at hfix
    | some w =>
      simp only [hw, Option.map_some', Option.some.injEq] at hfix
      rw [hfix, refocusView_idem]
  · rw [← layoutPrefix_full, layoutPrefix_step env 20 _ (resizeCurrentPopupPanel env) rfl] at herr
    obtain ⟨_, h2⟩ := andThen_err_none herr
    rw [h2] at herr
    exact herr


/-- The fallback branch that returned no error left the notice with the
bounds of the terminal, on a backend that does not fail for it. -/
theorem layoutLimit_settles (env : Env) (g : Gui) (h : (layoutLimit env g).err = none) :
    env.setViewFailure "limit" = none ∧
    ((layoutLimit env g).gui.views "limit").map View.bounds =
      some (0, 0, env.width - 1, env.height - 1) := by
  have hf : env.setViewFailure "limit" = none := by
    cases hc : env.setViewFailure "limit" with
    | none => rfl
    | some c =>
      exfalso
      have hr := SetView_failure env g "limit" 0 0 (env.width - 1) (env.height - 1) c hc
      unfold layoutLimit at h
      rw [hr] at h
      simp [onUnknownView] at h
  refine ⟨hf, ?_⟩
  have hb := SetView_bounds env g "limit" 0 0 (env.width - 1) (env.height - 1) hf
  unfold layoutLimit at h ⊢
  unfold onUnknownView at h ⊢
  split
  · exact hb
  · rw [← hb]
    exact ((modifyView_effect _ "limit" _).trans (SetViewOnTop_effect _ "limit")).kept "limit"
      (by simp)
  · rename_i c hc
    simp only [hc] at h
    cases h

theorem layoutLimit_quiet (env : Env) (g : Gui) (hf : env.setViewFailure "limit" = none)
    (hb : (g.views "limit").map View.bounds = some (0, 0, env.width - 1, env.height - 1)) :
    (layoutLimit env g).err = none ∧ Effect [] [] [] [] g (layoutLimit env g).gui := by
  obtain ⟨h1, h2⟩ := SetView_quiet env g "limit" 0 0 (env.width - 1) (env.height - 1) hf hb
  unfold layoutLimit
  rw [onUnknownView_of_err_none h1]
  exact ⟨rfl, h2⟩

theorem blocks_ensures_currentView (env : Env) (c : Option String) :
    (blocks { env with CurrentView := c }).map (fun x => (x.ensures, x.calls)) =
      (blocks env).map (fun x => (x.ensures, x.calls)) := rfl

/-- The settled state does not depend on which surface is current, as long as
one is current when one was. -/
theorem settled_currentView {env : Env} {g : Gui} (c : Option String)
    (hc : c = none → env.CurrentView = none) (h : Settled env g) :
    Settled { env with CurrentView := c } g := by
  obtain ⟨h1, h2, h3, h4, h5, h6, h7⟩ := h
  refine ⟨fun x hx => ?_, h2, h3, h4, fun hn => h5 (hc hn), h6, h7⟩
  have hm : (x.ensures, x.calls) ∈
      (blocks { env with CurrentView := c }).map (fun x => (x.ensures, x.calls)) :=
    List.mem_map.2 ⟨x, hx, rfl⟩
  rw [blocks_ensures_currentView] at hm
  obtain ⟨y, hy, he⟩ := List.mem_map.1 hm
  simp only [Prod.mk.injEq] at he
  have hy2 := h1 y hy
  unfold Block.established at hy2 ⊢
  rw [← he.1, ← he.2]
  exact hy2

/-- After a pass that returned no error, a second pass on the same inputs
returns no error, changes no surface and no state field, and calls only the
collaborators that are called on every pass. -/
theorem second_pass_quiet (env : Env) (gui : Gui) (c : Option String)
    (hc : c = none → env.CurrentView = none) (h : (layout env gui).err = none) :
    (layout { env with CurrentView := c } (layout env gui).gui).err = none ∧
    Effect [] [] repeatedKinds [] (layout env gui).gui
      (layout { env with CurrentView := c } (layout env gui).gui).gui := by
  by_cases hsize : 10 ≤ env.width ∧ 9 ≤ env.height
  · exact layout_quiet { env with CurrentView := c } _ hsize
      (settled_currentView c hc (layout_settles env gui hsize h))
  · have hsmall : env.width < 10 ∨ env.height < 9 := by omega
    rw [layout_small { env with CurrentView := c } _ hsmall]
    rw [layout_small env gui hsmall] at h ⊢
    obtain ⟨hf, hb⟩ := layoutLimit_settles env _ h
    have hhl : (layoutLimit env { gui with Highlight := true }).gui.Highlight = true :=
      (limit_effect env { gui with Highlight := true }).fields .Highlight (by simp)
    have e0 : Effect [] [] [] [] (layoutLimit env { gui with Highlight := true }).gui
        { (layoutLimit env { gui with Highlight := true }).gui with Highlight := true } :=
      Effect.none_of_eq (fun _ => rfl) rfl hhl.symm rfl rfl rfl rfl rfl
    obtain ⟨q1, q2⟩ := layoutLimit_quiet { env with CurrentView := c }
      { (layoutLimit env { gui with Highlight := true }).gui with Highlight := true } hf hb
    exact ⟨q1, Effect.mono (e0.seq q2) (by simp) (by simp) (by simp) (by simp)⟩

/-! ## Reaching the options block -/

/-- The options block on a backend that accepts the create-or-update call
leaves the options surface in place, whatever the block returns. -/
theorem layoutOptions_creates (env : Env) (dims : String → Option Dimensions) (g : Gui)
    (hf : env.setViewFailure "options" = none) :
    (layoutOptions env dims g).gui.views "options" ≠ none := by
  have hb := setViewFromDimensions_target env dims g "options" "options" false hf
  have hp : ((setViewFromDimensions env dims g "options" "options" false).gui.views
      "options").map View.bounds ≠ none := by
    rw [hb]
    simp
  rw [present_iff]
  unfold layoutOptions onUnknownView
  split
  · exact hp
  · simp only
    rw [((modifyView_effect _ "options" _).trans
      (onInitialViewsCreation_effect env _)).kept "options" (by simp)]
    exact hp
  · exact hp

theorem andThen_gui_cases (r : Result) (k : Step) :
    (r.andThen k).gui = r.gui ∨ (r.andThen k).gui = (k r.gui).gui := by
  unfold Result.andThen
  split
  · exact Or.inr rfl
  · exact Or.inl rfl

/-- A pass at or above the minimum size whose blocks before the options block
return no error, on a backend that accepts the create-or-update call for
"options", leaves the options surface in place. -/
theorem pass_reaches_options (env : Env) (gui : Gui) (hsize : 10 ≤ env.width ∧ 9 ≤ env.height)
    (hreach : (layoutPrefix env 12 { gui with Highlight := true }).err = none)
    (hf : env.setViewFailure "options" = none) :
    (layout env gui).gui.views "options" ≠ none := by
  rw [layout_normal env gui hsize, run_split env 13,
    layoutPrefix_step env 12 _ (layoutOptions env (viewDimensions env)) rfl,
    andThen_of_err_none hreach]
  have h1 := layoutOptions_creates env (viewDimensions env)
    (layoutPrefix env 12 { gui with Highlight := true }).gui hf
  rcases andThen_gui_cases (layoutOptions env (viewDimensions env)
      (layoutPrefix env 12 { gui with Highlight := true }).gui)
    (runSteps (((blocks env).drop 13).map Block.step)) with h | h
  · rw [h]
    exact h1
  · rw [h, present_iff, (drop_effect env 13 allSurfaces
      ["searchPrefix", "search", "appStatus", "information"] allKinds allFields
      (by simp [blocks, panelBlock, allSurfaces, allKinds, allFields]) _).kept "options"
      (by simp), ← present_iff]
    exact h1

theorem passes_append (envs1 envs2 : List Env) (g : Gui) :
    passes (envs1 ++ envs2) g = passes envs2 (passes envs1 g) := by
  unfold passes
  rw [List.foldl_append]

theorem passes_cons (env : Env) (envs : List Env) (g : Gui) :
    passes (env :: envs) g = passes envs (layout env g).gui := rfl

/-- Once a pass of a sequence has reached the options block on a backend that
accepts the create-or-update call, the initial setup has been invoked exactly
once, whatever the passes returned. -/
theorem setup_once_reached (envs1 envs2 : List Env) (env : Env) (gui : Gui)
    (hv : gui.views "options" = none) (hl : gui.log = [])
    (hsize : 10 ≤ env.width ∧ 9 ≤ env.height)
    (hreach : (layoutPrefix env 12 { passes envs1 gui with Highlight := true }).err = none)
    (hf : env.setViewFailure "options" = none) :
    setupCount (passes (envs1 ++ env :: envs2) gui).log = 1 := by
  have hp : (passes (envs1 ++ env :: envs2) gui).views "options" ≠ none := by
    rw [passes_append, passes_cons]
    exact ((passes_setup envs2 _).1 (pass_reaches_options env _ hsize hreach hf)).1
  have h0 : setupCount gui.log = 0 := by simp [hl, setupCount]
  rcases (passes_setup (envs1 ++ env :: envs2) gui).2 hv with ⟨h1, _⟩ | ⟨_, h2⟩
  · exact absurd h1 hp
  · rw [h2, h0]

/-! ## Focus states before the loop -/

theorem focusStateKept_refl (g : Gui) : FocusStateKept g g :=
  fun _ v _ h => ⟨v, h, rfl⟩

theorem focusStateKept_trans (a b c : Gui) (h1 : FocusStateKept a b) (h2 : FocusStateKept b c) :
    FocusStateKept a c := by
  intro n v hn hv
  obtain ⟨v1, hv1, e1⟩ := h1 n v hn hv
  obtain ⟨v2, hv2, e2⟩ := h2 n v1 hn hv1
  exact ⟨v2, hv2, e2.trans e1⟩

/-- A run that assigns to no surface keeps every focus state. -/
theorem focusStateKept_of_effect {B : List String} {ks : List EventKind} {fs : List Field}
    {g g' : Gui} (h : Effect [] B ks fs g g') : FocusStateKept g g' :=
  fun n v _ hv => ⟨v, by rw [h.views n (by simp), hv], rfl⟩

theorem modifyView_focus (g : Gui) (name : String) (f : View → View)
    (hf : ∀ v, (f v).focusState = v.focusState := by intro v; rfl) :
    FocusStateKept g (g.modifyView name f) := by
  intro n v _ hv
  by_cases hn : n = name
  · subst hn
    exact ⟨f v, by simp [Gui.modifyView, hv], hf v⟩
  · exact ⟨v, by simp [Gui.modifyView, hn, hv], rfl⟩

/-- The create-or-update call keeps the focus state of every surface: it
assigns bounds only. -/
theorem SetView_focus (env : Env) (g : Gui) (name : String) (x0 y0 x1 y1 : Int) :
    FocusStateKept g (g.SetView env name x0 y0 x1 y1).gui := by
  unfold Gui.SetView
  split
  · exact focusStateKept_refl g
  · split
    · rename_i w hw
      intro n v _ hv
      by_cases hn : n = name
      · subst hn
        rw [hw] at hv
        cases hv
        exact ⟨{ w with x0 := x0, y0 := y0, x1 := x1, y1 := y1 }, by simp, rfl⟩
      · exact ⟨v, by simp [hn, hv], rfl⟩
    · rename_i hw
      intro n v _ hv
      by_cases hn : n = name
      · subst hn
        rw [hw] at hv
        cases hv
      · exact ⟨v, by simp [hn, hv], rfl⟩

theorem setViewFromDimensions_focus (env : Env) (dims : String → Option Dimensions) (g : Gui)
    (viewName windowName : String) (frame : Bool) :
    FocusStateKept g (setViewFromDimensions env dims g viewName windowName frame).gui := by
  unfold setViewFromDimensions
  split
  · simp only
    split
    · exact SetView_focus env g viewName 0 0 0 0
    · exact focusStateKept_trans _ _ _ (SetView_focus env g viewName 0 0 0 0)
        (focusStateKept_of_effect (SetViewOnBottom_effect _ _))
  · exact SetView_focus env g viewName _ _ _ _

theorem onUnknownView_focus {g : Gui} {r : Result} {init : Step}
    (h1 : FocusStateKept g r.gui) (h2 : ∀ g1, FocusStateKept g1 (init g1).gui) :
    FocusStateKept g (onUnknownView r init).gui := by
  unfold onUnknownView
  split
  · exact h1
  · exact focusStateKept_trans _ _ _ h1 (h2 _)
  · exact h1

theorem andThen_focus {g : Gui} {r : Result} {k : Step}
    (h1 : FocusStateKept g r.gui) (h2 : ∀ g1, FocusStateKept g1 (k g1).gui) :
    FocusStateKept g (r.andThen k).gui := by
  unfold Result.andThen
  split
  · exact focusStateKept_trans _ _ _ h1 (h2 _)
  · exact h1

/-- A panel block keeps every focus state when its one-time defaults do. -/
theorem ensure_focus (env : Env) (dims : String → Option Dimensions) (g : Gui)
    (viewName windowName : String) (frame : Bool) (init : Step)
    (hinit : ∀ g1, FocusStateKept g1 (init g1).gui) :
    FocusStateKept g
      (onUnknownView (setViewFromDimensions env dims g viewName windowName frame) init).gui :=
  onUnknownView_focus (setViewFromDimensions_focus env dims g viewName windowName frame) hinit

theorem deleteLimit_focus (g : Gui) : FocusStateKept g (deleteLimit g).gui := by
  intro n v hn hv
  exact ⟨v, by rw [(deleteLimit_effect g).views n (by simpa using hn), hv], rfl⟩

theorem switchContext_focus (g : Gui) (t : Context) :
    FocusStateKept g (switchContext g t).gui := by
  unfold switchContext
  simp only
  split
  · exact focusStateKept_of_effect (record_effect g _)
  · refine focusStateKept_trans _ _ _ (focusStateKept_of_effect
      ((record_effect g (.switchContext t.key)).trans (unfocusPrevious_effect _))) ?_
    unfold focusTarget
    refine focusStateKept_trans _ _ _ (focusStateKept_trans _ _ _ ?_
      (focusStateKept_of_effect (SetViewOnTop_effect _ t.viewName))) (modifyView_focus _ _ _)
    exact fun n v _ hv => ⟨v, hv, rfl⟩

theorem onInitialViewsCreation_focus (env : Env) (g : Gui) :
    FocusStateKept g (onInitialViewsCreation env g).gui := by
  unfold onInitialViewsCreation
  simp only
  refine focusStateKept_trans _ _ _ (focusStateKept_of_effect (record_effect g _))
    (andThen_focus (switchContext_focus _ _) (fun g1 => ?_))
  refine andThen_focus ?_ (fun g2 => focusStateKept_of_effect (record_effect g2 _))
  split
  · refine andThen_focus (focusStateKept_trans _ _ _
      (focusStateKept_of_effect (record_effect g1 _))
      (focusStateKept_of_effect (record_effect _ _))) (fun g2 => ?_)
    exact fun n v _ hv => ⟨v, hv, rfl⟩
  · exact focusStateKept_of_effect (record_effect g1 _)


theorem setViewContent_focus (g : Gui) (view : String) (c : Str) :
    FocusStateKept g (setViewContent g view c) :=
  focusStateKept_trans _ _ _ (modifyView_focus g view _)
    (focusStateKept_of_effect (record_effect _ _))

theorem renderString_focus (g : Gui) (view : String) (c : Str) :
    FocusStateKept g (renderString g view c) :=
  focusStateKept_trans _ _ _ (modifyView_focus g view _)
    (focusStateKept_of_effect (record_effect _ _))

theorem hidden_focus (env : Env) (g : Gui) (name : String) (f : View → View)
    (hf : ∀ v, (f v).focusState = v.focusState) :
    FocusStateKept g
      (onUnknownView (g.SetView env name hiddenViewOffset hiddenViewOffset
        (hiddenViewOffset + 10) (hiddenViewOffset + 10)) fun gui =>
        ⟨(gui.SetViewOnBottom name).gui.modifyView name f, none⟩).gui :=
  onUnknownView_focus (SetView_focus env g name _ _ _ _) (fun g1 =>
    focusStateKept_trans _ _ _ (focusStateKept_of_effect (SetViewOnBottom_effect g1 name))
      (modifyView_focus _ name f hf))

/-- No block before the loop over the list contexts moves an origin or a
cursor, or assigns a selection colour or a selection callback. -/
theorem prefix_blocks_focus (env : Env) :
    ∀ x ∈ (blocks env).take 18, ∀ g, FocusStateKept g (x.step g).gui := by
  simp only [blocks, panelBlock, List.take, List.forall_mem_cons, List.mem_nil_iff,
    false_implies, implies_true, and_true]
  refine ⟨deleteLimit_focus, fun g => focusStateKept_of_effect (readMoreLines_effect env _ g),
    ?_, ?_, ?_, ?_, ?_, ?_, ?_, ?_, ?_, ?_, ?_, ?_, ?_, ?_, ?_, ?_⟩
  · exact fun g => ensure_focus env _ g _ _ _ _ (fun g1 => modifyView_focus g1 _ _)
  · exact fun g => ensure_focus env _ g _ _ _ _ (fun g1 => modifyView_focus g1 _ _)
  · exact fun g => ensure_focus env _ g _ _ _ _ (fun g1 => modifyView_focus g1 _ _)
  · exact fun g => ensure_focus env _ g _ _ _ _ (fun g1 => modifyView_focus g1 _ _)
  · exact fun g => ensure_focus env _ g _ _ _ _ (fun g1 => modifyView_focus g1 _ _)
  · exact fun g => ensure_focus env _ g _ _ _ _ (fun g1 => modifyView_focus g1 _ _)
  · exact fun g => ensure_focus env _ g _ _ _ _ (fun g1 => modifyView_focus g1 _ _)
  · exact fun g => ensure_focus env _ g _ _ _ _ (fun g1 => modifyView_focus g1 _ _)
  · intro g
    unfold layoutCommitMessage
    split
    · exact hidden_focus env g "commitMessage" _ (fun _ => rfl)
    · exact focusStateKept_refl g
  · intro g
    unfold layoutCredentials
    split
    · exact hidden_focus env g "credentials" _ (fun _ => rfl)
    · exact focusStateKept_refl g
  · exact fun g => ensure_focus env _ g _ _ _ _ (fun g1 =>
      focusStateKept_trans _ _ _ (modifyView_focus g1 _ _) (onInitialViewsCreation_focus env _))
  · exact fun g => ensure_focus env _ g _ _ _ _ (fun g1 =>
      focusStateKept_trans _ _ _ (modifyView_focus g1 _ _) (setViewContent_focus _ _ _))
  · exact fun g => ensure_focus env _ g _ _ _ _ (fun g1 => modifyView_focus g1 _ _)
  · exact fun g => ensure_focus env _ g _ _ _ _ (fun g1 =>
      focusStateKept_trans _ _ _ (modifyView_focus g1 _ _)
        (focusStateKept_of_effect (SetViewOnBottom_effect _ _)))
  · intro g
    unfold layoutInformation
    refine andThen_focus (ensure_focus env _ g _ _ _ _ (fun g1 =>
      focusStateKept_trans _ _ _ (modifyView_focus g1 _ _) (renderString_focus _ _ _)))
      (fun g1 => ?_)
    split
    · exact focusStateKept_trans _ _ _ (setViewContent_focus g1 _ _)
        (fun n v _ hv => ⟨v, hv, rfl⟩)
    · exact focusStateKept_refl g1
  · intro g
    unfold initialFocus
    split
    · exact switchContext_focus g _
    · exact focusStateKept_refl g

/-- The blocks before the loop over the list contexts keep the focus state of
every surface, whatever they return. -/
theorem beforeSync_focus (env : Env) (gui : Gui) :
    FocusStateKept gui (beforeSync env gui).gui := by
  unfold beforeSync
  rw [layoutPrefix_eq]
  exact focusStateKept_trans _ _ _ (focusStateKept_of_effect (highlight_effect gui))
    (runBlocks_rel FocusStateKept focusStateKept_refl focusStateKept_trans _
      (prefix_blocks_focus env) _)

/-- What `FocusPoint(0, row)` leaves, for a row that exists: the cursor in
column 0 on the row, and the row inside the surface. -/
theorem FocusPoint_row (v : View) (row : Int) (h : 0 ≤ row) :
    (v.FocusPoint 0 row).cx = 0 ∧ (v.FocusPoint 0 row).oy + (v.FocusPoint 0 row).cy = row ∧
    0 ≤ (v.FocusPoint 0 row).cy ∧ (v.FocusPoint 0 row).cy ≤ v.lastRow ∧
    (v.FocusPoint 0 row).ox = v.ox := by
  have hl := lastRow_nonneg v
  unfold View.FocusPoint
  split_ifs with h1 h2 h3
  · omega
  · refine ⟨rfl, ?_, ?_, ?_, rfl⟩ <;> dsimp only <;> omega
  · refine ⟨rfl, ?_, ?_, ?_, rfl⟩ <;> dsimp only <;> omega
  · refine ⟨rfl, ?_, ?_, ?_, rfl⟩ <;> dsimp only <;> omega

theorem FocusPoint_content (v : View) (cx cy : Int) :
    (v.FocusPoint cx cy).content = v.content ∧ (v.FocusPoint cx cy).ox = v.ox := by
  unfold View.FocusPoint
  split_ifs <;> exact ⟨rfl, rfl⟩

theorem FocusPoint_negative (v : View) (cx cy : Int) (h : cy < 0) : v.FocusPoint cx cy = v := by
  unfold View.FocusPoint
  rw [if_pos h]

theorem lastRow_of_bounds {v v' : View} (h : v'.bounds = v.bounds) : v'.lastRow = v.lastRow := by
  simp only [View.bounds, Prod.mk.injEq] at h
  unfold View.lastRow View.Size
  rw [h.2.1, h.2.2.2]

/-- What the loop leaves on the surface of a context that owns it. -/
theorem refocusView_spec (s : listContextState) (v : View) :
    (refocusView s v).SelBgColor = .GocuiSelectedLineBgColor ∧
    (refocusView s v).onSelectItem = some s.contextKey ∧
    (0 ≤ s.selectedLine →
      (refocusView s v).cx = 0 ∧ (refocusView s v).oy + (refocusView s v).cy = s.selectedLine ∧
      0 ≤ (refocusView s v).cy ∧ (refocusView s v).cy ≤ (refocusView s v).lastRow) ∧
    (s.selectedLine < 0 →
      (refocusView s v).oy = v.oy ∧ (refocusView s v).cx = v.cx ∧ (refocusView s v).cy = v.cy) ∧
    (refocusView s v).ox = v.ox ∧
    (refocusView s v).bounds = v.bounds ∧ (refocusView s v).content = v.content ∧
    (refocusView s v).Context = v.Context := by
  have hb : (refocusView s v).bounds = v.bounds := FocusPoint_bounds v 0 s.selectedLine
  refine ⟨rfl, rfl, fun h => ?_, fun h => ?_, (FocusPoint_content v 0 s.selectedLine).2, hb,
    (FocusPoint_content v 0 s.selectedLine).1, refocusView_context s v⟩
  · rw [lastRow_of_bounds hb]
    have hr := FocusPoint_row v s.selectedLine h
    exact ⟨hr.1, hr.2.1, hr.2.2.1, hr.2.2.2.1⟩
  · unfold refocusView
    rw [FocusPoint_negative v 0 s.selectedLine h]
    exact ⟨rfl, rfl, rfl⟩

/-! ## C5 -/

/-- C5, as amended: when the window has a region and the backend call does not
fail, the bounds handed to the surface are exactly the region when `frame` is
true, and the region grown by one unit on every side when `frame` is false. -/
theorem setViewFromDimensions_bounds (env : Env) (dims : String → Option Dimensions) (gui : Gui)
    (viewName windowName : String) (frame : Bool) (d : Dimensions)
    (hd : dims windowName = some d) (hf : env.setViewFailure viewName = none) :
    ((setViewFromDimensions env dims gui viewName windowName frame).gui.views viewName).map
        View.bounds =
      some (if frame then (d.X0, d.Y0, d.X1, d.Y1)
        else (d.X0 - 1, d.Y0 - 1, d.X1 + 1, d.Y1 + 1)) := by
  rw [setViewFromDimensions_target env dims gui viewName windowName frame hf]
  simp [targetBounds, hd]

/-- The main surface of scenario A, framed, gets its region (60, 0, 199, 47). -/
theorem setViewFromDimensions_bounds_witness :
    sampleDimensions "main" = some ⟨60, 0, 199, 47⟩ ∧ sampleEnv.setViewFailure "main" = none ∧
    ((setViewFromDimensions sampleEnv sampleDimensions emptyGui "main" "main" true).gui.views
      "main").map View.bounds = some (60, 0, 199, 47) :=
  ⟨rfl, rfl, setViewFromDimensions_bounds sampleEnv sampleDimensions emptyGui "main" "main" true
    ⟨60, 0, 199, 47⟩ rfl rfl⟩

/-- C5 as stated fails: with `frame` true the main surface of scenario A does
not get the region (60, 0, 199, 47) grown by one, and with `frame` false the
options surface does not get exactly its region (0, 48, 180, 50). -/
theorem framed_bounds_are_not_grown :
    ((setViewFromDimensions sampleEnv sampleDimensions emptyGui "main" "main" true).gui.views
      "main").map View.bounds ≠ some (60 - 1, 0 - 1, 199 + 1, 47 + 1) ∧
    ((setViewFromDimensions sampleEnv sampleDimensions emptyGui "options" "options"
      false).gui.views "options").map View.bounds ≠ some (0, 48, 180, 50) := by
  decide

/-! ## C1 -/

/-- C1, as amended: below the minimum size a pass touches no surface but the
notice "limit" and calls no collaborator; a failure of the notice's
create-or-update call other than "unknown view" is returned and nothing
changes; otherwise the pass returns success, the notice has the bounds
(0, 0, width-1, height-1), it is on top of the stacking order when the pass
created it, and the stacking order is unchanged when it existed already.  At
or above the minimum size the fallback is not taken: the pass runs the blocks
of the full layout and no notice exists afterwards. -/
theorem layout_below_minimum (env : Env) (gui : Gui) :
    (env.width < 10 ∨ env.height < 9 →
      (∀ n, n ≠ "limit" → (layout env gui).gui.views n = gui.views n) ∧
      (layout env gui).gui.log = gui.log ∧
      (∀ c, env.setViewFailure "limit" = some c →
        (layout env gui).err = some (.other c) ∧
        (layout env gui).gui.views "limit" = gui.views "limit" ∧
        (layout env gui).gui.order = gui.order) ∧
      (env.setViewFailure "limit" = none →
        (layout env gui).err = none ∧
        ((layout env gui).gui.views "limit").map View.bounds =
          some (0, 0, env.width - 1, env.height - 1) ∧
        (gui.views "limit" = none → (layout env gui).gui.order.getLast? = some "limit") ∧
        (gui.views "limit" ≠ none → (layout env gui).gui.order = gui.order))) ∧
    (10 ≤ env.width ∧ 9 ≤ env.height →
      layout env gui = runSteps (layoutSteps env) { gui with Highlight := true } ∧
      (layout env gui).gui.views "limit" = none) := by
  constructor
  · intro hsmall
    rw [layout_small env gui hsmall]
    have he := limit_effect env { gui with Highlight := true }
    refine ⟨fun n hn => he.views n (by simpa using hn), ?_, fun c hc => ?_, fun hf => ?_⟩
    · obtain ⟨L, hL, hk⟩ := he.log
      cases L with
      | nil => simpa using hL
      | cons e t => simpa using hk e (List.mem_cons_self _ _)
    · simp [layoutLimit, SetView_failure env _ "limit" _ _ _ _ c hc, onUnknownView]
    · cases hv : gui.views "limit" with
      | none =>
        simp [layoutLimit, Gui.SetView, hf, hv, onUnknownView, Gui.modifyView, Gui.SetViewOnTop,
          View.bounds, newView]
      | some v =>
        simp [layoutLimit, Gui.SetView, hf, hv, onUnknownView, View.bounds]
  · intro hnormal
    rw [layout_normal env gui hnormal]
    exact ⟨by rw [blocks_steps], limit_absent_after env _⟩

/-- On a 5 by 5 terminal, the first pass creates the notice with bounds
(0, 0, 4, 4) on top of the stacking order and returns success. -/
theorem layout_below_minimum_witness :
    (smallEnv.width < 10 ∨ smallEnv.height < 9) ∧
    (layout smallEnv emptyGui).err = none ∧
    ((layout smallEnv emptyGui).gui.views "limit").map View.bounds = some (0, 0, 4, 4) ∧
    (layout smallEnv emptyGui).gui.order.getLast? = some "limit" :=
  have h := ((layout_below_minimum smallEnv emptyGui).1 (by decide)).2.2.2 rfl
  ⟨by decide, h.1, h.2.1, h.2.2.1 rfl⟩

/-- C1 as stated fails: on a 5 by 5 terminal where the notice exists and the
file list was raised above it, the pass returns success and leaves the file
list on top of the stacking order, above the notice, with bounds that reach
into the terminal: it is left visible. -/
theorem notice_not_raised_again :
    (smallEnv.width < 10 ∨ smallEnv.height < 9) ∧
    (coveredGui.views "limit").map View.bounds = some (0, 0, 4, 4) ∧
    (layout smallEnv coveredGui).err = none ∧
    (layout smallEnv coveredGui).gui.order.getLast? = some "files" ∧
    ((layout smallEnv coveredGui).gui.views "files").map View.bounds = some (0, 3, 59, 17) := by
  decide

/-! ## C10 -/

/-- C10: the information string is chosen by strict precedence over the mode
flags.  In diff mode its text is the diff notice; else in filter mode it is
`filteringBy 'p' (reset)` for the filter path `p`, whatever the cherry-pick
count and the mouse flag; else with `n > 0` cherry-picked commits it is
`n commits copied`; else with the mouse enabled it is the donation prompt, a
space and the version string; else it is the version string exactly, with no
colour.  The text is read with the colours set aside, and a translation key
stands for its translation. -/
theorem informationStr_precedence (env : Env) :
    (env.inDiffMode = true →
      (informationStr env).text =
        env.SLocalize "showingGitDiff" ++ " " ++ ("git diff " ++ env.diffStr) ++ " " ++
          env.SLocalize "(reset)") ∧
    (env.inDiffMode = false → env.inFilterMode = true →
      (informationStr env).text =
        env.SLocalize "filteringBy" ++ " '" ++ env.FilterPath ++ "' " ++ env.SLocalize "(reset)") ∧
    (env.inDiffMode = false → env.inFilterMode = false → env.CherryPickedCommits.length > 0 →
      (informationStr env).text =
        toString env.CherryPickedCommits.length ++ " commits copied") ∧
    (env.inDiffMode = false → env.inFilterMode = false → env.CherryPickedCommits.length = 0 →
      env.Mouse = true →
      (informationStr env).text = env.SLocalize "Donate" ++ " " ++ env.GetVersion) ∧
    (env.inDiffMode = false → env.inFilterMode = false → env.CherryPickedCommits.length = 0 →
      env.Mouse = false → informationStr env = .lit env.GetVersion) := by
  refine ⟨fun h => ?_, fun h1 h2 => ?_, fun h1 h2 h3 => ?_, fun h1 h2 h3 h4 => ?_,
    fun h1 h2 h3 h4 => ?_⟩
  · simp [informationStr, h, Str.text]
  · simp [informationStr, h1, h2, Str.text]
  · simp [informationStr, h1, h2, h3, Str.text]
  · simp [informationStr, h1, h2, h3, h4, Str.text]
  · simp [informationStr, h1, h2, h3, h4]

/-- Scenario B: in filter mode on the path "src/" the text of the information
string is `filteringBy 'src/' (reset)`. -/
theorem informationStr_precedence_witness :
    filterEnv.inDiffMode = false ∧ filterEnv.inFilterMode = true ∧
    (informationStr filterEnv).text = "filteringBy 'src/' (reset)" :=
  ⟨rfl, rfl, (informationStr_precedence filterEnv).2.1 rfl rfl⟩

/-! ## C2 -/

/-- C2, as amended: in a pass at or above the minimum size in which the main
surface exists already with inner height `h`, and the new main height is
`h + d`: when `d > 0`, `ReadLines(d)` is called once on each of the main and
secondary buffer managers that is registered, main first, and on no manager
that is not registered; when `d ≤ 0` no buffer manager is called at all. -/
theorem readLines_on_growth (env : Env) (gui : Gui) (v : View)
    (hsize : 10 ≤ env.width ∧ 9 ≤ env.height) (hmain : gui.views "main" = some v) :
    ∃ L, (layout env gui).gui.log = gui.log ++ L ∧
      L.filter (fun e => e.kind = .ReadLines) =
        if newMainHeight env - v.Size.2 > 0 then
          (if env.viewBufferManagerMap "main" then
            [Event.ReadLines "main" (newMainHeight env - v.Size.2)] else []) ++
          (if env.viewBufferManagerMap "secondary" then
            [Event.ReadLines "secondary" (newMainHeight env - v.Size.2)] else [])
        else [] := by
  rw [layout_normal env gui hsize, run_split env 2, layoutPrefix_two,
    andThen_of_err_none (readMoreLines_err env _ _)]
  have e0 := (highlight_effect gui).trans (deleteLimit_effect { gui with Highlight := true })
  have hv : (deleteLimit { gui with Highlight := true }).gui.views "main" = some v := by
    rw [e0.views "main" (by simp)]
    exact hmain
  have hl : (deleteLimit { gui with Highlight := true }).gui.log = gui.log := e0.log_eq
  have h1 := readMoreLines_log env _ v hv
  rw [hl] at h1
  have e2 := drop_effect env 2 allSurfaces allSurfaces (allKinds.erase .ReadLines) allFields
    (by simp [blocks, panelBlock, allSurfaces, allKinds, allFields])
    (readMoreLines env (viewDimensions env) (deleteLimit { gui with Highlight := true }).gui).gui
  obtain ⟨L2, hL2, hk2⟩ := e2.log
  have hR : (if newMainHeight env - v.Size.2 > 0 then
        (if env.viewBufferManagerMap "main" then
          [Event.ReadLines "main" (newMainHeight env - v.Size.2)] else []) ++
        (if env.viewBufferManagerMap "secondary" then
          [Event.ReadLines "secondary" (newMainHeight env - v.Size.2)] else [])
      else []).filter (fun e => e.kind = .ReadLines) = (if newMainHeight env - v.Size.2 > 0 then
        (if env.viewBufferManagerMap "main" then
          [Event.ReadLines "main" (newMainHeight env - v.Size.2)] else []) ++
        (if env.viewBufferManagerMap "secondary" then
          [Event.ReadLines "secondary" (newMainHeight env - v.Size.2)] else [])
      else []) := by
    split
    · cases env.viewBufferManagerMap "main" <;> cases env.viewBufferManagerMap "secondary" <;>
        simp [Event.kind]
    · rfl
  generalize (if newMainHeight env - v.Size.2 > 0 then
        (if env.viewBufferManagerMap "main" then
          [Event.ReadLines "main" (newMainHeight env - v.Size.2)] else []) ++
        (if env.viewBufferManagerMap "secondary" then
          [Event.ReadLines "secondary" (newMainHeight env - v.Size.2)] else [])
      else []) = R at h1 hR ⊢
  refine ⟨R ++ L2, by rw [hL2, h1, List.append_assoc], ?_⟩
  rw [List.filter_append, filter_kind_nil L2 _ .ReadLines hk2 (by decide), List.append_nil, hR]

/-- Scenario D: the main surface is 20 rows high and the new main height is
26, with both managers registered: each is asked for 6 lines. -/
theorem readLines_on_growth_witness :
    (10 ≤ grownEnv.width ∧ 9 ≤ grownEnv.height) ∧
    mainGui.views "main" = some (newView 60 0 199 21) ∧
    ∃ L, (layout grownEnv mainGui).gui.log = mainGui.log ++ L ∧
      L.filter (fun e => e.kind = .ReadLines) =
        [Event.ReadLines "main" 6, Event.ReadLines "secondary" 6] :=
  ⟨by decide, rfl, readLines_on_growth grownEnv mainGui (newView 60 0 199 21) (by decide) rfl⟩

/-- C2 as stated fails: the main height grows from 20 to 26 and no manager is
registered for "secondary"; the pass asks the main manager for 6 lines and
makes no other `ReadLines` call. -/
theorem no_lines_without_manager :
    (10 ≤ grownMainOnlyEnv.width ∧ 9 ≤ grownMainOnlyEnv.height) ∧
    (mainGui.views "main").map (fun v => v.Size.2) = some 20 ∧
    newMainHeight grownMainOnlyEnv = 20 + 6 ∧
    (layout grownMainOnlyEnv mainGui).gui.log.filter (fun e => e.kind = .ReadLines) =
      [Event.ReadLines "main" 6] := by
  decide

/-! ## C9 -/

/-- C9, as amended.  In a pass at or above the minimum size in which no block
before the loop returned an error, with the ownership tags as they are when
the loop starts: the focus and callback calls of the pass are exactly those of
the list contexts whose key equals the tag of their surface, in the order of
the contexts; the surface of such a context ends the pass with the selection
colour set, the callback of that context bound and, for a selected row that
exists, the cursor in column 0 on the selected row and that row inside the
surface, its bounds, content and tag as before; a surface no list context owns
is left as the blocks before the loop left it; each surface is re-focused at
most once; and the blocks before the loop move no origin or cursor and assign
no selection colour or callback.  A pass below the minimum size makes no call
and changes no surface but the notice.  A pass in which a block before the loop
returns an error returns that error in the state that block left: it makes no
focus or callback call and leaves the origin, cursor, selection colour and
callback of every surface as they were. -/
theorem selection_sync_respects_ownership (env : Env) (gui : Gui) :
    (10 ≤ env.width ∧ 9 ≤ env.height → (beforeSync env gui).err = none →
      (∃ L, (layout env gui).gui.log = gui.log ++ L ∧
        L.filter (fun e => e.kind = .FocusPoint ∨ e.kind = .SetOnSelectItem) =
          (listContextStates env (beforeSync env gui).gui).flatMap
            (refocusEvents (beforeSync env gui).gui)) ∧
      (∀ s ∈ listContextStates env (beforeSync env gui).gui, ∀ v,
        (beforeSync env gui).gui.views s.view = some v → v.Context = s.contextKey →
        ∃ w, (layout env gui).gui.views s.view = some w ∧
          w = { v.FocusPoint 0 s.selectedLine with
            SelBgColor := .GocuiSelectedLineBgColor, onSelectItem := some s.contextKey } ∧
          w.SelBgColor = .GocuiSelectedLineBgColor ∧ w.onSelectItem = some s.contextKey ∧
          (0 ≤ s.selectedLine →
            w.cx = 0 ∧ w.oy + w.cy = s.selectedLine ∧ 0 ≤ w.cy ∧ w.cy ≤ w.lastRow) ∧
          (s.selectedLine < 0 → w.oy = v.oy ∧ w.cx = v.cx ∧ w.cy = v.cy) ∧
          w.ox = v.ox ∧ w.bounds = v.bounds ∧ w.content = v.content ∧
          w.Context = v.Context) ∧
      (∀ n, (∀ s ∈ listContextStates env (beforeSync env gui).gui, s.view = n →
          ((beforeSync env gui).gui.views n).map View.Context ≠ some s.contextKey) →
        (layout env gui).gui.views n = (beforeSync env gui).gui.views n) ∧
      (∀ n, ((listContextStates env (beforeSync env gui).gui).flatMap
          (refocusEvents (beforeSync env gui).gui)).countP (Event.focuses n) ≤ 1) ∧
      (∀ n v, n ≠ "limit" → gui.views n = some v →
        ∃ w, (beforeSync env gui).gui.views n = some w ∧ w.focusState = v.focusState)) ∧
    (env.width < 10 ∨ env.height < 9 →
      (layout env gui).gui.log = gui.log ∧
      ∀ n, n ≠ "limit" → (layout env gui).gui.views n = gui.views n) ∧
    (∀ e, 10 ≤ env.width ∧ 9 ≤ env.height → (beforeSync env gui).err = some e →
      (layout env gui).err = some e ∧ (layout env gui).gui = (beforeSync env gui).gui ∧
      (∃ L, (layout env gui).gui.log = gui.log ++ L ∧
        L.filter (fun e => e.kind = .FocusPoint ∨ e.kind = .SetOnSelectItem) = []) ∧
      ∀ n v, n ≠ "limit" → gui.views n = some v →
        ∃ w, (layout env gui).gui.views n = some w ∧ w.focusState = v.focusState) := by
  have e1 := (highlight_effect gui).trans (take_effect env 18 allSurfaces allSurfaces
    ((allKinds.erase .FocusPoint).erase .SetOnSelectItem) allFields
    (by simp [blocks, panelBlock, allSurfaces, allKinds, allFields])
    { gui with Highlight := true })
  refine ⟨fun hsize hreach => ?_, fun hsmall => ?_, fun e hsize herr => ?_⟩
  · have hsplit : layout env gui =
        runSteps (((blocks env).drop 19).map Block.step)
          (syncListContexts env (beforeSync env gui).gui).gui := by
      rw [layout_normal env gui hsize, run_split env 19,
        layoutPrefix_succ env 18 _ _ (by rfl)]
      unfold beforeSync at hreach ⊢
      rw [andThen_of_err_none hreach, andThen_of_err_none (by rfl)]
      rfl
    have e3 := drop_effect env 19 [] [] [.onResize, .resizeCurrentPopupPanel] allFields
      (by simp [blocks, allFields]) (syncListContexts env (beforeSync env gui).gui).gui
    rw [← hsplit] at e3
    refine ⟨?_, fun s hs v hv hc => ?_, fun n hn => ?_, fun n => ?_, beforeSync_focus env gui⟩
    · obtain ⟨L1, hL1, hk1⟩ := e1.log
      obtain ⟨L3, hL3, hk3⟩ := e3.log
      refine ⟨L1 ++ (listContextStates env (beforeSync env gui).gui).flatMap
        (refocusEvents (beforeSync env gui).gui) ++ L3, ?_, ?_⟩
      · rw [hL3]
        show (List.foldl refocus _ _).log ++ L3 = _
        rw [foldl_refocus_log]
        unfold beforeSync
        rw [hL1]
        simp [List.append_assoc]
      · rw [List.filter_append, List.filter_append, filter_refocusEvents]
        have h1 := filter_kinds_nil L1 _
          (fun k => decide (k = .FocusPoint ∨ k = .SetOnSelectItem)) hk1 (by decide)
        have h3 := filter_kinds_nil L3 _
          (fun k => decide (k = .FocusPoint ∨ k = .SetOnSelectItem)) hk3 (by decide)
        simp only at h1 h3
        rw [h1, h3]
        simp
    · have ho : ((beforeSync env gui).gui.views s.view).map View.Context =
          some s.contextKey := by
        rw [hv]
        simp [hc]
      have hw : (layout env gui).gui.views s.view = some (refocusView s v) := by
        rw [e3.views s.view (by simp)]
        show ((listContextStates env (beforeSync env gui).gui).foldl refocus
          (beforeSync env gui).gui).views s.view = _
        rw [foldl_refocus_owned _ _ (listContextStates_keys env _) s hs ho, hv]
        rfl
      exact ⟨refocusView s v, hw, rfl, refocusView_spec s v⟩
    · rw [e3.views n (by simp)]
      show ((listContextStates env (beforeSync env gui).gui).foldl refocus
        (beforeSync env gui).gui).views n = _
      exact foldl_refocus_untouched _ _ n hn
    · exact (flatMap_refocusEvents_count _ _ n (listContextStates_keys env _)).1
  · rw [layout_small env gui hsmall]
    have e0 := (highlight_effect gui).trans (limit_effect env { gui with Highlight := true })
    exact ⟨e0.log_eq, fun n hn => e0.views n (by simpa using hn)⟩
  · have hrun : layout env gui = ⟨(beforeSync env gui).gui, some e⟩ := by
      rw [layout_normal env gui hsize, run_split env 18]
      unfold beforeSync at herr ⊢
      rw [andThen_of_err_some herr]
    rw [hrun]
    refine ⟨rfl, rfl, ?_, beforeSync_focus env gui⟩
    obtain ⟨L1, hL1, hk1⟩ := e1.log
    refine ⟨L1, hL1, ?_⟩
    have h1 := filter_kinds_nil L1 _
      (fun k => decide (k = .FocusPoint ∨ k = .SetOnSelectItem)) hk1 (by decide)
    simp only at h1
    exact h1

set_option maxHeartbeats 1000000 in
/-- After scenario A and a switch to the remotes context, with the third file,
the third local branch and the thirteenth remote selected: the pass re-focuses
the file list on row 2 and the branches surface, which the remotes context
owns, on row 12, scrolled down by 5 rows with the cursor on its last row; the
local-branches context is skipped. -/
theorem selection_sync_respects_ownership_witness :
    (10 ≤ selectedEnv.width ∧ 9 ≤ selectedEnv.height) ∧
    (beforeSync selectedEnv remotesGui).err = none ∧
    (∃ L, (layout selectedEnv remotesGui).gui.log = remotesGui.log ++ L ∧
      L.filter (fun e => e.kind = .FocusPoint ∨ e.kind = .SetOnSelectItem) =
        [.FocusPoint "files" 0 2, .SetOnSelectItem "files" "files",
          .FocusPoint "branches" 0 12, .SetOnSelectItem "branches" "remotes"]) ∧
    ((layout selectedEnv remotesGui).gui.views "branches").map
        (fun v => (v.oy, v.cx, v.cy, v.SelBgColor, v.onSelectItem)) =
      some (5, 0, 7, .GocuiSelectedLineBgColor, some "remotes") ∧
    ((layout selectedEnv remotesGui).gui.views "commits").map View.focusState =
      some (0, 0, 0, 0, .ColorDefault, none) :=
  ⟨by decide, rfl,
    ((selection_sync_respects_ownership selectedEnv remotesGui).1 (by decide) rfl).1,
    by decide, rfl⟩

/-- C9 as stated fails: the file list is owned by the file-list context, and
a pass on a 5 by 5 terminal returns no error, makes no call and leaves the
file list as it was: it is not re-focused. -/
theorem no_refocus_below_minimum :
    (coveredGui.views "files").map View.Context = some "files" ∧
    (smallEnv.width < 10 ∨ smallEnv.height < 9) ∧
    (layout smallEnv coveredGui).err = none ∧
    (layout smallEnv coveredGui).gui.log = coveredGui.log ∧
    (layout smallEnv coveredGui).gui.views "files" = coveredGui.views "files" := by
  decide

/-! ## C8 -/

/-- C8, one-time initial setup.  A pass invokes the initial setup once when it
creates the "options" surface and not at all otherwise, and a pass never
deletes the surface; hence over every sequence of passes from a state without
the surface and with no call made yet, the setup is invoked at most once, and
it has been invoked exactly when the surface exists.  A pass at or above the
minimum size that reaches the options block (the blocks before it return no
error, and the backend does not refuse the create-or-update call for
"options") while the surface is missing creates it and invokes the setup
exactly once; and once some pass of a sequence has reached the options block,
the setup has been invoked exactly once, whatever that pass, the setup or any
other pass returned. -/
theorem initial_setup_once :
    (∀ (env : Env) (gui : Gui),
      setupCount (layout env gui).gui.log = setupCount gui.log +
        (if gui.views "options" = none ∧ (layout env gui).gui.views "options" ≠ none then 1
          else 0)) ∧
    (∀ (env : Env) (gui : Gui), gui.views "options" ≠ none →
      (layout env gui).gui.views "options" ≠ none) ∧
    (∀ (envs : List Env) (gui : Gui), gui.views "options" = none → gui.log = [] →
      setupCount (passes envs gui).log ≤ 1 ∧
      (setupCount (passes envs gui).log = 1 ↔ (passes envs gui).views "options" ≠ none)) ∧
    (∀ (env : Env) (gui : Gui), 10 ≤ env.width ∧ 9 ≤ env.height →
      gui.views "options" = none →
      (layoutPrefix env 12 { gui with Highlight := true }).err = none →
      env.setViewFailure "options" = none →
      (layout env gui).gui.views "options" ≠ none ∧
      setupCount (layout env gui).gui.log = setupCount gui.log + 1) ∧
    (∀ (envs1 envs2 : List Env) (env : Env) (gui : Gui),
      gui.views "options" = none → gui.log = [] → 10 ≤ env.width ∧ 9 ≤ env.height →
      (layoutPrefix env 12 { passes envs1 gui with Highlight := true }).err = none →
      env.setViewFailure "options" = none →
      setupCount (passes (envs1 ++ env :: envs2) gui).log = 1) := by
  have hpass : ∀ (env : Env) (gui : Gui),
      setupCount (layout env gui).gui.log = setupCount gui.log +
        (if gui.views "options" = none ∧ (layout env gui).gui.views "options" ≠ none then 1
          else 0) := by
    intro env gui
    have h := pass_setup env gui
    by_cases hv : gui.views "options" = none
    · rcases h.2 hv with ⟨h1, h2⟩ | ⟨h1, h2⟩
      · simp [hv, h1, h2]
      · simp [hv, h1, h2]
    · simp [hv, (h.1 hv).2]
  refine ⟨hpass, fun env gui h => ((pass_setup env gui).1 h).1, fun envs gui hv hl => ?_,
    fun env gui hsize hv hreach hf => ?_,
    fun envs1 envs2 env gui hv hl hsize hreach hf =>
      setup_once_reached envs1 envs2 env gui hv hl hsize hreach hf⟩
  · have h := (passes_setup envs gui).2 hv
    have h0 : setupCount gui.log = 0 := by simp [hl, setupCount]
    rw [h0] at h
    rcases h with ⟨h1, h2⟩ | ⟨h1, h2⟩
    · simp [h1, h2]
    · simp [h1, h2]
  · have hp := pass_reaches_options env gui hsize hreach hf
    refine ⟨hp, ?_⟩
    rw [hpass env gui, if_pos ⟨hv, hp⟩]

/-- A pass below the minimum size, then a pass at full size that reaches the
options block and whose initial setup returns an error, then a healthy pass:
after the three passes the setup has been invoked exactly once. -/
theorem initial_setup_once_witness :
    emptyGui.views "options" = none ∧ emptyGui.log = [] ∧
    (10 ≤ failingSetupEnv.width ∧ 9 ≤ failingSetupEnv.height) ∧
    (layoutPrefix failingSetupEnv 12
      { passes [smallEnv] emptyGui with Highlight := true }).err = none ∧
    failingSetupEnv.setViewFailure "options" = none ∧
    (layout failingSetupEnv (passes [smallEnv] emptyGui)).err = some (.other 1) ∧
    setupCount (passes ([smallEnv] ++ failingSetupEnv :: [sampleEnv]) emptyGui).log = 1 :=
  ⟨rfl, rfl, by decide, rfl, rfl, by decide,
    initial_setup_once.2.2.2.2 [smallEnv] [sampleEnv] failingSetupEnv emptyGui rfl rfl
      (by decide) rfl rfl⟩

/-! ## C4 -/

/-- C4, as amended: after a pass at or above the minimum size that returned
no error while no surface was current, the focused context is the
branch-commit-list context in filter mode and the file-list context
otherwise; a pass during which a surface is current, started with the
"options" surface in place, does not move the focus pointer. -/
theorem initial_focus :
    (∀ (env : Env) (gui : Gui), 10 ≤ env.width ∧ 9 ≤ env.height → env.CurrentView = none →
      (layout env gui).err = none →
      (layout env gui).gui.focused =
        some (if env.inFilterMode then "branch-commits" else "files") ∧
      (layout env gui).gui.views "options" ≠ none) ∧
    (∀ (env : Env) (gui : Gui), env.CurrentView ≠ none → gui.views "options" ≠ none →
      (layout env gui).gui.focused = gui.focused ∧
      (layout env gui).gui.views "options" ≠ none) := by
  constructor
  · intro env gui hsize hcur herr
    constructor
    · have herr2 := herr
      rw [layout_normal env gui hsize] at herr2
      obtain ⟨h18, hrest⟩ := prefix_err_none env 18 _ herr2
      rw [layout_normal env gui hsize, hrest]
      have e3 := drop_effect env 18 allSurfaces allSurfaces allKinds [.PrevMain]
        (by simp [blocks, allSurfaces, allKinds])
        (layoutPrefix env 18 { gui with Highlight := true }).gui
      have hf := e3.fields .focused (by simp)
      simp only [Field.same] at hf
      rw [hf]
      rw [layoutPrefix_step env 17 _ (initialFocus env) rfl] at h18 ⊢
      obtain ⟨h17, h18eq⟩ := andThen_err_none h18
      rw [h18eq] at h18 ⊢
      have hstep : ∀ g, initialFocus env g = switchContext g (initialContext env) := by
        intro g
        simp [initialFocus, hcur]
      rw [hstep] at h18 ⊢
      rw [(switchContext_ok _ _ h18).1, initialContext_key]
    · have h := (layout_established env gui hsize herr) _
        (by simp [blocks] : (⟨layoutOptions env (viewDimensions env), ["options", "files"],
          ["options"], [.createContextTree, .switchContext, .changeMainViewsContext,
            .handleCreateRecentReposMenu, .loadNewRepo], [.focused, .showRecentRepos],
          [("options", .bounds (targetBounds (viewDimensions env) "options" false))],
          ["options"]⟩ : Block) ∈ blocks env)
      have h2 := h.1 _ (List.mem_singleton_self _)
      simp only [Post.holds] at h2
      rw [present_iff, h2]
      simp
  · intro env gui hcur hopt
    have key : FocusKept gui (layout env gui).gui := by
      by_cases hsize : 10 ≤ env.width ∧ 9 ≤ env.height
      · rw [layout_normal env gui hsize]
        refine focusKept_trans _ _ _ (focusKept_of_effect (highlight_effect gui) (by simp)
          (by simp)) (runBlocks_rel FocusKept focusKept_refl focusKept_trans _
            (fun x hx g => ?_) _)
        have hx2 : x.step = layoutOptions env (viewDimensions env) ∨ x.step = initialFocus env ∨
            ("options" ∉ x.B ∧ Field.focused ∉ x.fs) := by
          revert x
          simp [blocks, panelBlock]
        rcases hx2 with h | h | h
        · rw [h]
          exact layoutOptions_focus env _ g
        · rw [h]
          unfold initialFocus
          rw [if_neg hcur]
          exact focusKept_refl g
        · exact focusKept_of_effect (blocks_effect env x hx g) h.1 h.2
      · rw [layout_small env gui (by omega)]
        exact focusKept_trans _ _ _ (focusKept_of_effect (highlight_effect gui) (by simp)
          (by simp)) (focusKept_of_effect (limit_effect env _) (by simp) (by simp))
    exact ⟨(key hopt).2, (key hopt).1⟩

/-- Scenario B from the empty state focuses the branch-commit list, and a
later pass with a surface current keeps it focused. -/
theorem initial_focus_witness :
    (10 ≤ filterEnv.width ∧ 9 ≤ filterEnv.height) ∧ filterEnv.CurrentView = none ∧
    (layout filterEnv emptyGui).err = none ∧
    (layout filterEnv emptyGui).gui.focused = some "branch-commits" ∧
    focusedEnv.CurrentView ≠ none ∧
    (layout filterEnv emptyGui).gui.views "options" ≠ none ∧
    (layout focusedEnv (layout filterEnv emptyGui).gui).gui.focused = some "branch-commits" :=
  have h1 := initial_focus.1 filterEnv emptyGui (by decide) rfl rfl
  have h2 := initial_focus.2 focusedEnv (layout filterEnv emptyGui).gui (by decide) h1.2
  ⟨by decide, rfl, rfl, h1.1, by decide, h1.2, h2.1.trans h1.1⟩

/-- C4 as stated fails: the first pass from the empty state on a 5 by 5
terminal completes and returns no error, and no context is focused after it,
in filter mode or not. -/
theorem no_focus_below_minimum :
    emptyGui.focused = none ∧ emptyGui.order = [] ∧
    (layout smallEnv emptyGui).err = none ∧ (layout smallEnv emptyGui).gui.focused = none ∧
    (layout smallFilterEnv emptyGui).err = none ∧
    (layout smallFilterEnv emptyGui).gui.focused = none := by
  decide

/-! ## C6 -/

/-- C6 fails on the code: in scenario A "secondary" has no region and no
surface.  The closure creates it with bounds (0, 0, 0, 0) and returns the
"unknown view" condition of the creation at once, before the statement that
sends it to the back: it stays on top of "main" in the stacking order, and is
still above "main" when the first pass ends.  The second pass, in which the
surface exists, sends it to the back. -/
theorem hidden_surface_not_sent_back :
    sampleDimensions "secondary" = none ∧
    (layoutMain sampleEnv sampleDimensions emptyGui).gui.views "secondary" = none ∧
    (setViewFromDimensions sampleEnv sampleDimensions
      (layoutMain sampleEnv sampleDimensions emptyGui).gui "secondary" "secondary" true).err =
      some .unknownView ∧
    ((setViewFromDimensions sampleEnv sampleDimensions
      (layoutMain sampleEnv sampleDimensions emptyGui).gui "secondary" "secondary"
      true).gui.views "secondary").map View.bounds = some (0, 0, 0, 0) ∧
    (setViewFromDimensions sampleEnv sampleDimensions
      (layoutMain sampleEnv sampleDimensions emptyGui).gui "secondary" "secondary"
      true).gui.order = ["main", "secondary"] ∧
    (layout sampleEnv emptyGui).err = none ∧
    (layout sampleEnv emptyGui).gui.order =
      ["appStatus", "credentials", "commitMessage", "main", "secondary", "status", "branches",
        "commitFiles", "commits", "stash", "options", "searchPrefix", "search", "information",
        "files"] ∧
    (layout sampleEnv (layout sampleEnv emptyGui).gui).gui.order =
      ["appStatus", "search", "searchPrefix", "secondary", "credentials", "commitMessage", "main",
        "status", "branches", "commitFiles", "commits", "stash", "options", "information",
        "files"] := by
  decide

/-! ## C7 -/

/-- C7, error propagation: every error a pass returns is a failure of a
create-or-update call other than "unknown view", or the error of a
collaborator; with a backend that only ever raises "unknown view" and healthy
collaborators the pass returns no error.  When the create-or-update call of a
panel fails with another error, the pass returns exactly that error at that
point: the state is the one the earlier blocks left, no later panel is created
or updated, and the panels laid out earlier in the pass have their new
bounds. -/
theorem error_propagation :
    (∀ (env : Env) (gui : Gui) (e : GoError), (layout env gui).err = some e →
      Propagated env e) ∧
    (∀ (env : Env) (gui : Gui), (∀ n, env.setViewFailure n = none) →
      env.handleCreateRecentReposMenuErr = none → env.loadNewRepoErr = none →
      env.onResizeErr = none → env.resizeCurrentPopupPanelErr = none →
      (layout env gui).err = none) ∧
    (∀ (env : Env) (gui : Gui) (i : Nat) (p : String) (c : Nat),
      panelOrder[i]? = some p → 10 ≤ env.width ∧ 9 ≤ env.height →
      (layoutPrefix env (i + 2) { gui with Highlight := true }).err = none →
      env.setViewFailure p = some c →
      ((p = "commitMessage" ∨ p = "credentials") → gui.views p = none) →
      (layout env gui).err = some (.other c) ∧
      (layout env gui).gui = (layoutPrefix env (i + 2) { gui with Highlight := true }).gui ∧
      (∀ q ∈ panelOrder.drop i, (layout env gui).gui.views q = gui.views q) ∧
      (∀ q ∈ panelOrder.take i, ∀ w f, panelWindow q = some (w, f) →
        ((layout env gui).gui.views q).map View.bounds =
          some (targetBounds (viewDimensions env) w f))) := by
  refine ⟨layout_err_propagated, fun env gui hf h1 h2 h3 h4 => ?_,
    fun env gui i p c hp hsize hreach hf hcall => ?_⟩
  · cases h : (layout env gui).err with
    | none => rfl
    | some e =>
      exfalso
      rcases layout_err_propagated env gui e h with ⟨n, c, hn, _⟩ | h | h | h | h
      · rw [hf n] at hn
        simp at hn
      · rw [h1] at h
        simp at h
      · rw [h2] at h
        simp at h
      · rw [h3] at h
        simp at h
      · rw [h4] at h
        simp at h
  · obtain ⟨hi, _⟩ := List.getElem?_eq_some.1 hp
    have hi15 : i ≤ 15 := by
      simp only [panelOrder, List.length_cons, List.length_nil] at hi
      omega
    -- what the earlier blocks may have touched
    have e1 := (highlight_effect gui).trans (take_effect env (i + 2)
      ("limit" :: panelOrder.take i) allSurfaces allKinds allFields
      (fun x hx => ⟨prefix_touches env i hi15 x hx,
        blocks_within env x (List.mem_of_mem_take hx)⟩) { gui with Highlight := true })
    have hlater : ∀ q ∈ panelOrder.drop i,
        (layoutPrefix env (i + 2) { gui with Highlight := true }).gui.views q = gui.views q :=
      fun q hq => e1.views q (by simpa using later_not_earlier i q hq)
    have hpmem : p ∈ panelOrder.drop i := by
      rw [List.mem_iff_getElem?]
      exact ⟨0, by rw [List.getElem?_drop]; simpa using hp⟩
    -- the block of `p` fails at once
    obtain ⟨s, hs, hfail⟩ := panel_fails env i p hp c hf
    have hstop := hfail (layoutPrefix env (i + 2) { gui with Highlight := true }).gui
      (fun h => by rw [hlater p hpmem]; exact hcall h)
    have hrun : layout env gui =
        ⟨(layoutPrefix env (i + 2) { gui with Highlight := true }).gui, some (.other c)⟩ := by
      rw [layout_normal env gui hsize, run_split env (i + 2 + 1),
        layoutPrefix_step env (i + 2) _ s hs, andThen_of_err_none hreach, hstop]
      rfl
    rw [hrun]
    refine ⟨rfl, rfl, hlater, fun q hq w f hw => ?_⟩
    obtain ⟨j, hj, hget⟩ := List.mem_take_iff_getElem.1 hq
    have hj2 : j < i ∧ j < panelOrder.length := by omega
    obtain ⟨x, hx, hens⟩ := panel_block_ensures env j q w f
      (List.getElem?_eq_some.2 ⟨hj2.2, hget⟩) hw
    have hxmem : x ∈ (blocks env).take (i + 2) := by
      obtain ⟨hlen, hxget⟩ := List.getElem?_eq_some.1 hx
      exact List.mem_take_iff_getElem.2 ⟨j + 2, by omega, hxget⟩
    exact (prefix_established env (i + 2) _ hreach x hxmem).1 _ hens

/-- Scenario A from the empty state with a backend that fails on "files"
with error 7: the pass returns that error, "main" has its bounds and no
surface from "files" on was created. -/
theorem error_propagation_witness :
    panelOrder[3]? = some "files" ∧
    (10 ≤ failingFilesEnv.width ∧ 9 ≤ failingFilesEnv.height) ∧
    (layoutPrefix failingFilesEnv 5 { emptyGui with Highlight := true }).err = none ∧
    failingFilesEnv.setViewFailure "files" = some 7 ∧
    (layout failingFilesEnv emptyGui).err = some (.other 7) ∧
    (∀ q ∈ ["files", "branches", "commitFiles", "commits", "stash", "commitMessage",
        "credentials", "options", "searchPrefix", "search", "appStatus", "information"],
      (layout failingFilesEnv emptyGui).gui.views q = none) ∧
    ((layout failingFilesEnv emptyGui).gui.views "main").map View.bounds =
      some (60, 0, 199, 47) :=
  have h := error_propagation.2.2 failingFilesEnv emptyGui 3 "files" 7 rfl (by decide) rfl rfl
    (by decide)
  ⟨rfl, by decide, rfl, rfl, h.1, h.2.2.1, h.2.2.2 "main" (by decide) "main" true rfl⟩

/-! ## C3 -/

/-- C3, idempotence: from every state reached by a layout pass that returned
no error, a second pass on the same inputs (whichever surface is current by
then, provided one is current if one was during the first pass) returns no
error and leaves every surface exactly as it is: bounds, content, origin and
cursor, styling and ownership tag.  It leaves the cached information string,
the remembered main size, the focus pointer and the other state fields
unchanged, and the only collaborators it calls are the context switch of the
initial-focus block, the focus and callback calls of the loop over the list
contexts and the popup resize: the initial setup is not run again, the
information surface is not rewritten, no buffer lines are requested and the
resize hook is not fired. -/
theorem layout_idempotent (env : Env) (gui : Gui) (c : Option String)
    (hc : c = none → env.CurrentView = none) (h : (layout env gui).err = none) :
    (layout { env with CurrentView := c } (layout env gui).gui).err = none ∧
    (∀ n, (layout { env with CurrentView := c } (layout env gui).gui).gui.views n =
      (layout env gui).gui.views n) ∧
    (layout { env with CurrentView := c } (layout env gui).gui).gui.OldInformation =
      (layout env gui).gui.OldInformation ∧
    (layout { env with CurrentView := c } (layout env gui).gui).gui.PrevMainWidth =
      (layout env gui).gui.PrevMainWidth ∧
    (layout { env with CurrentView := c } (layout env gui).gui).gui.PrevMainHeight =
      (layout env gui).gui.PrevMainHeight ∧
    (layout { env with CurrentView := c } (layout env gui).gui).gui.focused =
      (layout env gui).gui.focused ∧
    (layout { env with CurrentView := c } (layout env gui).gui).gui.showRecentRepos =
      (layout env gui).gui.showRecentRepos ∧
    (layout { env with CurrentView := c } (layout env gui).gui).gui.Highlight =
      (layout env gui).gui.Highlight ∧
    ∃ L, (layout { env with CurrentView := c } (layout env gui).gui).gui.log =
        (layout env gui).gui.log ++ L ∧
      ∀ e ∈ L, e.kind ∈ [EventKind.switchContext, .FocusPoint, .SetOnSelectItem,
        .resizeCurrentPopupPanel] := by
  obtain ⟨h1, h2⟩ := second_pass_quiet env gui c hc h
  have hp : Field.same .PrevMain (layout env gui).gui
      (layout { env with CurrentView := c } (layout env gui).gui).gui := h2.fields _ (by simp)
  exact ⟨h1, fun n => h2.views n (by simp), h2.fields .OldInformation (by simp), hp.1, hp.2,
    h2.fields .focused (by simp), h2.fields .showRecentRepos (by simp),
    h2.fields .Highlight (by simp), h2.log⟩

/-- Scenario A twice, with no surface current on either pass: the second pass
returns no error, changes no surface, and calls the context switch, the focus
and callback of the file list and the popup resize, and nothing else. -/
theorem layout_idempotent_witness :
    (sampleEnv.CurrentView = none) ∧ (layout sampleEnv emptyGui).err = none ∧
    (layout { sampleEnv with CurrentView := none } (layout sampleEnv emptyGui).gui).err = none ∧
    (∀ n, (layout { sampleEnv with CurrentView := none }
        (layout sampleEnv emptyGui).gui).gui.views n = (layout sampleEnv emptyGui).gui.views n) ∧
    (layout { sampleEnv with CurrentView := none } (layout sampleEnv emptyGui).gui).gui.log =
      (layout sampleEnv emptyGui).gui.log ++
        [.switchContext "files", .FocusPoint "files" 0 0, .SetOnSelectItem "files" "files",
          .resizeCurrentPopupPanel] :=
  have h := layout_idempotent sampleEnv emptyGui none (fun _ => rfl) rfl
  ⟨rfl, rfl, h.1, h.2.1, by decide⟩

end Lazygit
